import Mathlib

/-!
# Reservation and availability engine of `abneribeiro/goapi`

A shallow embedding of the booking core of the repository and of the packages
around it:

* `internal/model` (reservation, equipment, notification records),
* `internal/repository` (the SQL statements of the equipment, reservation and
  notification repositories, read as operations on in-memory tables),
* `internal/service/reservation.go` (the `ReservationService`) and the price
  tiers of `internal/service/equipment.go` (the `EquipmentService`),
* the error dispatch of `internal/handler/reservation.go` and the pagination
  `meta` of the list and search handlers,
* `internal/pkg/pagination`, `internal/pkg/validator` and `internal/pkg/jwt`.

Modelling conventions.

* `time.Time` is the number of nanoseconds since Go's zero time, read in UTC;
  `time.Duration` is a number of nanoseconds, and `Time.Sub` saturates at the
  `int64` bounds as the Go library does.
* `float64` values (prices, `Duration.Hours`) are values of type `Float64`:
  every conversion and operation rounds its exact result to the nearest value,
  ties to even, and overflows to an infinity; no two operations are fused (as
  on amd64).  The two zeros are one value.
* `int` and `int64` values are integers; where a result can leave the 64-bit
  range it is wrapped (`wrapInt64`).  Strings are Unicode texts.
* `uuid.UUID` values are natural numbers; the value produced by `uuid.New()`,
  the readings of `time.Now()` and the outcome of the notification insert are
  inputs of each call (`Env`).
* The database is a record of tables.  The primary keys of `reservations` and
  `equipment` and the foreign key of `reservations` to `equipment` are enforced
  on insert; the `users` table is not represented (every user id is taken to
  exist).  Reads and writes on `equipment` and `reservations` do not fail for
  reasons other than those constraints.  Every repository call of the services
  is appended to `DB.calls`; the availability calendar only reads the store.
-/

namespace GoApi

/-! ## The type `float64` -/

/-- A value of Go's `float64` (IEEE 754 binary64): a finite value, given as a
rational, an infinity or a NaN.  The `float64` values among the rationals are
those that `Float64.round` leaves unchanged; the operations below are defined on
every rational.  The two zeros, which compare equal, are one value here. -/
inductive Float64
  | finite (value : ℚ)
  | inf (negative : Bool)
  | nan
  deriving DecidableEq

/-- Numerals are finite values. -/
instance (n : Nat) : OfNat Float64 n := ⟨Float64.finite n⟩

/-- The integer nearest to `x`, the even one of the two when `x` is half-way. -/
def Float64.roundHalfEven (x : ℚ) : Int :=
  if x - ⌊x⌋ < 1 / 2 then ⌊x⌋
  else if 1 / 2 < x - ⌊x⌋ then ⌊x⌋ + 1
  else if ⌊x⌋ % 2 = 0 then ⌊x⌋ else ⌊x⌋ + 1

/-- The exponent of the spacing of the `float64` values around `q`: with
`2 ^ e <= |q| < 2 ^ (e + 1)` it is `e - 52`, and `-1074` in the subnormal
range. -/
def Float64.ulpExp (q : ℚ) : Int := max (Int.log 2 |q|) (-1022) - 52

/-- Rounding to nearest, ties to even, with an unbounded exponent: the multiple
of `2 ^ ulpExp q` nearest to `q`. -/
def Float64.round (q : ℚ) : ℚ :=
  if q = 0 then 0
  else if q < 0 then
    -((Float64.roundHalfEven (|q| / 2 ^ Float64.ulpExp q) : ℚ) * 2 ^ Float64.ulpExp q)
  else (Float64.roundHalfEven (|q| / 2 ^ Float64.ulpExp q) : ℚ) * 2 ^ Float64.ulpExp q

/-- The `float64` result of an operation whose exact result is `q`: `q` rounded
to nearest, ties to even, and an infinity when that is `2 ^ 1024` or more in
magnitude. -/
def Float64.ofRat (q : ℚ) : Float64 :=
  if (2 : ℚ) ^ 1024 ≤ Float64.round q then .inf false
  else if Float64.round q ≤ -(2 : ℚ) ^ 1024 then .inf true
  else .finite (Float64.round q)

/-- The conversion `float64(n)` of an integer. -/
def Float64.ofInt (n : Int) : Float64 := Float64.ofRat n

/-- The product `x * y` of `float64` values. -/
def Float64.mul : Float64 → Float64 → Float64
  | .nan, _ => .nan
  | _, .nan => .nan
  | .finite x, .finite y => Float64.ofRat (x * y)
  | .finite x, .inf s => if x = 0 then .nan else .inf (xor (decide (x < 0)) s)
  | .inf s, .finite y => if y = 0 then .nan else .inf (xor s (decide (y < 0)))
  | .inf s, .inf t => .inf (xor s t)

/-- The comparison `x < y` of `float64` values; it is false when either is a NaN. -/
def Float64.lt : Float64 → Float64 → Bool
  | .finite x, .finite y => decide (x < y)
  | .finite _, .inf s => !s
  | .inf s, .finite _ => s
  | .inf s, .inf t => s && !t
  | .nan, _ => false
  | _, .nan => false

/-- The order `<` of `float64` values. -/
instance : LT Float64 := ⟨fun x y => Float64.lt x y = true⟩

/-- The sum `x + y` of `float64` values. -/
def Float64.add : Float64 → Float64 → Float64
  | .nan, _ => .nan
  | _, .nan => .nan
  | .finite x, .finite y => Float64.ofRat (x + y)
  | .finite _, .inf s => .inf s
  | .inf s, .finite _ => .inf s
  | .inf s, .inf t => if s = t then .inf s else .nan

/-! ## Package `time` -/

/-- Nanoseconds since the zero time (January 1, year 1, 00:00:00 UTC). -/
abbrev Time := Int

/-- Go's `time.Duration`: a count of nanoseconds. -/
abbrev Duration := Int

/-- The constant `time.Hour`. -/
def Hour : Duration := 3600000000000

/-- Smallest `time.Duration` (`-1 << 63`). -/
def minDuration : Duration := -9223372036854775808

/-- Largest `time.Duration` (`1<<63 - 1`). -/
def maxDuration : Duration := 9223372036854775807

/-- Method `Time.IsZero`. -/
def Time.IsZero (t : Time) : Bool := decide (t = 0)

/-- Method `Time.After`: `t` is strictly after `u`. -/
def Time.After (t u : Time) : Bool := decide (u < t)

/-- Method `Time.Before`: `t` is strictly before `u`. -/
def Time.Before (t u : Time) : Bool := decide (t < u)

/-- Method `Time.Add`. -/
def Time.Add (t : Time) (d : Duration) : Time := t + d

/-- Method `Time.Sub`: the duration `t - u`, clamped to the range of `Duration`. -/
def Time.Sub (t u : Time) : Duration :=
  if maxDuration < t - u then maxDuration
  else if t - u < minDuration then minDuration
  else t - u

/-- Method `Time.Truncate`: round `t` down to a multiple of `d` since the zero
time; `t` itself when `d <= 0`. -/
def Time.Truncate (t : Time) (d : Duration) : Time :=
  if d ≤ 0 then t else t - t % d

/-- Method `Duration.Hours`: `float64(d / Hour) + float64(d % Hour) / (60*60*1e9)`,
with Go's truncating integer division; the two conversions, the quotient and
the sum are each rounded to `float64`.  For a duration of the `int64` range the
values are below `2 ^ 22` in magnitude, so the result is finite: it is given as
a rational. -/
def Duration.Hours (d : Duration) : ℚ :=
  Float64.round (Float64.round ((Int.tdiv d Hour : Int) : ℚ)
    + Float64.round (Float64.round ((Int.tmod d Hour : Int) : ℚ) / (60 * 60 * 1000000000)))

/-! ## Package `model` -/

/-- Stand-in for `uuid.UUID`. -/
abbrev UUID := Nat

/-- The constants of type `model.ReservationStatus`. -/
inductive ReservationStatus
  | StatusPending
  | StatusApproved
  | StatusCancelled
  | StatusCompleted
  | StatusRejected
  deriving DecidableEq, Repr

/-- The constants of type `model.NotificationType`. -/
inductive NotificationType
  | NotificationReservationCreated
  | NotificationReservationApproved
  | NotificationReservationRejected
  | NotificationReservationCancelled
  | NotificationReservationCompleted
  | NotificationReservationReminder
  | NotificationEquipmentReturned
  | NotificationPaymentReceived
  deriving DecidableEq, Repr

/-- Struct `model.Equipment` (fields used by the reservation engine); also a row
of table `equipment`. -/
structure Equipment where
  ID : UUID
  OwnerID : UUID
  Name : String
  PricePerHour : Option Float64
  PricePerDay : Option Float64
  PricePerWeek : Option Float64
  Available : Bool
  AutoApprove : Bool
  deriving DecidableEq

/-- Struct `model.Reservation`. -/
structure Reservation where
  ID : UUID
  EquipmentID : UUID
  Equipment : Option Equipment
  RenterID : UUID
  StartDate : Time
  EndDate : Time
  Status : ReservationStatus
  TotalPrice : Float64
  CancellationReason : String
  CreatedAt : Time
  UpdatedAt : Time
  deriving DecidableEq

/-- Struct `model.CreateReservationRequest`. -/
structure CreateReservationRequest where
  EquipmentID : UUID
  StartDate : Time
  EndDate : Time
  deriving DecidableEq

/-- Struct `model.Notification` (without its own id and creation time); also a
row of table `notifications`. -/
structure Notification where
  UserID : UUID
  Type_ : NotificationType
  Title : String
  Message : String
  Read : Bool
  ReferenceID : Option UUID
  ReferenceType : String
  deriving DecidableEq

/-! ## Package `validator` -/

/-- Struct `validator.ValidationError`. -/
structure ValidationError where
  Field : String
  Message : String
  deriving DecidableEq, Repr

/-- Type `validator.ValidationErrors`. -/
abbrev ValidationErrors := List ValidationError

/-- Method `ValidationErrors.HasErrors`. -/
def ValidationErrors.HasErrors (ve : ValidationErrors) : Bool := decide (ve.length > 0)

/-- Method `Validator.AddError`, on the list of errors of the validator. -/
def Validator.AddError (errors : ValidationErrors) (field message : String) : ValidationErrors :=
  errors ++ [{ Field := field, Message := message }]

/-! ## Go `error` values -/

/-- The `error` values that reach the services and the reservation handler. -/
inductive GoError
  | repoErrEquipmentNotFound      -- repository.ErrEquipmentNotFound
  | repoErrReservationNotFound    -- repository.ErrReservationNotFound
  | ErrEquipmentNotFound          -- service.ErrEquipmentNotFound
  | ErrReservationNotFound        -- service.ErrReservationNotFound
  | ErrCannotCancel
  | ErrNotAuthorized
  | ErrEquipmentUnavailable
  | ErrInvalidDateRange
  | ErrReservationNotPending
  | ErrNotOwner                   -- service.ErrNotOwner
  | ErrInvalidToken               -- jwt.ErrInvalidToken
  | ErrExpiredToken               -- jwt.ErrExpiredToken
  | Validation (ve : ValidationErrors)  -- a validator.ValidationErrors value
  | errorsNew (text : String)           -- a value made by errors.New at the point of failure
  | driver (text : String)              -- an error reported by database/sql
  | runtimePanic (text : String)        -- abrupt termination by a run-time panic
  deriving DecidableEq

/-! ## The database -/

/-- Row of table `reservations`. -/
structure ReservationRow where
  id : UUID
  equipment_id : UUID
  renter_id : UUID
  start_date : Time
  end_date : Time
  status : ReservationStatus
  total_price : Float64
  cancellation_reason : Option String
  created_at : Time
  updated_at : Time
  deriving DecidableEq

/-- Calls issued to the repositories. -/
inductive RepoCall
  | EquipmentGetByID (id : UUID)
  | EquipmentCheckAvailability (equipmentID : UUID) (startDate endDate : Time)
  | ReservationCreate (id : UUID)
  | ReservationGetByID (id : UUID)
  | ReservationUpdateStatus (id : UUID) (status : ReservationStatus) (reason : String)
  | NotificationCreate (userID : UUID) (type : NotificationType)
  | EquipmentCreate (id : UUID)
  | EquipmentUpdate (id : UUID)
  deriving DecidableEq

/-- The tables read and written by the reservation engine, and the list of
repository calls made so far (oldest first). -/
structure DB where
  equipment : List Equipment
  reservations : List ReservationRow
  notifications : List Notification
  calls : List RepoCall

/-- Append a repository call to the call list. -/
def DB.record (db : DB) (c : RepoCall) : DB :=
  { db with calls := db.calls ++ [c] }

/-- Inputs a call takes from outside the program. -/
structure Env where
  /-- Reading of `time.Now()` in the service. -/
  now : Time
  /-- Reading of `time.Now()` in the repository, for `created_at` / `updated_at`. -/
  stamp : Time
  /-- Value of `uuid.New()` in `ReservationRepository.Create`. -/
  newID : UUID
  /-- Whether the k-th `NotificationRepository.Create` of the call returns an error. -/
  notifyFails : Nat → Bool

/-! ## Package `repository` -/

/-- Method `EquipmentRepository.GetByID`: the row of `equipment` with the given
id, or `repository.ErrEquipmentNotFound` when there is none. -/
def EquipmentRepository.GetByID (db : DB) (id : UUID) : Except GoError Equipment × DB :=
  match db.equipment.find? (fun e => decide (e.ID = id)) with
  | some equipment => (.ok equipment, db.record (.EquipmentGetByID id))
  | none => (.error .repoErrEquipmentNotFound, db.record (.EquipmentGetByID id))

/-- The WHERE clause of the query of `EquipmentRepository.CheckAvailability`,
with `$1 = equipmentID`, `$2 = startDate`, `$3 = endDate`. -/
def EquipmentRepository.CheckAvailability.whereClause (equipmentID : UUID)
    (startDate endDate : Time) (r : ReservationRow) : Bool :=
  decide (r.equipment_id = equipmentID)
  && (decide (r.status = .StatusPending) || decide (r.status = .StatusApproved))
  && ((decide (r.start_date ≤ startDate) && decide (r.end_date ≥ startDate))
      || (decide (r.start_date ≤ endDate) && decide (r.end_date ≥ endDate))
      || (decide (r.start_date ≥ startDate) && decide (r.end_date ≤ endDate)))

/-- Method `EquipmentRepository.CheckAvailability`: `SELECT COUNT(*)` of the
matching rows, and the answer `count == 0`. -/
def EquipmentRepository.CheckAvailability (db : DB) (equipmentID : UUID)
    (startDate endDate : Time) : Except GoError Bool × DB :=
  let count := (db.reservations.filter
    (EquipmentRepository.CheckAvailability.whereClause equipmentID startDate endDate)).length
  (.ok (decide (count = 0)), db.record (.EquipmentCheckAvailability equipmentID startDate endDate))

/-- Method `ReservationRepository.Create`: sets `ID`, `CreatedAt`, `UpdatedAt` on
the reservation and inserts the row.  The insert is refused by the database when
the primary key is taken or the equipment row is missing.  Returns the
reservation as left by the call, the error (if any) and the database. -/
def ReservationRepository.Create (db : DB) (env : Env) (reservation : Reservation) :
    Reservation × Option GoError × DB :=
  let reservation := { reservation with ID := env.newID, CreatedAt := env.stamp, UpdatedAt := env.stamp }
  let db := db.record (.ReservationCreate reservation.ID)
  if db.reservations.any (fun r => decide (r.id = reservation.ID)) then
    (reservation, some (.driver "duplicate key value violates unique constraint"), db)
  else if !db.equipment.any (fun e => decide (e.ID = reservation.EquipmentID)) then
    (reservation, some (.driver "insert violates foreign key constraint"), db)
  else
    (reservation, none,
      { db with reservations := db.reservations ++ [
        { id := reservation.ID
          equipment_id := reservation.EquipmentID
          renter_id := reservation.RenterID
          start_date := reservation.StartDate
          end_date := reservation.EndDate
          status := reservation.Status
          total_price := reservation.TotalPrice
          cancellation_reason := none
          created_at := reservation.CreatedAt
          updated_at := reservation.UpdatedAt }] })

/-- The `Scan` of `ReservationRepository.GetByID`: the reservation built from a row
of `reservations` joined with its row of `equipment`.  Of the equipment only id,
name, prices and owner_id are selected; the other fields keep their zero value.
A NULL `cancellation_reason` is read as the empty string. -/
def ReservationRepository.GetByID.scan (r : ReservationRow) (e : Equipment) : Reservation :=
  { ID := r.id
    EquipmentID := r.equipment_id
    Equipment := some
      { ID := e.ID
        OwnerID := e.OwnerID
        Name := e.Name
        PricePerHour := e.PricePerHour
        PricePerDay := e.PricePerDay
        PricePerWeek := e.PricePerWeek
        Available := false
        AutoApprove := false }
    RenterID := r.renter_id
    StartDate := r.start_date
    EndDate := r.end_date
    Status := r.status
    TotalPrice := r.total_price
    CancellationReason := r.cancellation_reason.getD ""
    CreatedAt := r.created_at
    UpdatedAt := r.updated_at }

/-- Method `ReservationRepository.GetByID`: the row with the given id, left-joined
with its equipment.  A missing row gives `repository.ErrReservationNotFound`; a
missing equipment row makes `Scan` fail on a NULL column. -/
def ReservationRepository.GetByID (db : DB) (id : UUID) : Except GoError Reservation × DB :=
  match db.reservations.find? (fun r => decide (r.id = id)) with
  | none => (.error .repoErrReservationNotFound, db.record (.ReservationGetByID id))
  | some r =>
    match db.equipment.find? (fun e => decide (e.ID = r.equipment_id)) with
    | none => (.error (.driver "sql: Scan error: converting NULL to string is unsupported"),
        db.record (.ReservationGetByID id))
    | some e => (.ok (ReservationRepository.GetByID.scan r e), db.record (.ReservationGetByID id))

/-- Method `ReservationRepository.UpdateStatus`: `UPDATE reservations SET status,
cancellation_reason, updated_at WHERE id`; the reason is stored as NULL when it
is the empty string; `repository.ErrReservationNotFound` when no row is affected. -/
def ReservationRepository.UpdateStatus (db : DB) (env : Env) (id : UUID)
    (status : ReservationStatus) (reason : String) : Option GoError × DB :=
  let reasonPtr : Option String := if reason ≠ "" then some reason else none
  let db := db.record (.ReservationUpdateStatus id status reason)
  let rows := (db.reservations.filter (fun r => decide (r.id = id))).length
  if rows = 0 then (some .repoErrReservationNotFound, db)
  else
    (none, { db with reservations := db.reservations.map (fun r =>
      if r.id = id then
        { r with status := status, cancellation_reason := reasonPtr, updated_at := env.stamp }
      else r) })

/-- Method `NotificationRepository.Create`: sets `Read = false` and inserts the
row, unless the insert fails. -/
def NotificationRepository.Create (db : DB) (fails : Bool) (notification : Notification) :
    Option GoError × DB :=
  let notification := { notification with Read := false }
  let db := db.record (.NotificationCreate notification.UserID notification.Type_)
  if fails then (some (.driver "insert into notifications failed"), db)
  else (none, { db with notifications := db.notifications ++ [notification] })

/-! ## Package `service`: `ReservationService` -/

/-- Method `ReservationService.calculatePrice`.  `duration.Hours() / 24` is a
`float64` quotient, `math.Ceil` of a finite value is its ceiling, and the
conversions `float64(weeks)`, `float64(remainingDays)`, `float64(days)`,
`float64(hours)` and the products and the sum are `float64` operations. -/
def ReservationService.calculatePrice (equipment : Equipment) (startDate endDate : Time) :
    Float64 :=
  let duration := Time.Sub endDate startDate
  let days : Int := Int.ceil (Float64.round (Duration.Hours duration / 24))
  match equipment.PricePerWeek, decide (days ≥ 7) with
  | some pricePerWeek, true =>
    let weeks := Int.tdiv days 7
    let remainingDays := Int.tmod days 7
    let weekPrice := Float64.mul (Float64.ofInt weeks) pricePerWeek
    match decide (remainingDays > 0), equipment.PricePerDay with
    | true, some pricePerDay =>
      Float64.add weekPrice (Float64.mul (Float64.ofInt remainingDays) pricePerDay)
    | _, _ => weekPrice
  | _, _ =>
    match equipment.PricePerDay with
    | some pricePerDay => Float64.mul (Float64.ofInt days) pricePerDay
    | none =>
      match equipment.PricePerHour with
      | some pricePerHour =>
        let hours : Int := Int.ceil (Duration.Hours duration)
        Float64.mul (Float64.ofInt hours) pricePerHour
      | none => 0

/-- Method `ReservationService.createNotification`: the error of the repository
call is dropped. -/
def ReservationService.createNotification (db : DB) (fails : Bool) (userID : UUID)
    (notifType : NotificationType) (title message : String) (refID : Option UUID)
    (refType : String) : DB :=
  (NotificationRepository.Create db fails
    { UserID := userID
      Type_ := notifType
      Title := title
      Message := message
      Read := false
      ReferenceID := refID
      ReferenceType := refType }).2

/-- The validation block at the head of `ReservationService.Create`: the errors
collected by the validator. -/
def ReservationService.Create.validation (now : Time) (req : CreateReservationRequest) :
    ValidationErrors :=
  let v : ValidationErrors := []
  let v := if Time.IsZero req.StartDate then Validator.AddError v "start_date" "is required" else v
  let v := if Time.IsZero req.EndDate then Validator.AddError v "end_date" "is required" else v
  if !Time.IsZero req.StartDate && !Time.IsZero req.EndDate then
    let v := if !Time.After req.EndDate req.StartDate then
      Validator.AddError v "end_date" "must be after start_date" else v
    let v := if Time.Before req.StartDate (Time.Truncate now (24 * Hour)) then
      Validator.AddError v "start_date" "must be in the future" else v
    v
  else v

/-- Method `ReservationService.Create`. -/
def ReservationService.Create (db : DB) (env : Env) (renterID : UUID)
    (req : CreateReservationRequest) : Except GoError Reservation × DB :=
  let v := ReservationService.Create.validation env.now req
  if ValidationErrors.HasErrors v then (.error (.Validation v), db)
  else
    match EquipmentRepository.GetByID db req.EquipmentID with
    | (.error err, db) =>
      if err = .repoErrEquipmentNotFound then (.error .ErrEquipmentNotFound, db)
      else (.error err, db)
    | (.ok equipment, db) =>
      if !equipment.Available then (.error .ErrEquipmentUnavailable, db)
      else
        match EquipmentRepository.CheckAvailability db req.EquipmentID req.StartDate req.EndDate with
        | (.error err, db) => (.error err, db)
        | (.ok available, db) =>
          if !available then (.error .ErrEquipmentUnavailable, db)
          else
            let totalPrice := ReservationService.calculatePrice equipment req.StartDate req.EndDate
            let status := if equipment.AutoApprove then ReservationStatus.StatusApproved
              else ReservationStatus.StatusPending
            match ReservationRepository.Create db env
              { ID := 0
                EquipmentID := req.EquipmentID
                Equipment := none
                RenterID := renterID
                StartDate := req.StartDate
                EndDate := req.EndDate
                Status := status
                TotalPrice := totalPrice
                CancellationReason := ""
                CreatedAt := 0
                UpdatedAt := 0 } with
            | (_, some err, db) => (.error err, db)
            | (reservation, none, db) =>
              let db := ReservationService.createNotification db (env.notifyFails 0)
                equipment.OwnerID .NotificationReservationCreated
                "New Reservation Request"
                ("You have a new reservation request for " ++ equipment.Name)
                (some reservation.ID) "reservation"
              let db := if status = .StatusApproved then
                ReservationService.createNotification db (env.notifyFails 1)
                  renterID .NotificationReservationApproved
                  "Reservation Approved"
                  ("Your reservation for " ++ equipment.Name ++ " has been automatically approved")
                  (some reservation.ID) "reservation"
                else db
              (.ok reservation, db)

/-- Method `ReservationService.GetByID`. -/
def ReservationService.GetByID (db : DB) (id : UUID) (userID : UUID) :
    Except GoError Reservation × DB :=
  match ReservationRepository.GetByID db id with
  | (.error err, db) =>
    if err = .repoErrReservationNotFound then (.error .ErrReservationNotFound, db)
    else (.error err, db)
  | (.ok reservation, db) =>
    match reservation.Equipment with
    | none => (.error (.runtimePanic "nil pointer dereference"), db)
    | some equipment =>
      if reservation.RenterID ≠ userID ∧ equipment.OwnerID ≠ userID then
        (.error .ErrNotAuthorized, db)
      else (.ok reservation, db)

/-- Method `ReservationService.Approve`. -/
def ReservationService.Approve (db : DB) (env : Env) (id : UUID) (ownerID : UUID) :
    Except GoError Reservation × DB :=
  match ReservationRepository.GetByID db id with
  | (.error err, db) =>
    if err = .repoErrReservationNotFound then (.error .ErrReservationNotFound, db)
    else (.error err, db)
  | (.ok reservation, db) =>
    match reservation.Equipment with
    | none => (.error (.runtimePanic "nil pointer dereference"), db)
    | some equipment =>
      if equipment.OwnerID ≠ ownerID then (.error .ErrNotAuthorized, db)
      else if reservation.Status ≠ .StatusPending then (.error .ErrReservationNotPending, db)
      else
        match ReservationRepository.UpdateStatus db env id .StatusApproved "" with
        | (some err, db) => (.error err, db)
        | (none, db) =>
          let db := ReservationService.createNotification db (env.notifyFails 0)
            reservation.RenterID .NotificationReservationApproved
            "Reservation Approved"
            ("Your reservation for " ++ equipment.Name ++ " has been approved")
            (some id) "reservation"
          (.ok { reservation with Status := .StatusApproved }, db)

/-- Method `ReservationService.Reject`. -/
def ReservationService.Reject (db : DB) (env : Env) (id : UUID) (ownerID : UUID)
    (reason : String) : Except GoError Reservation × DB :=
  match ReservationRepository.GetByID db id with
  | (.error err, db) =>
    if err = .repoErrReservationNotFound then (.error .ErrReservationNotFound, db)
    else (.error err, db)
  | (.ok reservation, db) =>
    match reservation.Equipment with
    | none => (.error (.runtimePanic "nil pointer dereference"), db)
    | some equipment =>
      if equipment.OwnerID ≠ ownerID then (.error .ErrNotAuthorized, db)
      else if reservation.Status ≠ .StatusPending then (.error .ErrReservationNotPending, db)
      else
        match ReservationRepository.UpdateStatus db env id .StatusRejected reason with
        | (some err, db) => (.error err, db)
        | (none, db) =>
          let db := ReservationService.createNotification db (env.notifyFails 0)
            reservation.RenterID .NotificationReservationRejected
            "Reservation Rejected"
            ("Your reservation for " ++ equipment.Name ++ " has been rejected")
            (some id) "reservation"
          (.ok { reservation with Status := .StatusRejected, CancellationReason := reason }, db)

/-- Method `ReservationService.Cancel`. -/
def ReservationService.Cancel (db : DB) (env : Env) (id : UUID) (userID : UUID)
    (reason : String) : Except GoError Reservation × DB :=
  match ReservationRepository.GetByID db id with
  | (.error err, db) =>
    if err = .repoErrReservationNotFound then (.error .ErrReservationNotFound, db)
    else (.error err, db)
  | (.ok reservation, db) =>
    match reservation.Equipment with
    | none => (.error (.runtimePanic "nil pointer dereference"), db)
    | some equipment =>
      if reservation.RenterID ≠ userID ∧ equipment.OwnerID ≠ userID then
        (.error .ErrNotAuthorized, db)
      else if reservation.Status ≠ .StatusPending ∧ reservation.Status ≠ .StatusApproved then
        (.error .ErrCannotCancel, db)
      else if reservation.Status = .StatusApproved
          ∧ Time.Before reservation.StartDate (Time.Add env.now (24 * Hour)) = true then
        (.error .ErrCannotCancel, db)
      else
        match ReservationRepository.UpdateStatus db env id .StatusCancelled reason with
        | (some err, db) => (.error err, db)
        | (none, db) =>
          let notifyUserID := if userID = equipment.OwnerID then reservation.RenterID
            else equipment.OwnerID
          let db := ReservationService.createNotification db (env.notifyFails 0)
            notifyUserID .NotificationReservationCancelled
            "Reservation Cancelled"
            ("A reservation for " ++ equipment.Name ++ " has been cancelled")
            (some id) "reservation"
          (.ok { reservation with Status := .StatusCancelled, CancellationReason := reason }, db)

/-- Method `ReservationService.Complete`. -/
def ReservationService.Complete (db : DB) (env : Env) (id : UUID) (ownerID : UUID) :
    Except GoError Reservation × DB :=
  match ReservationRepository.GetByID db id with
  | (.error err, db) =>
    if err = .repoErrReservationNotFound then (.error .ErrReservationNotFound, db)
    else (.error err, db)
  | (.ok reservation, db) =>
    match reservation.Equipment with
    | none => (.error (.runtimePanic "nil pointer dereference"), db)
    | some equipment =>
      if equipment.OwnerID ≠ ownerID then (.error .ErrNotAuthorized, db)
      else if reservation.Status ≠ .StatusApproved then
        (.error (.errorsNew "can only complete approved reservations"), db)
      else
        match ReservationRepository.UpdateStatus db env id .StatusCompleted "" with
        | (some err, db) => (.error err, db)
        | (none, db) =>
          let db := ReservationService.createNotification db (env.notifyFails 0)
            reservation.RenterID .NotificationReservationCompleted
            "Reservation Completed"
            ("Your reservation for " ++ equipment.Name ++ " has been marked as completed")
            (some id) "reservation"
          (.ok { reservation with Status := .StatusCompleted }, db)

/-! ## Package `handler`: responses of the transition handlers -/

/-- Struct `model.APIError`. -/
structure APIError where
  Code : String
  Message : String
  deriving DecidableEq

/-- Struct `model.APIResponse` (without `Meta`), with the reservation as data. -/
structure APIResponse where
  Success : Bool
  Data : Option Reservation
  Error : Option APIError
  deriving DecidableEq

/-- Function `model.SuccessResponse`. -/
def SuccessResponse (data : Reservation) : APIResponse :=
  { Success := true, Data := some data, Error := none }

/-- Function `model.ErrorResponse`. -/
def ErrorResponse (code message : String) : APIResponse :=
  { Success := false, Data := none, Error := some { Code := code, Message := message } }

/-- What `respondJSON` writes: the HTTP status and the body. -/
structure HTTPResponse where
  status : Nat
  body : APIResponse
  deriving DecidableEq

/-- Method `ReservationHandler.Approve`.  `claims` is the authenticated user of
the request context (`none` when absent) and `id` the result of `uuid.Parse` on
the path (`none` on a parse error). -/
def ReservationHandler.Approve (db : DB) (env : Env) (claims : Option UUID) (id : Option UUID) :
    HTTPResponse × DB :=
  match claims with
  | none => (⟨401, ErrorResponse "UNAUTHORIZED" "User not authenticated"⟩, db)
  | some userID =>
    match id with
    | none => (⟨400, ErrorResponse "INVALID_ID" "Invalid reservation ID"⟩, db)
    | some id =>
      match ReservationService.Approve db env id userID with
      | (.error err, db) =>
        if err = .ErrReservationNotFound then
          (⟨404, ErrorResponse "NOT_FOUND" "Reservation not found"⟩, db)
        else if err = .ErrNotAuthorized then
          (⟨403, ErrorResponse "FORBIDDEN" "Not authorized to approve this reservation"⟩, db)
        else if err = .ErrReservationNotPending then
          (⟨400, ErrorResponse "INVALID_STATUS" "Reservation is not pending"⟩, db)
        else (⟨500, ErrorResponse "INTERNAL_ERROR" "Failed to approve reservation"⟩, db)
      | (.ok reservation, db) => (⟨200, SuccessResponse reservation⟩, db)

/-- Method `ReservationHandler.Reject`; `reason` is the decoded request body. -/
def ReservationHandler.Reject (db : DB) (env : Env) (claims : Option UUID) (id : Option UUID)
    (reason : String) : HTTPResponse × DB :=
  match claims with
  | none => (⟨401, ErrorResponse "UNAUTHORIZED" "User not authenticated"⟩, db)
  | some userID =>
    match id with
    | none => (⟨400, ErrorResponse "INVALID_ID" "Invalid reservation ID"⟩, db)
    | some id =>
      match ReservationService.Reject db env id userID reason with
      | (.error err, db) =>
        if err = .ErrReservationNotFound then
          (⟨404, ErrorResponse "NOT_FOUND" "Reservation not found"⟩, db)
        else if err = .ErrNotAuthorized then
          (⟨403, ErrorResponse "FORBIDDEN" "Not authorized to reject this reservation"⟩, db)
        else if err = .ErrReservationNotPending then
          (⟨400, ErrorResponse "INVALID_STATUS" "Reservation is not pending"⟩, db)
        else (⟨500, ErrorResponse "INTERNAL_ERROR" "Failed to reject reservation"⟩, db)
      | (.ok reservation, db) => (⟨200, SuccessResponse reservation⟩, db)

/-- Method `ReservationHandler.Complete`. -/
def ReservationHandler.Complete (db : DB) (env : Env) (claims : Option UUID) (id : Option UUID) :
    HTTPResponse × DB :=
  match claims with
  | none => (⟨401, ErrorResponse "UNAUTHORIZED" "User not authenticated"⟩, db)
  | some userID =>
    match id with
    | none => (⟨400, ErrorResponse "INVALID_ID" "Invalid reservation ID"⟩, db)
    | some id =>
      match ReservationService.Complete db env id userID with
      | (.error err, db) =>
        if err = .ErrReservationNotFound then
          (⟨404, ErrorResponse "NOT_FOUND" "Reservation not found"⟩, db)
        else if err = .ErrNotAuthorized then
          (⟨403, ErrorResponse "FORBIDDEN" "Not authorized to complete this reservation"⟩, db)
        else (⟨500, ErrorResponse "INTERNAL_ERROR" "Failed to complete reservation"⟩, db)
      | (.ok reservation, db) => (⟨200, SuccessResponse reservation⟩, db)

/-! ## Sequential executions of the service -/

/-- One call of a state-changing operation of `ReservationService`, with its
arguments and its outside inputs. -/
inductive Op
  | Create (env : Env) (renterID : UUID) (req : CreateReservationRequest)
  | Approve (env : Env) (id : UUID) (ownerID : UUID)
  | Reject (env : Env) (id : UUID) (ownerID : UUID) (reason : String)
  | Cancel (env : Env) (id : UUID) (userID : UUID) (reason : String)
  | Complete (env : Env) (id : UUID) (ownerID : UUID)

/-- The database after one operation. -/
def Op.exec (db : DB) : Op → DB
  | .Create env renterID req => (ReservationService.Create db env renterID req).2
  | .Approve env id ownerID => (ReservationService.Approve db env id ownerID).2
  | .Reject env id ownerID reason => (ReservationService.Reject db env id ownerID reason).2
  | .Cancel env id userID reason => (ReservationService.Cancel db env id userID reason).2
  | .Complete env id ownerID => (ReservationService.Complete db env id ownerID).2

/-- The database after a sequence of operations executed one at a time. -/
def runOps (db : DB) (ops : List Op) : DB := ops.foldl Op.exec db

/-- A database with the given equipment and no reservation, notification or call. -/
def emptyStore (equipment : List Equipment) : DB :=
  { equipment := equipment, reservations := [], notifications := [], calls := [] }

/-- Status in which a reservation blocks its dates: Pending or Approved. -/
def ReservationRow.blocking (r : ReservationRow) : Bool :=
  decide (r.status = .StatusPending) || decide (r.status = .StatusApproved)

/-- Inclusive overlap of the date ranges of two rows:
`a.start <= b.end` and `a.end >= b.start`. -/
def ReservationRow.overlaps (a b : ReservationRow) : Bool :=
  decide (a.start_date ≤ b.end_date) && decide (a.end_date ≥ b.start_date)

/-- No double-booking: two rows at different positions of the table that are of
the same equipment and both blocking do not overlap. -/
def NoDoubleBooking (db : DB) : Prop :=
  db.reservations.Pairwise (fun a b =>
    a.equipment_id = b.equipment_id → a.blocking = true → b.blocking = true →
      a.overlaps b = false)

/-! ## Definitions used to state the properties -/

/-- Reference definition of availability, in the words of the specification: the
range is available iff no reservation of the equipment in status Pending or
Approved has `start <= candidate.end` and `end >= candidate.start`. -/
def specAvailable (rows : List ReservationRow) (equipmentID : UUID)
    (startDate endDate : Time) : Bool :=
  rows.all (fun r => !(decide (r.equipment_id = equipmentID) && r.blocking
    && (decide (r.start_date ≤ endDate) && decide (r.end_date ≥ startDate))))

/-- The duration in days as `calculatePrice` measures it:
`int(math.Ceil(duration.Hours() / 24))` with `duration = endDate.Sub(startDate)`. -/
def rentalDays (startDate endDate : Time) : Int :=
  Int.ceil (Float64.round (Duration.Hours (Time.Sub endDate startDate) / 24))

/-- The duration in hours as `calculatePrice` measures it:
`int(math.Ceil(duration.Hours()))` with `duration = endDate.Sub(startDate)`. -/
def rentalHours (startDate endDate : Time) : Int :=
  Int.ceil (Duration.Hours (Time.Sub endDate startDate))

/-- The row that `ReservationRepository.Create` inserts for a reservation. -/
def Reservation.toRow (r : Reservation) : ReservationRow :=
  { id := r.ID, equipment_id := r.EquipmentID, renter_id := r.RenterID,
    start_date := r.StartDate, end_date := r.EndDate, status := r.Status,
    total_price := r.TotalPrice, cancellation_reason := none,
    created_at := r.CreatedAt, updated_at := r.UpdatedAt }

/-- The effect of the UPDATE statement of `ReservationRepository.UpdateStatus` on
one row: the row with the given id gets the status, the reason (NULL when empty)
and the time stamp; every other row is kept. -/
def ReservationRow.setStatus (r : ReservationRow) (id : UUID) (status : ReservationStatus)
    (reason : String) (stamp : Time) : ReservationRow :=
  if r.id = id then
    { r with status := status,
             cancellation_reason := if reason ≠ "" then some reason else none,
             updated_at := stamp }
  else r

/-- The status changes the service performs: Pending to Approved, Rejected or
Cancelled, and Approved to Cancelled or Completed. -/
def legalTransition : ReservationStatus → ReservationStatus → Bool
  | .StatusPending, .StatusApproved => true
  | .StatusPending, .StatusRejected => true
  | .StatusPending, .StatusCancelled => true
  | .StatusApproved, .StatusCancelled => true
  | .StatusApproved, .StatusCompleted => true
  | _, _ => false

/-- The invariant of the reservations table: ids are unique (primary key) and
there is no double-booking. -/
def StoreInvariant (db : DB) : Prop :=
  (db.reservations.map (fun r => r.id)).Nodup ∧ NoDoubleBooking db

/-- The database after the read and the UPDATE of a status transition that found
its row: both calls are on the call list and every row with the id carries the
status, the reason and the time stamp. -/
def DB.withStatus (db : DB) (env : Env) (id : UUID) (status : ReservationStatus)
    (reason : String) : DB :=
  { (db.record (.ReservationGetByID id)).record (.ReservationUpdateStatus id status reason) with
    reservations := db.reservations.map (fun r => r.setStatus id status reason env.stamp) }

/-- The reservation a successful `Create` returns for the equipment found. -/
def ReservationService.Create.created (env : Env) (renterID : UUID)
    (req : CreateReservationRequest) (e : Equipment) : Reservation :=
  { ID := env.newID
    EquipmentID := req.EquipmentID
    Equipment := none
    RenterID := renterID
    StartDate := req.StartDate
    EndDate := req.EndDate
    Status := if e.AutoApprove = true then .StatusApproved else .StatusPending
    TotalPrice := ReservationService.calculatePrice e req.StartDate req.EndDate
    CancellationReason := ""
    CreatedAt := env.stamp
    UpdatedAt := env.stamp }

/-- The database after the equipment read, the availability query and the insert
of a successful `Create`, before the notifications. -/
def DB.withReservation (db : DB) (env : Env) (req : CreateReservationRequest)
    (r : Reservation) : DB :=
  { ((db.record (.EquipmentGetByID req.EquipmentID)).record
      (.EquipmentCheckAvailability req.EquipmentID req.StartDate req.EndDate)).record
      (.ReservationCreate env.newID) with
    reservations := db.reservations ++ [r.toRow] }

/-- The notification that `createNotification` hands to the repository, as stored. -/
def notificationOf (userID : UUID) (notifType : NotificationType) (title message : String)
    (refID : UUID) : Notification :=
  { UserID := userID
    Type_ := notifType
    Title := title
    Message := message
    Read := false
    ReferenceID := some refID
    ReferenceType := "reservation" }

/-- Terminal statuses: Rejected, Cancelled, Completed. -/
def ReservationStatus.terminal : ReservationStatus → Bool
  | .StatusRejected => true
  | .StatusCancelled => true
  | .StatusCompleted => true
  | _ => false

/-- The part of a row that no status transition on reservation `id` may touch:
`r'` is `r` after such a call when it has the same id, equipment, renter, dates,
price and creation time, and is `r` itself if `r` is not the target. -/
def ReservationRow.keptBy (id : UUID) (r r' : ReservationRow) : Prop :=
  r'.id = r.id ∧ r'.equipment_id = r.equipment_id ∧ r'.renter_id = r.renter_id
  ∧ r'.start_date = r.start_date ∧ r'.end_date = r.end_date
  ∧ r'.total_price = r.total_price ∧ r'.created_at = r.created_at
  ∧ (r.id ≠ id → r' = r)

/-- The same outside inputs with another outcome of the notification inserts. -/
def Env.withNotifyFails (env : Env) (fails : Nat → Bool) : Env :=
  { env with notifyFails := fails }

/-! ## The availability calendar -/

/-- Method `Time.AddDate` with `years = 0` and `months = 0`, for a time in UTC:
the same clock reading `days` days later. -/
def Time.AddDate (t : Time) (days : Int) : Time := t + days * (24 * Hour)

/-- The calendar day of a time in UTC, as a day number: the key that
`Format("2006-01-02")` makes of the time (two times have the same key exactly
when they fall on the same day). -/
def Time.Format (t : Time) : Int := t / (24 * Hour)

/-- Struct `model.EquipmentAvailability`. -/
structure EquipmentAvailability where
  Date : Time
  Available : Bool
  deriving DecidableEq

/-- The values taken by `d` in the loop
`for d := first; !d.After(last); d = d.AddDate(0, 0, 1)`, in order. -/
def EquipmentRepository.GetAvailabilityCalendar.days (first last : Time) : List Time :=
  if Time.After first last then []
  else first :: EquipmentRepository.GetAvailabilityCalendar.days (Time.AddDate first 1) last
termination_by (last - first + 1).toNat
decreasing_by
  simp only [Time.After, decide_eq_true_eq] at *
  unfold Time.AddDate Hour
  unfold Time at *
  omega

/-- The WHERE clause of the query of `EquipmentRepository.GetAvailabilityCalendar`,
with `$1 = equipmentID`, `$2 = startDate`, `$3 = endDate`. -/
def EquipmentRepository.GetAvailabilityCalendar.whereClause (equipmentID : UUID)
    (startDate endDate : Time) (r : ReservationRow) : Bool :=
  decide (r.equipment_id = equipmentID)
  && (decide (r.status = .StatusPending) || decide (r.status = .StatusApproved))
  && decide (r.start_date ≤ endDate)
  && decide (r.end_date ≥ startDate)

/-- The keys of the map `reservedDates` after the loop over the rows of the
query of `EquipmentRepository.GetAvailabilityCalendar`. -/
def EquipmentRepository.GetAvailabilityCalendar.reservedDates (db : DB) (equipmentID : UUID)
    (startDate endDate : Time) : List Int :=
  ((db.reservations.filter
    (EquipmentRepository.GetAvailabilityCalendar.whereClause equipmentID startDate endDate)).map
    (fun r => (EquipmentRepository.GetAvailabilityCalendar.days r.start_date r.end_date).map
      Time.Format)).flatten

/-- Method `EquipmentRepository.GetAvailabilityCalendar`: one record for each
value of the loop from `startDate` to `endDate`, available when the day of the
record is not a key of `reservedDates`.  The method only reads the store. -/
def EquipmentRepository.GetAvailabilityCalendar (db : DB) (equipmentID : UUID)
    (startDate endDate : Time) : List EquipmentAvailability :=
  let reservedDates :=
    EquipmentRepository.GetAvailabilityCalendar.reservedDates db equipmentID startDate endDate
  (EquipmentRepository.GetAvailabilityCalendar.days startDate endDate).map
    (fun d => { Date := d, Available := !(reservedDates.contains (Time.Format d)) })

/-! ## The equipment service -/

/-- Function `unicode.IsSpace`: the code points with the White_Space property. -/
def unicode.IsSpace (c : Char) : Bool :=
  decide ((9 ≤ c.toNat ∧ c.toNat ≤ 13) ∨ c.toNat = 32 ∨ c.toNat = 133 ∨ c.toNat = 160
    ∨ c.toNat = 5760 ∨ (8192 ≤ c.toNat ∧ c.toNat ≤ 8202) ∨ c.toNat = 8232 ∨ c.toNat = 8233
    ∨ c.toNat = 8239 ∨ c.toNat = 8287 ∨ c.toNat = 12288)

/-- Method `Validator.Required`, on the list of errors of the validator:
`strings.TrimSpace(value) == ""` holds when every rune of the value is white
space. -/
def Validator.Required (v : ValidationErrors) (field value : String) : ValidationErrors :=
  if value.toList.all unicode.IsSpace then Validator.AddError v field "is required" else v

/-- Struct `model.CreateEquipmentRequest` (fields validated or kept by the model
of `Equipment`). -/
structure CreateEquipmentRequest where
  Name : String
  Category : String
  PricePerHour : Option Float64
  PricePerDay : Option Float64
  PricePerWeek : Option Float64
  AutoApprove : Bool
  deriving DecidableEq

/-- Struct `model.UpdateEquipmentRequest` (fields kept by the model of
`Equipment`). -/
structure UpdateEquipmentRequest where
  Name : String
  PricePerHour : Option Float64
  PricePerDay : Option Float64
  PricePerWeek : Option Float64
  Available : Option Bool
  AutoApprove : Option Bool
  deriving DecidableEq

/-- Method `EquipmentRepository.Create`: sets the id and `available = true` and
inserts the row; the insert is refused when the primary key is taken.  Returns
the equipment as left by the call, the error (if any) and the database. -/
def EquipmentRepository.Create (db : DB) (env : Env) (equipment : Equipment) :
    Equipment × Option GoError × DB :=
  let equipment := { equipment with ID := env.newID, Available := true }
  let db := db.record (.EquipmentCreate equipment.ID)
  if db.equipment.any (fun e => decide (e.ID = equipment.ID)) then
    (equipment, some (.driver "duplicate key value violates unique constraint"), db)
  else
    (equipment, none, { db with equipment := db.equipment ++ [equipment] })

/-- Method `EquipmentRepository.Update`: the `UPDATE ... WHERE id = $13`, which
sets every column but `id` and `owner_id`; `repository.ErrEquipmentNotFound`
when no row is affected. -/
def EquipmentRepository.Update (db : DB) (equipment : Equipment) : Option GoError × DB :=
  let db := db.record (.EquipmentUpdate equipment.ID)
  if db.equipment.any (fun e => decide (e.ID = equipment.ID)) then
    (none, { db with equipment := db.equipment.map (fun e =>
      if e.ID = equipment.ID then
        { e with
          Name := equipment.Name
          PricePerHour := equipment.PricePerHour
          PricePerDay := equipment.PricePerDay
          PricePerWeek := equipment.PricePerWeek
          Available := equipment.Available
          AutoApprove := equipment.AutoApprove }
      else e) })
  else (some .repoErrEquipmentNotFound, db)

/-- The validation block at the head of `EquipmentService.Create`: the errors
collected by the validator. -/
def EquipmentService.Create.validation (req : CreateEquipmentRequest) : ValidationErrors :=
  let v : ValidationErrors := []
  let v := Validator.Required v "name" req.Name
  let v := Validator.Required v "category" req.Category
  if req.PricePerHour = none ∧ req.PricePerDay = none ∧ req.PricePerWeek = none then
    Validator.AddError v "price" "at least one price must be set"
  else v

/-- Method `EquipmentService.Create`. -/
def EquipmentService.Create (db : DB) (env : Env) (ownerID : UUID)
    (req : CreateEquipmentRequest) : Except GoError Equipment × DB :=
  let v := EquipmentService.Create.validation req
  if v.HasErrors then (.error (.Validation v), db)
  else
    let equipment : Equipment :=
      { ID := 0
        OwnerID := ownerID
        Name := req.Name
        PricePerHour := req.PricePerHour
        PricePerDay := req.PricePerDay
        PricePerWeek := req.PricePerWeek
        Available := false
        AutoApprove := req.AutoApprove }
    match EquipmentRepository.Create db env equipment with
    | (_, some err, db) => (.error err, db)
    | (equipment, none, db) => (.ok equipment, db)

/-- The field updates of `EquipmentService.Update`: a field of the request
replaces the stored one only when it is set. -/
def EquipmentService.Update.merge (equipment : Equipment) (req : UpdateEquipmentRequest) :
    Equipment :=
  let equipment := if req.Name ≠ "" then { equipment with Name := req.Name } else equipment
  let equipment :=
    if req.PricePerHour ≠ none then { equipment with PricePerHour := req.PricePerHour }
    else equipment
  let equipment :=
    if req.PricePerDay ≠ none then { equipment with PricePerDay := req.PricePerDay }
    else equipment
  let equipment :=
    if req.PricePerWeek ≠ none then { equipment with PricePerWeek := req.PricePerWeek }
    else equipment
  let equipment :=
    match req.Available with
    | some available => { equipment with Available := available }
    | none => equipment
  let equipment :=
    match req.AutoApprove with
    | some autoApprove => { equipment with AutoApprove := autoApprove }
    | none => equipment
  equipment

/-- Method `EquipmentService.Update`. -/
def EquipmentService.Update (db : DB) (id : UUID) (ownerID : UUID)
    (req : UpdateEquipmentRequest) : Except GoError Equipment × DB :=
  match EquipmentRepository.GetByID db id with
  | (.error err, db) =>
    if err = .repoErrEquipmentNotFound then (.error .ErrEquipmentNotFound, db)
    else (.error err, db)
  | (.ok equipment, db) =>
    if equipment.OwnerID ≠ ownerID then (.error .ErrNotOwner, db)
    else
      let equipment := EquipmentService.Update.merge equipment req
      match EquipmentRepository.Update db equipment with
      | (some err, db) => (.error err, db)
      | (none, db) => (.ok equipment, db)

/-- A call of the equipment service that writes table `equipment`. -/
inductive EquipmentOp
  | Create (env : Env) (ownerID : UUID) (req : CreateEquipmentRequest)
  | Update (id : UUID) (ownerID : UUID) (req : UpdateEquipmentRequest)

/-- The database after one call of the equipment service. -/
def EquipmentOp.exec (db : DB) : EquipmentOp → DB
  | .Create env ownerID req => (EquipmentService.Create db env ownerID req).2
  | .Update id ownerID req => (EquipmentService.Update db id ownerID req).2

/-- The database after a sequence of calls of the equipment service. -/
def runEquipmentOps (db : DB) (ops : List EquipmentOp) : DB := ops.foldl EquipmentOp.exec db

/-- An equipment with at least one price tier set. -/
def Equipment.hasTier (e : Equipment) : Bool :=
  e.PricePerHour.isSome || e.PricePerDay.isSome || e.PricePerWeek.isSome

/-- The path condition of the final `return 0` of `calculatePrice`: the
conditions of the three `if` statements before it are all false. -/
def ReservationService.calculatePrice.fallback (equipment : Equipment)
    (startDate endDate : Time) : Bool :=
  let duration := Time.Sub endDate startDate
  let days : Int := Int.ceil (Float64.round (Duration.Hours duration / 24))
  !(equipment.PricePerWeek.isSome && decide (days ≥ 7))
  && !equipment.PricePerDay.isSome
  && !equipment.PricePerHour.isSome

/-! ## Concurrent calls of `Create` -/

/-- The part of `ReservationService.Create` that ends with the answer of the
availability query: validation, the read of the equipment and the query.  The
result is the equipment read, or the error returned by `Create`. -/
def ReservationService.Create.check (db : DB) (env : Env) (req : CreateReservationRequest) :
    Except GoError Equipment × DB :=
  let v := ReservationService.Create.validation env.now req
  if ValidationErrors.HasErrors v then (.error (.Validation v), db)
  else
    match EquipmentRepository.GetByID db req.EquipmentID with
    | (.error err, db) =>
      if err = .repoErrEquipmentNotFound then (.error .ErrEquipmentNotFound, db)
      else (.error err, db)
    | (.ok equipment, db) =>
      if !equipment.Available then (.error .ErrEquipmentUnavailable, db)
      else
        match EquipmentRepository.CheckAvailability db req.EquipmentID req.StartDate req.EndDate with
        | (.error err, db) => (.error err, db)
        | (.ok available, db) =>
          if !available then (.error .ErrEquipmentUnavailable, db)
          else (.ok equipment, db)

/-- The part of `ReservationService.Create` that follows the availability query:
the price, the status, the insert and the notifications. -/
def ReservationService.Create.insert (db : DB) (env : Env) (renterID : UUID)
    (req : CreateReservationRequest) (equipment : Equipment) : Except GoError Reservation × DB :=
  let totalPrice := ReservationService.calculatePrice equipment req.StartDate req.EndDate
  let status := if equipment.AutoApprove then ReservationStatus.StatusApproved
    else ReservationStatus.StatusPending
  match ReservationRepository.Create db env
    { ID := 0
      EquipmentID := req.EquipmentID
      Equipment := none
      RenterID := renterID
      StartDate := req.StartDate
      EndDate := req.EndDate
      Status := status
      TotalPrice := totalPrice
      CancellationReason := ""
      CreatedAt := 0
      UpdatedAt := 0 } with
  | (_, some err, db) => (.error err, db)
  | (reservation, none, db) =>
    let db := ReservationService.createNotification db (env.notifyFails 0)
      equipment.OwnerID .NotificationReservationCreated
      "New Reservation Request"
      ("You have a new reservation request for " ++ equipment.Name)
      (some reservation.ID) "reservation"
    let db := if status = .StatusApproved then
      ReservationService.createNotification db (env.notifyFails 1)
        renterID .NotificationReservationApproved
        "Reservation Approved"
        ("Your reservation for " ++ equipment.Name ++ " has been automatically approved")
        (some reservation.ID) "reservation"
      else db
    (.ok reservation, db)

/-- Two calls of `ReservationService.Create` on the same store, run by two
requests at the same time, in the interleaving where both calls get the answer
of their availability query before either inserts: the result of each call and
the store after both. -/
def ReservationService.Create.interleaved (db : DB) (env₁ env₂ : Env) (renter₁ renter₂ : UUID)
    (req₁ req₂ : CreateReservationRequest) :
    Except GoError Reservation × Except GoError Reservation × DB :=
  match ReservationService.Create.check db env₁ req₁ with
  | (.error err₁, db) =>
    ((.error err₁), (ReservationService.Create db env₂ renter₂ req₂).1,
      (ReservationService.Create db env₂ renter₂ req₂).2)
  | (.ok equipment₁, db) =>
    match ReservationService.Create.check db env₂ req₂ with
    | (.error err₂, db) =>
      ((ReservationService.Create.insert db env₁ renter₁ req₁ equipment₁).1, .error err₂,
        (ReservationService.Create.insert db env₁ renter₁ req₁ equipment₁).2)
    | (.ok equipment₂, db) =>
      match ReservationService.Create.insert db env₁ renter₁ req₁ equipment₁ with
      | (result₁, db) =>
        match ReservationService.Create.insert db env₂ renter₂ req₂ equipment₂ with
        | (result₂, db) => (result₁, result₂, db)

/-! ## Packages `strconv` and `net/url` -/

/-- Smallest value of Go's `int` and `int64` on a 64-bit platform. -/
def minInt64 : Int := -9223372036854775808

/-- Largest value of Go's `int` and `int64` on a 64-bit platform. -/
def maxInt64 : Int := 9223372036854775807

/-- Two's-complement wrap-around of a mathematical integer into the `int64`
range: the value Go's `int` arithmetic produces on a 64-bit platform. -/
def wrapInt64 (x : Int) : Int :=
  (x + 9223372036854775808) % 18446744073709551616 - 9223372036854775808

/-- Value of an ASCII decimal digit; `none` for every other character. -/
def strconv.digit (c : Char) : Option Int :=
  if 48 ≤ c.toNat ∧ c.toNat ≤ 57 then some ((c.toNat : Int) - 48) else none

/-- Base-10 value of a string of digits read from the left, starting from the
accumulator `n`; `none` (a syntax error) when a character is not a digit. -/
def strconv.digits : List Char → Int → Option Int
  | [], n => some n
  | c :: cs, n =>
    match strconv.digit c with
    | none => none
    | some d => strconv.digits cs (n * 10 + d)

/-- Function `strconv.Atoi` for a 64-bit `int`: an optional sign followed by one
or more decimal digits, with a value in the `int64` range.  `none` stands for a
non-nil error (syntax or range). -/
def strconv.Atoi (s : String) : Option Int :=
  match s.toList with
  | [] => none
  | c :: cs =>
    let neg := decide (c = '-')
    let body := if c = '-' ∨ c = '+' then cs else c :: cs
    match body with
    | [] => none
    | _ :: _ =>
      match strconv.digits body 0 with
      | none => none
      | some n =>
        let v := if neg then -n else n
        if minInt64 ≤ v ∧ v ≤ maxInt64 then some v else none

/-- Type `url.Values`: the values of each key of the query string. -/
abbrev url.Values := String → List String

/-- Method `url.Values.Get`: the first value of the key, or the empty string. -/
def url.Values.Get (v : url.Values) (key : String) : String :=
  match v key with
  | [] => ""
  | value :: _ => value

/-! ## Package `pagination` -/

/-- Constant `pagination.DefaultPage`. -/
def pagination.DefaultPage : Int := 1

/-- Constant `pagination.DefaultPerPage`. -/
def pagination.DefaultPerPage : Int := 10

/-- Constant `pagination.MaxPerPage`. -/
def pagination.MaxPerPage : Int := 100

/-- Struct `pagination.Params`. -/
structure pagination.Params where
  Page : Int
  PerPage : Int
  Offset : Int
  deriving DecidableEq

/-- Function `pagination.parseIntOrDefault`. -/
def pagination.parseIntOrDefault (value : String) (defaultValue : Int) : Int :=
  if value = "" then defaultValue
  else
    match strconv.Atoi value with
    | none => defaultValue
    | some parsed => parsed

/-- Function `pagination.FromRequest`, on the query values of the request URL.
The subtraction and the product of `Offset` are `int` operations. -/
def pagination.FromRequest (query : url.Values) : pagination.Params :=
  let page := pagination.parseIntOrDefault (url.Values.Get query "page") pagination.DefaultPage
  let page := if page < 1 then pagination.DefaultPage else page
  let perPage :=
    pagination.parseIntOrDefault (url.Values.Get query "per_page") pagination.DefaultPerPage
  let perPage := if perPage < 1 then pagination.DefaultPerPage else perPage
  let perPage := if perPage > pagination.MaxPerPage then pagination.MaxPerPage else perPage
  { Page := page, PerPage := perPage, Offset := wrapInt64 (wrapInt64 (page - 1) * perPage) }

/-- Function `pagination.CalculateTotalPages`.  `none` stands for the run-time
panic of an integer division by zero; `/` and `%` of Go truncate toward zero. -/
def pagination.CalculateTotalPages (total : Int) (perPage : Int) : Option Int :=
  if total = 0 then some 0
  else if perPage = 0 then none
  else
    let pages := wrapInt64 (Int.tdiv total perPage)
    if Int.tmod total perPage > 0 then some (wrapInt64 (pages + 1)) else some pages

/-- Struct `model.Meta`. -/
structure Meta where
  Page : Int
  PerPage : Int
  Total : Int
  TotalPages : Int
  deriving DecidableEq

/-- The `meta` value built by `EquipmentHandler.List` from the request query and
the `total` returned by the service; `none` when building it panics. -/
def EquipmentHandler.List.pageMeta (query : url.Values) (total : Int) : Option Meta :=
  let pag := pagination.FromRequest query
  match pagination.CalculateTotalPages total pag.PerPage with
  | none => none
  | some totalPages =>
    some { Page := pag.Page, PerPage := pag.PerPage, Total := total, TotalPages := totalPages }

/-- The `meta` value built by `EquipmentHandler.Search`. -/
def EquipmentHandler.Search.pageMeta (query : url.Values) (total : Int) : Option Meta :=
  let pag := pagination.FromRequest query
  match pagination.CalculateTotalPages total pag.PerPage with
  | none => none
  | some totalPages =>
    some { Page := pag.Page, PerPage := pag.PerPage, Total := total, TotalPages := totalPages }

/-- The `meta` value built by `ReservationHandler.ListMyReservations`. -/
def ReservationHandler.ListMyReservations.pageMeta (query : url.Values) (total : Int) :
    Option Meta :=
  let pag := pagination.FromRequest query
  match pagination.CalculateTotalPages total pag.PerPage with
  | none => none
  | some totalPages =>
    some { Page := pag.Page, PerPage := pag.PerPage, Total := total, TotalPages := totalPages }

/-- The `meta` value built by `ReservationHandler.ListOwnerReservations`. -/
def ReservationHandler.ListOwnerReservations.pageMeta (query : url.Values) (total : Int) :
    Option Meta :=
  let pag := pagination.FromRequest query
  match pagination.CalculateTotalPages total pag.PerPage with
  | none => none
  | some totalPages =>
    some { Page := pag.Page, PerPage := pag.PerPage, Total := total, TotalPages := totalPages }

/-- The `meta` value built by `NotificationHandler.List`. -/
def NotificationHandler.List.pageMeta (query : url.Values) (total : Int) : Option Meta :=
  let pag := pagination.FromRequest query
  match pagination.CalculateTotalPages total pag.PerPage with
  | none => none
  | some totalPages =>
    some { Page := pag.Page, PerPage := pag.PerPage, Total := total, TotalPages := totalPages }

/-! ## Package `unicode` and `Validator.Password` -/

/-- The predicates `unicode.IsUpper`, `unicode.IsLower` and `unicode.IsDigit` of
the Go library (membership in the Unicode categories Lu, Ll and Nd). -/
structure unicode.Tables where
  IsUpper : Char → Bool
  IsLower : Char → Bool
  IsDigit : Char → Bool

/-- The loop of `Validator.Password` over the runes of the value: the flags
`(hasUpper, hasLower, hasDigit)` after the remaining runes, the `switch` taking
the first case that holds. -/
def Validator.Password.scan (u : unicode.Tables) :
    List Char → Bool × Bool × Bool → Bool × Bool × Bool
  | [], flags => flags
  | char :: rest, (hasUpper, hasLower, hasDigit) =>
    if u.IsUpper char then Validator.Password.scan u rest (true, hasLower, hasDigit)
    else if u.IsLower char then Validator.Password.scan u rest (hasUpper, true, hasDigit)
    else if u.IsDigit char then Validator.Password.scan u rest (hasUpper, hasLower, true)
    else Validator.Password.scan u rest (hasUpper, hasLower, hasDigit)

/-- Method `Validator.Password`, on the list of errors of the validator.  The
builtin `len` counts the bytes of the UTF-8 encoding of the value. -/
def Validator.Password (u : unicode.Tables) (v : ValidationErrors) (field value : String) :
    ValidationErrors :=
  if value = "" then v
  else if value.utf8ByteSize < 8 then Validator.AddError v field "must be at least 8 characters"
  else
    match Validator.Password.scan u value.toList (false, false, false) with
    | (hasUpper, hasLower, hasDigit) =>
      if !hasUpper || !hasLower || !hasDigit then
        Validator.AddError v field "must contain uppercase, lowercase, and digit"
      else v

/-! ## Package `jwt` -/

/-- Method `Time.Unix`: the number of seconds since January 1, 1970 UTC. -/
def Time.Unix (t : Time) : Int := t / 1000000000 - 62135596800

/-- The parts of a list of characters between the occurrences of `sep`. -/
def strings.Split.parts (sep : Char) : List Char → List (List Char)
  | [] => [[]]
  | c :: cs =>
    if c = sep then [] :: strings.Split.parts sep cs
    else
      match strings.Split.parts sep cs with
      | [] => [[c]]
      | part :: parts => (c :: part) :: parts

/-- Function `strings.Split` for a separator of one character: the substrings
between the separators (a string without separator is its only part). -/
def strings.Split (s : String) (sep : Char) : List String :=
  (strings.Split.parts sep s.toList).map String.mk

/-- Struct `jwt.Claims`. -/
structure jwt.Claims where
  UserID : UUID
  Email : String
  Role : String
  Exp : Int
  Iat : Int
  deriving DecidableEq

/-- Struct `jwt.Manager`. -/
structure jwt.Manager where
  secret : String
  expiration : Duration

/-- The library functions called by package `jwt`, over a type `Bytes` of byte
slices: HMAC-SHA256 of a message under a key (`crypto/hmac`, `crypto/sha256`),
`base64.RawURLEncoding` (`DecodeString` gives `none` on an error), and
`json.Marshal` / `json.Unmarshal` on the header and on `Claims`. -/
structure jwt.Library (Bytes : Type) where
  hmacSHA256 : String → String → Bytes
  EncodeToString : Bytes → String
  DecodeString : String → Option Bytes
  MarshalHeader : Bytes
  Marshal : jwt.Claims → Bytes
  Unmarshal : Bytes → Option jwt.Claims

/-- Method `Manager.sign`. -/
def jwt.Manager.sign {Bytes : Type} (lib : jwt.Library Bytes) (m : jwt.Manager)
    (input : String) : String :=
  lib.EncodeToString (lib.hmacSHA256 m.secret input)

/-- The claims that `Manager.Generate` signs; `now` is the reading of
`time.Now()`. -/
def jwt.Manager.Generate.claims (m : jwt.Manager) (now : Time) (userID : UUID)
    (email role : String) : jwt.Claims :=
  { UserID := userID
    Email := email
    Role := role
    Iat := Time.Unix now
    Exp := Time.Unix (Time.Add now m.expiration) }

/-- Method `Manager.Generate`; `now` is the reading of `time.Now()`.  Marshalling
the header and the claims does not fail. -/
def jwt.Manager.Generate {Bytes : Type} (lib : jwt.Library Bytes) (m : jwt.Manager) (now : Time)
    (userID : UUID) (email role : String) : String :=
  let claims := jwt.Manager.Generate.claims m now userID email role
  let headerJSON := lib.MarshalHeader
  let claimsJSON := lib.Marshal claims
  let headerB64 := lib.EncodeToString headerJSON
  let claimsB64 := lib.EncodeToString claimsJSON
  let signatureInput := headerB64 ++ "." ++ claimsB64
  let signature := jwt.Manager.sign lib m signatureInput
  signatureInput ++ "." ++ signature

/-- Method `Manager.Validate`; `now` is the reading of `time.Now()`. -/
def jwt.Manager.Validate {Bytes : Type} (lib : jwt.Library Bytes) (m : jwt.Manager) (now : Time)
    (tokenString : String) : Except GoError jwt.Claims :=
  match strings.Split tokenString '.' with
  | [part0, part1, part2] =>
    let signatureInput := part0 ++ "." ++ part1
    let expectedSignature := jwt.Manager.sign lib m signatureInput
    if part2 ≠ expectedSignature then .error .ErrInvalidToken
    else
      match lib.DecodeString part1 with
      | none => .error .ErrInvalidToken
      | some claimsJSON =>
        match lib.Unmarshal claimsJSON with
        | none => .error .ErrInvalidToken
        | some claims =>
          if Time.Unix now > claims.Exp then .error .ErrExpiredToken
          else .ok claims
  | _ => .error .ErrInvalidToken

/-! ## Concrete data for the examples -/

/-- Midnight UTC of the day with the given number (days since the zero time). -/
def midnight (dayNumber : Int) : Time := dayNumber * (24 * Hour)

/-- 2030-01-01T00:00:00Z. -/
def jan01 : Time := midnight 741077

/-- 2030-01-10T00:00:00Z. -/
def jan10 : Time := midnight 741086

/-- 2030-01-12T00:00:00Z. -/
def jan12 : Time := midnight 741088

/-- 2030-01-14T00:00:00Z. -/
def jan14 : Time := midnight 741090

/-- Equipment 1 of owner 2: 50 per day, 200 per week, not auto-approved. -/
def drill : Equipment :=
  { ID := 1, OwnerID := 2, Name := "Drill", PricePerHour := none, PricePerDay := some 50,
    PricePerWeek := some 200, Available := true, AutoApprove := false }

/-- Equipment 3 of owner 2: 50 per day, no weekly price, auto-approved. -/
def ladder : Equipment :=
  { ID := 3, OwnerID := 2, Name := "Ladder", PricePerHour := none, PricePerDay := some 50,
    PricePerWeek := none, Available := true, AutoApprove := true }

/-- Equipment 4 of owner 2: 5 per hour only. -/
def mixer : Equipment :=
  { ID := 4, OwnerID := 2, Name := "Mixer", PricePerHour := some 5, PricePerDay := none,
    PricePerWeek := none, Available := true, AutoApprove := false }

/-- A reservation row of the drill by renter 7 with the given id, dates and status. -/
def drillRow (id : UUID) (startDate endDate : Time) (status : ReservationStatus) :
    ReservationRow :=
  { id := id, equipment_id := 1, renter_id := 7, start_date := startDate, end_date := endDate,
    status := status, total_price := 100, cancellation_reason := none,
    created_at := jan01, updated_at := jan01 }

/-- Outside inputs of a call made at the given time, drawing the given id, with
working notification inserts. -/
def envAt (now : Time) (newID : UUID) : Env :=
  { now := now, stamp := now, newID := newID, notifyFails := fun _ => false }

/-- A database holding the three pieces of equipment and the given reservation rows. -/
def storeWith (rows : List ReservationRow) : DB :=
  { equipment := [drill, ladder, mixer], reservations := rows, notifications := [], calls := [] }

/-- A sequence of calls on the drill: a booking for January 10 to 12, a booking
for January 12 to 14 (refused: shared day), a booking for January 14 to 16, and
the approval of the first one by the owner. -/
def sampleOps : List Op :=
  [ .Create (envAt jan01 20) 8 { EquipmentID := 1, StartDate := jan10, EndDate := jan12 },
    .Create (envAt jan01 21) 9 { EquipmentID := 1, StartDate := jan12, EndDate := jan14 },
    .Create (envAt jan01 22) 9 { EquipmentID := 1, StartDate := jan14, EndDate := midnight 741092 },
    .Approve (envAt jan01 23) 20 2 ]

/-- First row left by `sampleOps`. -/
def sampleRowA : ReservationRow :=
  { id := 20, equipment_id := 1, renter_id := 8, start_date := jan10, end_date := jan12,
    status := .StatusApproved,
    total_price := ReservationService.calculatePrice drill jan10 jan12,
    cancellation_reason := none, created_at := jan01, updated_at := jan01 }

/-- Second row left by `sampleOps`. -/
def sampleRowB : ReservationRow :=
  { id := 22, equipment_id := 1, renter_id := 9, start_date := jan14,
    end_date := midnight 741092, status := .StatusPending,
    total_price := ReservationService.calculatePrice drill jan14 (midnight 741092),
    cancellation_reason := none, created_at := jan01, updated_at := jan01 }

/-- A Pending booking of the drill made by its own owner (user 2). -/
def ownBooking : ReservationRow :=
  { id := 10, equipment_id := 1, renter_id := 2, start_date := jan10, end_date := jan12,
    status := .StatusPending, total_price := 100, cancellation_reason := none,
    created_at := jan01, updated_at := jan01 }

/-- Outside inputs of a call made at the given time, drawing the given id, where
every notification insert fails. -/
def envFailing (now : Time) (newID : UUID) : Env :=
  { now := now, stamp := now, newID := newID, notifyFails := fun _ => true }

/-- A booking of the drill by renter 8 for January 10 to 12, rejected by the owner. -/
def rejectOps : List Op :=
  [ .Create (envAt jan01 20) 8 { EquipmentID := 1, StartDate := jan10, EndDate := jan12 },
    .Reject (envAt jan01 21) 20 2 "not available" ]

/-- Later calls on the rejected booking: an approval, a cancellation by the renter,
a completion and another rejection. -/
def laterOps : List Op :=
  [ .Approve (envAt jan01 22) 20 2,
    .Cancel (envAt jan01 23) 20 8 "never mind",
    .Complete (envAt jan01 24) 20 2,
    .Reject (envAt jan01 25) 20 2 "again" ]

/-- The row left by `rejectOps`. -/
def rejectedRow : ReservationRow :=
  { id := 20, equipment_id := 1, renter_id := 8, start_date := jan10, end_date := jan12,
    status := .StatusRejected,
    total_price := ReservationService.calculatePrice drill jan10 jan12,
    cancellation_reason := some "not available", created_at := jan01, updated_at := jan01 }

/-- A query string with the given `page` and `per_page` values. -/
def queryOf (page perPage : String) : url.Values :=
  fun key => if key = "page" then [page] else if key = "per_page" then [perPage] else []

/-- A query string without parameters. -/
def emptyQuery : url.Values := fun _ => []

/-- The three predicates on the ASCII range, where they are the letters `A-Z`,
the letters `a-z` and the digits `0-9`; every other character is in none of the
classes here (as is the case in Unicode for a symbol such as `€`). -/
def asciiTables : unicode.Tables :=
  { IsUpper := fun c => decide (65 ≤ c.toNat ∧ c.toNat ≤ 90),
    IsLower := fun c => decide (97 ≤ c.toNat ∧ c.toNat ≤ 122),
    IsDigit := fun c => decide (48 ≤ c.toNat ∧ c.toNat ≤ 57) }

/-- A pending reservation of the drill from January 10, 15:00 to January 12,
10:00. -/
def afternoonRow : ReservationRow :=
  drillRow 10 (jan10 + 15 * Hour) (jan12 + 10 * Hour) .StatusPending

/-- A store with a pending reservation of the drill for January 10 to 12 and a
rejected one for January 12 to 14. -/
def calendarStore : DB :=
  storeWith [drillRow 10 jan10 jan12 .StatusPending, drillRow 11 jan12 jan14 .StatusRejected]

/-- A request for a trailer rented by the week only, at 200 per week. -/
def trailerRequest : CreateEquipmentRequest :=
  { Name := "Trailer", Category := "transport", PricePerHour := none, PricePerDay := none,
    PricePerWeek := some 200, AutoApprove := true }

/-- The trailer as `EquipmentService.Create` stores it under id 5 for owner 2. -/
def trailer : Equipment :=
  { ID := 5, OwnerID := 2, Name := "Trailer", PricePerHour := none, PricePerDay := none,
    PricePerWeek := some 200, Available := true, AutoApprove := true }

/-- A request for the drill from January 10 to January 12. -/
def drillRequestA : CreateReservationRequest :=
  { EquipmentID := 1, StartDate := jan10, EndDate := jan12 }

/-- A request for the drill from January 10 to January 14. -/
def drillRequestB : CreateReservationRequest :=
  { EquipmentID := 1, StartDate := jan10, EndDate := jan14 }

/-- Escaping of a text into one without dots: `.` becomes `%d` and `%` becomes
`%p`. -/
def sampleLibrary.escape : List Char → List Char
  | [] => []
  | c :: cs =>
    if c = '.' then '%' :: 'd' :: sampleLibrary.escape cs
    else if c = '%' then '%' :: 'p' :: sampleLibrary.escape cs
    else c :: sampleLibrary.escape cs

/-- The inverse of `sampleLibrary.escape`; `none` on a text that is not an
escaped one. -/
def sampleLibrary.unescape : List Char → Option (List Char)
  | [] => some []
  | [c] => if c = '%' ∨ c = '.' then none else some [c]
  | c :: d :: cs =>
    if c = '%' then
      if d = 'd' then (sampleLibrary.unescape cs).map (fun l => '.' :: l)
      else if d = 'p' then (sampleLibrary.unescape cs).map (fun l => '%' :: l)
      else none
    else if c = '.' then none
    else (sampleLibrary.unescape (d :: cs)).map (fun l => c :: l)

/-- A small stand-in for the library functions, with texts as byte slices: the
MAC is the key followed by the message, the encoding escapes the dots, and the
claims are marshalled as a line of comma-separated fields. -/
def sampleLibrary : jwt.Library String :=
  { hmacSHA256 := fun key message => key ++ message
    EncodeToString := fun b => String.mk (sampleLibrary.escape b.toList)
    DecodeString := fun s => (sampleLibrary.unescape s.toList).map String.mk
    MarshalHeader := "HS256,JWT"
    Marshal := fun c =>
      toString c.UserID ++ "," ++ c.Email ++ "," ++ c.Role ++ "," ++ toString c.Exp ++ ","
        ++ toString c.Iat
    Unmarshal := fun b =>
      match strings.Split b ',' with
      | [userID, email, role, exp, iat] =>
        match strconv.Atoi userID, strconv.Atoi exp, strconv.Atoi iat with
        | some u, some e, some i =>
          some { UserID := u.toNat, Email := email, Role := role, Exp := e, Iat := i }
        | _, _, _ => none
      | _ => none }

/-- The manager of the test: secret `test-secret`, tokens valid for one hour. -/
def testManager : jwt.Manager := { secret := "test-secret", expiration := Hour }

/-! # Properties -/

/-! ## Auxiliary facts -/

/-- Recording a call leaves the reservations table as it is. -/
@[simp] theorem DB.record_reservations (db : DB) (c : RepoCall) :
    (db.record c).reservations = db.reservations := rfl

/-- Recording a call leaves the equipment table as it is. -/
@[simp] theorem DB.record_equipment (db : DB) (c : RepoCall) :
    (db.record c).equipment = db.equipment := rfl

/-- Recording a call leaves the notifications table as it is. -/
@[simp] theorem DB.record_notifications (db : DB) (c : RepoCall) :
    (db.record c).notifications = db.notifications := rfl

/-- A notification does not touch the reservations table. -/
@[simp] theorem createNotification_reservations (db : DB) (fails : Bool) (userID : UUID)
    (notifType : NotificationType) (title message : String) (refID : Option UUID)
    (refType : String) :
    (ReservationService.createNotification db fails userID notifType title message refID
      refType).reservations = db.reservations := by
  unfold ReservationService.createNotification NotificationRepository.Create
  cases fails <;> simp

/-- A notification does not touch the equipment table. -/
@[simp] theorem createNotification_equipment (db : DB) (fails : Bool) (userID : UUID)
    (notifType : NotificationType) (title message : String) (refID : Option UUID)
    (refType : String) :
    (ReservationService.createNotification db fails userID notifType title message refID
      refType).equipment = db.equipment := by
  unfold ReservationService.createNotification NotificationRepository.Create
  cases fails <;> simp

/-! ## Rounding to `float64` -/

/-- An integer is its own nearest integer. -/
theorem Float64.roundHalfEven_intCast (n : Int) : Float64.roundHalfEven (n : ℚ) = n := by
  simp [Float64.roundHalfEven]

/-- Rounding commutes with the change of sign. -/
theorem Float64.round_neg (q : ℚ) : Float64.round (-q) = -Float64.round q := by
  unfold Float64.round Float64.ulpExp
  by_cases h0 : q = 0
  · simp [h0]
  · have h0' : -q ≠ 0 := neg_ne_zero.mpr h0
    rcases lt_or_gt_of_ne h0 with h | h
    · have h1 : ¬ (-q < 0) := by linarith
      simp only [if_neg h0, if_neg h0', abs_neg, if_pos h, if_neg h1]
      ring
    · have h1 : -q < 0 := by linarith
      have h2 : ¬ (q < 0) := by linarith
      simp only [if_neg h0, if_neg h0', abs_neg, if_pos h1, if_neg h2]

/-- A positive value `n * 2 ^ j` with `n < 2 ^ 53` and `j >= -1074` is a
`float64` value: rounding leaves it unchanged. -/
theorem Float64.round_dyadic_pos (n : Int) (j : Int) (hn0 : 0 < n) (hn : n < 2 ^ 53)
    (hj : -1074 ≤ j) : Float64.round ((n : ℚ) * 2 ^ j) = (n : ℚ) * 2 ^ j := by
  have h2j : (0 : ℚ) < 2 ^ j := by positivity
  have hnq : (0 : ℚ) < n := by exact_mod_cast hn0
  have hq : (0 : ℚ) < (n : ℚ) * 2 ^ j := mul_pos hnq h2j
  have habs : |(n : ℚ) * 2 ^ j| = (n : ℚ) * 2 ^ j := abs_of_pos hq
  have hlt : (n : ℚ) * 2 ^ j < 2 ^ (53 + j) := by
    rw [zpow_add₀ (by norm_num : (2 : ℚ) ≠ 0)]
    have : (n : ℚ) < 2 ^ (53 : ℤ) := by
      have h53 : (2 : ℚ) ^ (53 : ℤ) = ((2 ^ 53 : Int) : ℚ) := by norm_num
      rw [h53]
      exact_mod_cast hn
    exact mul_lt_mul_of_pos_right this h2j
  have hlog : Int.log 2 |(n : ℚ) * 2 ^ j| < 53 + j := by
    rw [← Int.lt_zpow_iff_log_lt (by norm_num) (by rw [habs]; exact hq), habs]
    exact_mod_cast hlt
  have hk : Float64.ulpExp ((n : ℚ) * 2 ^ j) ≤ j := by
    unfold Float64.ulpExp
    omega
  obtain ⟨d, hd⟩ := Int.eq_ofNat_of_zero_le (sub_nonneg.mpr hk)
  have hj' : j = Float64.ulpExp ((n : ℚ) * 2 ^ j) + d := by omega
  have hpow : (2 : ℚ) ^ j = 2 ^ Float64.ulpExp ((n : ℚ) * 2 ^ j) * 2 ^ d := by
    conv_lhs => rw [hj']
    rw [zpow_add₀ (by norm_num : (2 : ℚ) ≠ 0), zpow_natCast]
  have hk0 : (2 : ℚ) ^ Float64.ulpExp ((n : ℚ) * 2 ^ j) ≠ 0 := by positivity
  have hdiv : (n : ℚ) * 2 ^ j / 2 ^ Float64.ulpExp ((n : ℚ) * 2 ^ j) = ((n * 2 ^ d : Int) : ℚ) := by
    rw [div_eq_iff hk0]
    conv_lhs => rw [hpow]
    push_cast
    ring
  unfold Float64.round
  rw [if_neg (ne_of_gt hq), if_neg (not_lt.mpr (le_of_lt hq)), habs, hdiv,
    Float64.roundHalfEven_intCast]
  conv_rhs => rw [hpow]
  push_cast
  ring

/-- A value `n * 2 ^ j` with `|n| < 2 ^ 53` and `j >= -1074` is a `float64`
value: rounding leaves it unchanged. -/
theorem Float64.round_dyadic (n : Int) (j : Int) (hn : |n| < 2 ^ 53) (hj : -1074 ≤ j) :
    Float64.round ((n : ℚ) * 2 ^ j) = (n : ℚ) * 2 ^ j := by
  rcases lt_trichotomy n 0 with h | h | h
  · have hpos := Float64.round_dyadic_pos (-n) j (by omega) (by rw [abs_of_neg h] at hn; exact hn) hj
    have : (n : ℚ) * 2 ^ j = -(((-n : Int) : ℚ) * 2 ^ j) := by push_cast; ring
    rw [this, Float64.round_neg, hpos]
  · subst h
    simp [Float64.round]
  · exact Float64.round_dyadic_pos n j h (by rw [abs_of_pos h] at hn; exact hn) hj

/-- An integer below `2 ^ 53` in magnitude is a `float64` value. -/
theorem Float64.round_intCast (n : Int) (hn : |n| < 2 ^ 53) :
    Float64.round (n : ℚ) = n := by
  have h := Float64.round_dyadic n 0 hn (by norm_num)
  simpa using h

/-- The conversion of an integer below `2 ^ 53` in magnitude is exact. -/
theorem Float64.ofRat_intCast (n : Int) (hn : |n| < 2 ^ 53) :
    Float64.ofRat (n : ℚ) = .finite n := by
  unfold Float64.ofRat
  rw [Float64.round_intCast n hn]
  have h1 : ((|n| : Int) : ℚ) < 2 ^ 53 := by exact_mod_cast hn
  have h2 : (2 : ℚ) ^ 53 < 2 ^ 1024 := by norm_num
  have h3 : |(n : ℚ)| < 2 ^ 1024 := by
    rw [← Int.cast_abs]
    linarith
  have h4 := abs_lt.mp h3
  rw [if_neg (by linarith [h4.2]), if_neg (by linarith [h4.1])]

/-- The conversion `float64(n)` of an integer below `2 ^ 53` in magnitude. -/
theorem Float64.ofInt_eq (n : Int) (hn : |n| < 2 ^ 53) : Float64.ofInt n = .finite n :=
  Float64.ofRat_intCast n hn

/-- The product of two integers is exact when it is below `2 ^ 53` in magnitude. -/
theorem Float64.mul_intCast (a b : Int) (h : |a * b| < 2 ^ 53) :
    Float64.mul (.finite a) (.finite b) = .finite ((a * b : Int) : ℚ) := by
  have := Float64.ofRat_intCast (a * b) h
  simp only [Float64.mul]
  rw [← this]
  push_cast
  rfl

/-- The sum of two integers is exact when it is below `2 ^ 53` in magnitude. -/
theorem Float64.add_intCast (a b : Int) (h : |a + b| < 2 ^ 53) :
    Float64.add (.finite a) (.finite b) = .finite ((a + b : Int) : ℚ) := by
  have := Float64.ofRat_intCast (a + b) h
  simp only [Float64.add]
  rw [← this]
  push_cast
  rfl

/-! ## The duration of a range -/

/-- A whole number of hours is measured exactly. -/
theorem Duration.Hours_whole (n : Int) (hn : |n| < 2 ^ 53) :
    Duration.Hours (n * Hour) = n := by
  have hH : Hour ≠ 0 := by decide
  have h1 : Int.tdiv (n * Hour) Hour = n := Int.mul_tdiv_cancel n hH
  have h2 : Int.tmod (n * Hour) Hour = 0 := Int.mul_tmod_left n Hour
  have h0 : Float64.round 0 = 0 := by simp [Float64.round]
  unfold Duration.Hours
  rw [h1, h2, Float64.round_intCast n hn]
  simp only [Int.cast_zero, h0, zero_div, add_zero]
  exact Float64.round_intCast n hn

/-- The difference of two times that are a duration of the `int64` range apart. -/
theorem Time.Sub_add (s : Time) (d : Duration) (h0 : minDuration ≤ d) (h1 : d ≤ maxDuration) :
    Time.Sub (s + d) s = d := by
  unfold Time.Sub
  unfold minDuration at h0
  unfold maxDuration at h1
  unfold minDuration maxDuration
  unfold Time Duration at *
  have e : s + d - s = d := by ring
  rw [e]
  split_ifs <;> omega

/-- A range of `n` whole days (within the range of `Duration`) is measured as `n` days. -/
theorem rentalDays_add_days (s : Time) (n : Int) (h0 : 0 ≤ n) (h1 : n ≤ 106751) :
    rentalDays s (s + n * (24 * Hour)) = n := by
  unfold rentalDays
  have hb : (-9223372036854775808 : Int) ≤ n * (24 * 3600000000000) ∧
      n * (24 * 3600000000000) ≤ (9223372036854775807 : Int) := by omega
  have hsub : Time.Sub (s + n * (24 * Hour)) s = n * (24 * Hour) :=
    Time.Sub_add s _ hb.1 hb.2
  have hmul : n * (24 * Hour) = (24 * n) * Hour := by ring
  have h24 : |24 * n| < 2 ^ 53 := by
    rw [abs_of_nonneg (by omega)]
    norm_num
    omega
  have hn : |n| < 2 ^ 53 := by
    rw [abs_of_nonneg h0]
    norm_num
    omega
  rw [hsub, hmul, Duration.Hours_whole _ h24]
  have : ((24 * n : Int) : ℚ) / 24 = ((n : Int) : ℚ) := by
    push_cast; ring
  rw [this, Float64.round_intCast n hn]
  exact Int.ceil_intCast n

/-- A blocking row of the equipment that overlaps the candidate range inclusively
satisfies the WHERE clause of the availability query (no assumption on the dates). -/
theorem whereClause_of_overlap (equipmentID : UUID) (startDate endDate : Time) (r : ReservationRow)
    (heq : r.equipment_id = equipmentID) (hb : r.blocking = true)
    (h1 : r.start_date ≤ endDate) (h2 : r.end_date ≥ startDate) :
    EquipmentRepository.CheckAvailability.whereClause equipmentID startDate endDate r = true := by
  simp only [ReservationRow.blocking, Bool.or_eq_true, decide_eq_true_eq] at hb
  simp only [EquipmentRepository.CheckAvailability.whereClause, Bool.and_eq_true, Bool.or_eq_true,
    decide_eq_true_eq]
  refine ⟨⟨heq, hb⟩, ?_⟩
  unfold Time at *
  omega

/-- A row with `start_date <= end_date` matched by the WHERE clause, for a candidate
with `startDate <= endDate`, is a blocking row of the equipment that overlaps it. -/
theorem overlap_of_whereClause (equipmentID : UUID) (startDate endDate : Time) (r : ReservationRow)
    (hr : r.start_date ≤ r.end_date) (hrange : startDate ≤ endDate)
    (h : EquipmentRepository.CheckAvailability.whereClause equipmentID startDate endDate r = true) :
    r.equipment_id = equipmentID ∧ r.blocking = true
      ∧ r.start_date ≤ endDate ∧ r.end_date ≥ startDate := by
  simp only [EquipmentRepository.CheckAvailability.whereClause, Bool.and_eq_true, Bool.or_eq_true,
    decide_eq_true_eq] at h
  simp only [ReservationRow.blocking, Bool.or_eq_true, decide_eq_true_eq]
  unfold Time at *
  refine ⟨h.1.1, h.1.2, ?_, ?_⟩ <;> omega

/-- The equipment read when the row exists. -/
theorem EquipmentRepository.GetByID_some (db : DB) (id : UUID) (e : Equipment)
    (he : db.equipment.find? (fun e => decide (e.ID = id)) = some e) :
    EquipmentRepository.GetByID db id = (.ok e, db.record (.EquipmentGetByID id)) := by
  simp only [EquipmentRepository.GetByID, he]

/-- The equipment read when the row is missing. -/
theorem EquipmentRepository.GetByID_none (db : DB) (id : UUID)
    (he : db.equipment.find? (fun e => decide (e.ID = id)) = none) :
    EquipmentRepository.GetByID db id
      = (.error .repoErrEquipmentNotFound, db.record (.EquipmentGetByID id)) := by
  simp only [EquipmentRepository.GetByID, he]

/-- The availability query answers `true` when no row matches. -/
theorem EquipmentRepository.CheckAvailability_true (db : DB) (id : UUID) (s e : Time)
    (h : db.reservations.filter (EquipmentRepository.CheckAvailability.whereClause id s e) = []) :
    EquipmentRepository.CheckAvailability db id s e
      = (.ok true, db.record (.EquipmentCheckAvailability id s e)) := by
  simp only [EquipmentRepository.CheckAvailability, h, List.length_nil, decide_True]

/-- The availability query answers `false` when some row matches. -/
theorem EquipmentRepository.CheckAvailability_false (db : DB) (id : UUID) (s e : Time)
    (h : db.reservations.filter (EquipmentRepository.CheckAvailability.whereClause id s e) ≠ []) :
    EquipmentRepository.CheckAvailability db id s e
      = (.ok false, db.record (.EquipmentCheckAvailability id s e)) := by
  have : (db.reservations.filter
      (EquipmentRepository.CheckAvailability.whereClause id s e)).length ≠ 0 := by
    rwa [Ne, List.length_eq_zero]
  simp only [EquipmentRepository.CheckAvailability, this, decide_False]

/-- An insert with an id already in the table is refused. -/
theorem ReservationRepository.Create_duplicate (db : DB) (env : Env) (r : Reservation)
    (h : db.reservations.any (fun x => decide (x.id = env.newID)) = true) :
    ReservationRepository.Create db env r
      = ({ r with ID := env.newID, CreatedAt := env.stamp, UpdatedAt := env.stamp },
         some (.driver "duplicate key value violates unique constraint"),
         db.record (.ReservationCreate env.newID)) := by
  simp only [ReservationRepository.Create, DB.record_reservations, h, if_true]

/-- An insert for an equipment id that is not in the table is refused. -/
theorem ReservationRepository.Create_noEquipment (db : DB) (env : Env) (r : Reservation)
    (h : db.reservations.any (fun x => decide (x.id = env.newID)) = false)
    (hfk : db.equipment.any (fun e => decide (e.ID = r.EquipmentID)) = false) :
    ReservationRepository.Create db env r
      = ({ r with ID := env.newID, CreatedAt := env.stamp, UpdatedAt := env.stamp },
         some (.driver "insert violates foreign key constraint"),
         db.record (.ReservationCreate env.newID)) := by
  simp [ReservationRepository.Create, DB.record_reservations, h, hfk]

/-- An insert with a new id for an existing equipment appends the row. -/
theorem ReservationRepository.Create_inserted (db : DB) (env : Env) (r : Reservation)
    (h : db.reservations.any (fun x => decide (x.id = env.newID)) = false)
    (hfk : db.equipment.any (fun e => decide (e.ID = r.EquipmentID)) = true) :
    ReservationRepository.Create db env r
      = ({ r with ID := env.newID, CreatedAt := env.stamp, UpdatedAt := env.stamp },
         none,
         { db.record (.ReservationCreate env.newID) with
           reservations := db.reservations ++
             [Reservation.toRow
               { r with ID := env.newID, CreatedAt := env.stamp, UpdatedAt := env.stamp }] }) := by
  simp only [ReservationRepository.Create, DB.record_reservations, DB.record_equipment, h, hfk,
    Bool.false_eq_true, if_false, Bool.not_true, Reservation.toRow]

/-- What a successful `Create` has checked, returns and writes. -/
theorem ReservationService.Create_ok (db : DB) (env : Env) (renterID : UUID) (req : CreateReservationRequest)
    (r : Reservation) (db' : DB)
    (h : ReservationService.Create db env renterID req = (.ok r, db')) :
    ∃ e, ValidationErrors.HasErrors (ReservationService.Create.validation env.now req) = false
      ∧ db.equipment.find? (fun e => decide (e.ID = req.EquipmentID)) = some e
      ∧ e.Available = true
      ∧ db.reservations.filter (EquipmentRepository.CheckAvailability.whereClause
          req.EquipmentID req.StartDate req.EndDate) = []
      ∧ db.reservations.any (fun x => decide (x.id = env.newID)) = false
      ∧ r = { ID := env.newID, EquipmentID := req.EquipmentID, Equipment := none,
              RenterID := renterID, StartDate := req.StartDate, EndDate := req.EndDate,
              Status := if e.AutoApprove then .StatusApproved else .StatusPending,
              TotalPrice := ReservationService.calculatePrice e req.StartDate req.EndDate,
              CancellationReason := "", CreatedAt := env.stamp, UpdatedAt := env.stamp }
      ∧ db'.reservations = db.reservations ++ [r.toRow]
      ∧ db'.equipment = db.equipment := by
  cases hv : ValidationErrors.HasErrors (ReservationService.Create.validation env.now req)
  swap
  · simp [ReservationService.Create, hv] at h
  cases he : db.equipment.find? (fun e => decide (e.ID = req.EquipmentID)) with
  | none =>
    simp [ReservationService.Create, hv, EquipmentRepository.GetByID_none db _ he] at h
  | some e =>
    have hget := EquipmentRepository.GetByID_some db _ e he
    cases ha : e.Available
    · simp [ReservationService.Create, hv, hget, ha] at h
    · by_cases hc : db.reservations.filter (EquipmentRepository.CheckAvailability.whereClause
          req.EquipmentID req.StartDate req.EndDate) = []
      swap
      · have hchk := EquipmentRepository.CheckAvailability_false
          (db.record (.EquipmentGetByID req.EquipmentID)) req.EquipmentID req.StartDate
          req.EndDate hc
        simp [ReservationService.Create, hv, hget, ha, hchk] at h
      · have hchk := EquipmentRepository.CheckAvailability_true
          (db.record (.EquipmentGetByID req.EquipmentID)) req.EquipmentID req.StartDate
          req.EndDate hc
        have hfk : db.equipment.any (fun x => decide (x.ID = req.EquipmentID)) = true := by
          rw [List.any_eq_true]
          have hp := List.find?_some he
          exact ⟨e, List.mem_of_find?_eq_some he, hp⟩
        cases hid : db.reservations.any (fun x => decide (x.id = env.newID))
        · simp only [ReservationService.Create, hv, hget, ha, hchk] at h
          rw [ReservationRepository.Create_inserted] at h
          rotate_left
          · exact hid
          · exact hfk
          simp only [Bool.false_eq_true, if_false, Bool.not_true, Prod.mk.injEq,
            Except.ok.injEq] at h
          obtain ⟨h1, h2⟩ := h
          subst h1
          refine ⟨e, rfl, rfl, ha, hc, rfl, rfl, ?_, ?_⟩
          · rw [← h2]
            split_ifs <;> simp
          · rw [← h2]
            split_ifs <;> simp
        · simp only [ReservationService.Create, hv, hget, ha, hchk] at h
          rw [ReservationRepository.Create_duplicate] at h
          rotate_left
          · exact hid
          simp at h

/-- The validator of `Create` reports a zero date or an end not after the start. -/
theorem validation_hasErrors_of_bad_range (now : Time) (req : CreateReservationRequest)
    (h : Time.IsZero req.StartDate = true ∨ Time.IsZero req.EndDate = true
      ∨ ¬ (req.StartDate < req.EndDate)) :
    ValidationErrors.HasErrors (ReservationService.Create.validation now req) = true := by
  unfold ReservationService.Create.validation ValidationErrors.HasErrors Validator.AddError
  cases hs : Time.IsZero req.StartDate <;> cases he : Time.IsZero req.EndDate <;>
    simp [hs, he] at h ⊢
  · have : Time.After req.EndDate req.StartDate = false := by
      simp only [Time.After, decide_eq_false_iff_not]
      unfold Time at *
      omega
    simp [this]
    split_ifs <;> simp

/-- The validator of `Create` reports a start before the truncated current time. -/
theorem validation_hasErrors_of_past (now : Time) (req : CreateReservationRequest)
    (h : Time.Before req.StartDate (Time.Truncate now (24 * Hour)) = true) :
    ValidationErrors.HasErrors (ReservationService.Create.validation now req) = true := by
  unfold ReservationService.Create.validation ValidationErrors.HasErrors Validator.AddError
  cases hs : Time.IsZero req.StartDate <;> cases he : Time.IsZero req.EndDate <;>
    simp [hs, he, h]

/-- The reservation read when the row and its equipment exist. -/
theorem ReservationRepository.GetByID_found (db : DB) (id : UUID) (row : ReservationRow)
    (e : Equipment)
    (hrow : db.reservations.find? (fun r => decide (r.id = id)) = some row)
    (he : db.equipment.find? (fun e => decide (e.ID = row.equipment_id)) = some e) :
    ReservationRepository.GetByID db id
      = (.ok (ReservationRepository.GetByID.scan row e), db.record (.ReservationGetByID id)) := by
  simp only [ReservationRepository.GetByID, hrow, he]

/-- The reservation read when the row is missing. -/
theorem ReservationRepository.GetByID_noRow (db : DB) (id : UUID)
    (hrow : db.reservations.find? (fun r => decide (r.id = id)) = none) :
    ReservationRepository.GetByID db id
      = (.error .repoErrReservationNotFound, db.record (.ReservationGetByID id)) := by
  simp only [ReservationRepository.GetByID, hrow]

/-- The reservation read when the equipment of the row is missing. -/
theorem ReservationRepository.GetByID_noEquipment (db : DB) (id : UUID) (row : ReservationRow)
    (hrow : db.reservations.find? (fun r => decide (r.id = id)) = some row)
    (he : db.equipment.find? (fun e => decide (e.ID = row.equipment_id)) = none) :
    ReservationRepository.GetByID db id
      = (.error (.driver "sql: Scan error: converting NULL to string is unsupported"),
         db.record (.ReservationGetByID id)) := by
  simp only [ReservationRepository.GetByID, hrow, he]

/-- The status update when a row has the id. -/
theorem ReservationRepository.UpdateStatus_found (db : DB) (env : Env) (id : UUID)
    (status : ReservationStatus) (reason : String) (row : ReservationRow)
    (hrow : db.reservations.find? (fun r => decide (r.id = id)) = some row) :
    ReservationRepository.UpdateStatus db env id status reason
      = (none, { db.record (.ReservationUpdateStatus id status reason) with
          reservations := db.reservations.map
            (fun r => r.setStatus id status reason env.stamp) }) := by
  have hne : (db.reservations.filter (fun r => decide (r.id = id))).length ≠ 0 := by
    rw [Ne, List.length_eq_zero, List.filter_eq_nil_iff]
    intro hall
    have hp := List.find?_some hrow
    exact hall row (List.mem_of_find?_eq_some hrow) hp
  simp only [ReservationRepository.UpdateStatus, DB.record_reservations, hne, if_false]
  rfl

/-- The status update when no row has the id. -/
theorem ReservationRepository.UpdateStatus_missing (db : DB) (env : Env) (id : UUID)
    (status : ReservationStatus) (reason : String)
    (hrow : db.reservations.find? (fun r => decide (r.id = id)) = none) :
    ReservationRepository.UpdateStatus db env id status reason
      = (some .repoErrReservationNotFound,
         db.record (.ReservationUpdateStatus id status reason)) := by
  have hz : (db.reservations.filter (fun r => decide (r.id = id))).length = 0 := by
    rw [List.length_eq_zero, List.filter_eq_nil_iff]
    intro a ha
    exact List.find?_eq_none.mp hrow a ha
  simp only [ReservationRepository.UpdateStatus, DB.record_reservations, hz, if_true]

/-- The reservations after `Approve`: unchanged, or a legal transition of the row found. -/
theorem ReservationService.Approve_reservations (db : DB) (env : Env) (id ownerID : UUID) :
    ((ReservationService.Approve db env id ownerID).2.reservations = db.reservations
      ∨ ∃ row status stored,
          db.reservations.find? (fun r => decide (r.id = id)) = some row
          ∧ legalTransition row.status status = true
          ∧ (ReservationService.Approve db env id ownerID).2.reservations
              = db.reservations.map (fun r => r.setStatus id status stored env.stamp))
    ∧ (ReservationService.Approve db env id ownerID).2.equipment = db.equipment := by
  cases hrow : db.reservations.find? (fun r => decide (r.id = id)) with
  | none =>
    simp [ReservationService.Approve, ReservationRepository.GetByID_noRow db id hrow]
  | some row =>
    cases he : db.equipment.find? (fun e => decide (e.ID = row.equipment_id)) with
    | none =>
      simp [ReservationService.Approve, ReservationRepository.GetByID_noEquipment db id row hrow he]
    | some e =>
      have hget := ReservationRepository.GetByID_found db id row e hrow he
      have hupd := ReservationRepository.UpdateStatus_found
        (db.record (.ReservationGetByID id)) env id .StatusApproved "" row hrow
      by_cases ho : e.OwnerID = ownerID
      swap
      · simp [ReservationService.Approve, hget, ReservationRepository.GetByID.scan, ho]
      by_cases hs : row.status = .StatusPending
      swap
      · simp [ReservationService.Approve, hget, ReservationRepository.GetByID.scan, ho, hs]
      · simp only [ReservationService.Approve, hget, ReservationRepository.GetByID.scan, ho, hs,
          hupd, ne_eq, not_true_eq_false, if_false, createNotification_reservations,
          createNotification_equipment, DB.record_equipment, and_true]
        right
        exact ⟨row, .StatusApproved, "", rfl, by rw [hs]; rfl, rfl⟩

/-- The reservations after `Reject`: unchanged, or a legal transition of the row found. -/
theorem ReservationService.Reject_reservations (db : DB) (env : Env) (id ownerID : UUID)
    (reason : String) :
    ((ReservationService.Reject db env id ownerID reason).2.reservations = db.reservations
      ∨ ∃ row status stored,
          db.reservations.find? (fun r => decide (r.id = id)) = some row
          ∧ legalTransition row.status status = true
          ∧ (ReservationService.Reject db env id ownerID reason).2.reservations
              = db.reservations.map (fun r => r.setStatus id status stored env.stamp))
    ∧ (ReservationService.Reject db env id ownerID reason).2.equipment = db.equipment := by
  cases hrow : db.reservations.find? (fun r => decide (r.id = id)) with
  | none =>
    simp [ReservationService.Reject, ReservationRepository.GetByID_noRow db id hrow]
  | some row =>
    cases he : db.equipment.find? (fun e => decide (e.ID = row.equipment_id)) with
    | none =>
      simp [ReservationService.Reject, ReservationRepository.GetByID_noEquipment db id row hrow he]
    | some e =>
      have hget := ReservationRepository.GetByID_found db id row e hrow he
      have hupd := ReservationRepository.UpdateStatus_found
        (db.record (.ReservationGetByID id)) env id .StatusRejected reason row hrow
      by_cases ho : e.OwnerID = ownerID
      swap
      · simp [ReservationService.Reject, hget, ReservationRepository.GetByID.scan, ho]
      by_cases hs : row.status = .StatusPending
      swap
      · simp [ReservationService.Reject, hget, ReservationRepository.GetByID.scan, ho, hs]
      · simp only [ReservationService.Reject, hget, ReservationRepository.GetByID.scan, ho, hs,
          hupd, ne_eq, not_true_eq_false, if_false, createNotification_reservations,
          createNotification_equipment, DB.record_equipment, and_true]
        right
        exact ⟨row, .StatusRejected, reason, rfl, by rw [hs]; rfl, rfl⟩

/-- The reservations after `Complete`: unchanged, or a legal transition of the row found. -/
theorem ReservationService.Complete_reservations (db : DB) (env : Env) (id ownerID : UUID) :
    ((ReservationService.Complete db env id ownerID).2.reservations = db.reservations
      ∨ ∃ row status stored,
          db.reservations.find? (fun r => decide (r.id = id)) = some row
          ∧ legalTransition row.status status = true
          ∧ (ReservationService.Complete db env id ownerID).2.reservations
              = db.reservations.map (fun r => r.setStatus id status stored env.stamp))
    ∧ (ReservationService.Complete db env id ownerID).2.equipment = db.equipment := by
  cases hrow : db.reservations.find? (fun r => decide (r.id = id)) with
  | none =>
    simp [ReservationService.Complete, ReservationRepository.GetByID_noRow db id hrow]
  | some row =>
    cases he : db.equipment.find? (fun e => decide (e.ID = row.equipment_id)) with
    | none =>
      simp [ReservationService.Complete, ReservationRepository.GetByID_noEquipment db id row hrow he]
    | some e =>
      have hget := ReservationRepository.GetByID_found db id row e hrow he
      have hupd := ReservationRepository.UpdateStatus_found
        (db.record (.ReservationGetByID id)) env id .StatusCompleted "" row hrow
      by_cases ho : e.OwnerID = ownerID
      swap
      · simp [ReservationService.Complete, hget, ReservationRepository.GetByID.scan, ho]
      by_cases hs : row.status = .StatusApproved
      swap
      · simp [ReservationService.Complete, hget, ReservationRepository.GetByID.scan, ho, hs]
      · simp only [ReservationService.Complete, hget, ReservationRepository.GetByID.scan, ho, hs,
          hupd, ne_eq, not_true_eq_false, if_false, createNotification_reservations,
          createNotification_equipment, DB.record_equipment, and_true]
        right
        exact ⟨row, .StatusCompleted, "", rfl, by rw [hs]; rfl, rfl⟩

/-- The reservations after `Cancel`: unchanged, or a legal transition of the row found. -/
theorem ReservationService.Cancel_reservations (db : DB) (env : Env) (id userID : UUID)
    (reason : String) :
    ((ReservationService.Cancel db env id userID reason).2.reservations = db.reservations
      ∨ ∃ row status stored,
          db.reservations.find? (fun r => decide (r.id = id)) = some row
          ∧ legalTransition row.status status = true
          ∧ (ReservationService.Cancel db env id userID reason).2.reservations
              = db.reservations.map (fun r => r.setStatus id status stored env.stamp))
    ∧ (ReservationService.Cancel db env id userID reason).2.equipment = db.equipment := by
  cases hrow : db.reservations.find? (fun r => decide (r.id = id)) with
  | none =>
    simp [ReservationService.Cancel, ReservationRepository.GetByID_noRow db id hrow]
  | some row =>
    cases he : db.equipment.find? (fun e => decide (e.ID = row.equipment_id)) with
    | none =>
      simp [ReservationService.Cancel, ReservationRepository.GetByID_noEquipment db id row hrow he]
    | some e =>
      have hget := ReservationRepository.GetByID_found db id row e hrow he
      have hupd := ReservationRepository.UpdateStatus_found
        (db.record (.ReservationGetByID id)) env id .StatusCancelled reason row hrow
      by_cases ho : row.renter_id ≠ userID ∧ e.OwnerID ≠ userID
      · simp [ReservationService.Cancel, hget, ReservationRepository.GetByID.scan, ho]
      by_cases hs : row.status ≠ .StatusPending ∧ row.status ≠ .StatusApproved
      · simp [ReservationService.Cancel, hget, ReservationRepository.GetByID.scan, ho, hs]
      by_cases hl : row.status = .StatusApproved
          ∧ Time.Before row.start_date (Time.Add env.now (24 * Hour)) = true
      · simp [ReservationService.Cancel, hget, ReservationRepository.GetByID.scan, ho, hs, hl]
      · simp only [ReservationService.Cancel, hget, ReservationRepository.GetByID.scan, ho, hs,
          hl, hupd, if_false, createNotification_reservations,
          createNotification_equipment, DB.record_equipment, and_true]
        right
        refine ⟨row, .StatusCancelled, reason, rfl, ?_, rfl⟩
        cases hst : row.status <;> simp [hst] at hs ⊢ <;> rfl

/-- A failed `Create` leaves the three tables as they were. -/
theorem ReservationService.Create_error (db : DB) (env : Env) (renterID : UUID)
    (req : CreateReservationRequest) (err : GoError) (db' : DB)
    (h : ReservationService.Create db env renterID req = (.error err, db')) :
    db'.reservations = db.reservations ∧ db'.equipment = db.equipment
      ∧ db'.notifications = db.notifications := by
  cases hv : ValidationErrors.HasErrors (ReservationService.Create.validation env.now req)
  swap
  · simp only [ReservationService.Create, hv, if_true, Prod.mk.injEq] at h
    rw [← h.2]
    exact ⟨rfl, rfl, rfl⟩
  cases he : db.equipment.find? (fun e => decide (e.ID = req.EquipmentID)) with
  | none =>
    simp only [ReservationService.Create, hv, EquipmentRepository.GetByID_none db _ he,
      Bool.false_eq_true, if_false, if_true, Prod.mk.injEq] at h
    rw [← h.2]
    exact ⟨rfl, rfl, rfl⟩
  | some e =>
    have hget := EquipmentRepository.GetByID_some db _ e he
    cases ha : e.Available
    · simp only [ReservationService.Create, hv, hget, ha, Bool.false_eq_true, if_false,
        Bool.not_false, if_true, Prod.mk.injEq] at h
      rw [← h.2]
      exact ⟨rfl, rfl, rfl⟩
    · by_cases hc : db.reservations.filter (EquipmentRepository.CheckAvailability.whereClause
          req.EquipmentID req.StartDate req.EndDate) = []
      swap
      · have hchk := EquipmentRepository.CheckAvailability_false
          (db.record (.EquipmentGetByID req.EquipmentID)) req.EquipmentID req.StartDate
          req.EndDate hc
        simp only [ReservationService.Create, hv, hget, ha, hchk, Bool.false_eq_true, if_false,
          Bool.not_false, Bool.not_true, if_true, Prod.mk.injEq] at h
        rw [← h.2]
        exact ⟨rfl, rfl, rfl⟩
      · have hchk := EquipmentRepository.CheckAvailability_true
          (db.record (.EquipmentGetByID req.EquipmentID)) req.EquipmentID req.StartDate
          req.EndDate hc
        have hfk : db.equipment.any (fun x => decide (x.ID = req.EquipmentID)) = true := by
          rw [List.any_eq_true]
          have hp := List.find?_some he
          exact ⟨e, List.mem_of_find?_eq_some he, hp⟩
        cases hid : db.reservations.any (fun x => decide (x.id = env.newID))
        · simp only [ReservationService.Create, hv, hget, ha, hchk] at h
          rw [ReservationRepository.Create_inserted] at h
          rotate_left
          · exact hid
          · exact hfk
          simp at h
        · simp only [ReservationService.Create, hv, hget, ha, hchk] at h
          rw [ReservationRepository.Create_duplicate] at h
          rotate_left
          · exact hid
          simp only [Bool.false_eq_true, if_false, Bool.not_true, Prod.mk.injEq] at h
          rw [← h.2]
          exact ⟨rfl, rfl, rfl⟩

/-- The reservations after `Create`: unchanged, or extended by one row with a new
id for which the availability query found no conflicting row. -/
theorem ReservationService.Create_reservations (db : DB) (env : Env) (renterID : UUID)
    (req : CreateReservationRequest) :
    ((ReservationService.Create db env renterID req).2.reservations = db.reservations
      ∨ ∃ row : ReservationRow,
          db.reservations.filter (EquipmentRepository.CheckAvailability.whereClause
            req.EquipmentID req.StartDate req.EndDate) = []
          ∧ db.reservations.any (fun x => decide (x.id = row.id)) = false
          ∧ row.equipment_id = req.EquipmentID
          ∧ row.start_date = req.StartDate ∧ row.end_date = req.EndDate
          ∧ (ReservationService.Create db env renterID req).2.reservations
              = db.reservations ++ [row])
    ∧ (ReservationService.Create db env renterID req).2.equipment = db.equipment := by
  cases hres : ReservationService.Create db env renterID req with
  | mk res db' =>
    cases res with
    | error err =>
      have := ReservationService.Create_error db env renterID req err db' hres
      exact ⟨Or.inl this.1, this.2.1⟩
    | ok r =>
      obtain ⟨e, _, _, _, hc, hid, hr, hrows, heq⟩ :=
        ReservationService.Create_ok db env renterID req r db' hres
      refine ⟨Or.inr ⟨r.toRow, hc, ?_, ?_, ?_, ?_, hrows⟩, heq⟩
      · rw [hr]; exact hid
      · rw [hr]; rfl
      · rw [hr]; rfl
      · rw [hr]; rfl

/-- Appending a row for which the availability query matched nothing keeps the table
free of double-booking. -/
theorem noDoubleBooking_append (rows : List ReservationRow) (row : ReservationRow)
    (hinv : rows.Pairwise (fun a b =>
      a.equipment_id = b.equipment_id → a.blocking = true → b.blocking = true →
        a.overlaps b = false))
    (hc : rows.filter (EquipmentRepository.CheckAvailability.whereClause
      row.equipment_id row.start_date row.end_date) = []) :
    (rows ++ [row]).Pairwise (fun a b =>
      a.equipment_id = b.equipment_id → a.blocking = true → b.blocking = true →
        a.overlaps b = false) := by
  rw [List.pairwise_append]
  refine ⟨hinv, List.pairwise_singleton _ _, ?_⟩
  intro a ha b hb heq hba _
  rw [List.mem_singleton] at hb
  subst hb
  rw [List.filter_eq_nil_iff] at hc
  by_contra hov
  simp only [ReservationRow.overlaps, Bool.not_eq_false, Bool.and_eq_true,
    decide_eq_true_eq] at hov
  exact hc a ha (whereClause_of_overlap _ _ _ a heq hba hov.1 hov.2)

/-- A status update keeps the id of every row. -/
theorem setStatus_id (r : ReservationRow) (id : UUID) (status : ReservationStatus)
    (reason : String) (stamp : Time) : (r.setStatus id status reason stamp).id = r.id := by
  unfold ReservationRow.setStatus
  split_ifs <;> rfl

/-- A legal status change of the row found by id keeps a table with unique ids free
of double-booking. -/
theorem noDoubleBooking_setStatus (rows : List ReservationRow) (id : UUID)
    (status : ReservationStatus) (reason : String) (stamp : Time) (row : ReservationRow)
    (hnd : (rows.map (fun r => r.id)).Nodup)
    (hinv : rows.Pairwise (fun a b =>
      a.equipment_id = b.equipment_id → a.blocking = true → b.blocking = true →
        a.overlaps b = false))
    (hrow : rows.find? (fun r => decide (r.id = id)) = some row)
    (hlegal : legalTransition row.status status = true) :
    (rows.map (fun r => r.setStatus id status reason stamp)).Pairwise (fun a b =>
      a.equipment_id = b.equipment_id → a.blocking = true → b.blocking = true →
        a.overlaps b = false) := by
  have hmem := List.mem_of_find?_eq_some hrow
  have hid : row.id = id := by
    have hp := List.find?_some hrow
    simpa using hp
  have key : ∀ a ∈ rows, (a.setStatus id status reason stamp).blocking = true →
      a.blocking = true := by
    intro a ha hb
    by_cases h : a.id = id
    · have hEq : a = row := List.inj_on_of_nodup_map hnd ha hmem (by rw [h, hid])
      subst hEq
      have hb' : (decide (status = .StatusPending) || decide (status = .StatusApproved))
          = true := by
        simpa [ReservationRow.setStatus, h, ReservationRow.blocking] using hb
      revert hlegal hb'
      unfold ReservationRow.blocking
      cases a.status <;> cases status <;> simp [legalTransition]
    · simpa [ReservationRow.setStatus, h] using hb
  have shape : ∀ a : ReservationRow,
      (a.setStatus id status reason stamp).equipment_id = a.equipment_id
      ∧ (a.setStatus id status reason stamp).start_date = a.start_date
      ∧ (a.setStatus id status reason stamp).end_date = a.end_date := by
    intro a
    unfold ReservationRow.setStatus
    by_cases h : a.id = id
    · simp only [h, if_true, and_self]
    · simp only [h, if_false, and_self]
  rw [List.pairwise_map]
  refine List.Pairwise.imp_of_mem ?_ hinv
  intro a b ha hb hR heq hba hbb
  have hov := hR (by rw [← (shape a).1, ← (shape b).1]; exact heq) (key a ha hba) (key b hb hbb)
  simp only [ReservationRow.overlaps, (shape a).2.1, (shape a).2.2, (shape b).2.1,
    (shape b).2.2] at hov ⊢
  exact hov

/-- Every operation preserves the invariant. -/
theorem StoreInvariant_exec (db : DB) (op : Op) (h : StoreInvariant db) :
    StoreInvariant (op.exec db) := by
  have transition : ∀ db' : DB,
      (db'.reservations = db.reservations
        ∨ ∃ row status stored stamp id,
            db.reservations.find? (fun r => decide (r.id = id)) = some row
            ∧ legalTransition row.status status = true
            ∧ db'.reservations
                = db.reservations.map (fun r => r.setStatus id status stored stamp)) →
      StoreInvariant db' := by
    intro db' hcase
    rcases hcase with heq | ⟨row, status, stored, stamp, id, hrow, hlegal, heq⟩
    · unfold StoreInvariant NoDoubleBooking at *
      rw [heq]; exact h
    · unfold StoreInvariant NoDoubleBooking at *
      rw [heq]
      refine ⟨?_, noDoubleBooking_setStatus _ id status stored stamp row h.1 h.2 hrow hlegal⟩
      rw [List.map_map]
      have : ((fun r : ReservationRow => r.id)
          ∘ fun r : ReservationRow => r.setStatus id status stored stamp)
          = fun r : ReservationRow => r.id := by
        funext r
        exact setStatus_id r id status stored stamp
      rw [this]
      exact h.1
  cases op with
  | Create env renterID req =>
    have hc := (ReservationService.Create_reservations db env renterID req).1
    show StoreInvariant (ReservationService.Create db env renterID req).2
    rcases hc with heq | ⟨row, hfree, hid, he, hs, hen, heq⟩
    · exact transition _ (Or.inl heq)
    · unfold StoreInvariant NoDoubleBooking at *
      rw [heq]
      refine ⟨?_, noDoubleBooking_append _ row h.2 (by rw [he, hs, hen]; exact hfree)⟩
      rw [List.map_append, List.map_singleton, List.nodup_append]
      refine ⟨h.1, List.nodup_singleton _, ?_⟩
      intro x hx hx'
      rw [List.mem_singleton] at hx'
      subst hx'
      rw [List.mem_map] at hx
      obtain ⟨y, hy, hyid⟩ := hx
      have := List.any_eq_false.mp hid y hy
      simp [hyid] at this
  | Approve env id ownerID =>
    have hc := (ReservationService.Approve_reservations db env id ownerID).1
    refine transition _ ?_
    rcases hc with heq | ⟨row, status, stored, hrow, hlegal, heq⟩
    · exact Or.inl heq
    · exact Or.inr ⟨row, status, stored, env.stamp, id, hrow, hlegal, heq⟩
  | Reject env id ownerID reason =>
    have hc := (ReservationService.Reject_reservations db env id ownerID reason).1
    refine transition _ ?_
    rcases hc with heq | ⟨row, status, stored, hrow, hlegal, heq⟩
    · exact Or.inl heq
    · exact Or.inr ⟨row, status, stored, env.stamp, id, hrow, hlegal, heq⟩
  | Cancel env id userID reason =>
    have hc := (ReservationService.Cancel_reservations db env id userID reason).1
    refine transition _ ?_
    rcases hc with heq | ⟨row, status, stored, hrow, hlegal, heq⟩
    · exact Or.inl heq
    · exact Or.inr ⟨row, status, stored, env.stamp, id, hrow, hlegal, heq⟩
  | Complete env id ownerID =>
    have hc := (ReservationService.Complete_reservations db env id ownerID).1
    refine transition _ ?_
    rcases hc with heq | ⟨row, status, stored, hrow, hlegal, heq⟩
    · exact Or.inl heq
    · exact Or.inr ⟨row, status, stored, env.stamp, id, hrow, hlegal, heq⟩

/-- Every sequence of operations preserves the invariant. -/
theorem StoreInvariant_runOps (ops : List Op) (db : DB) (h : StoreInvariant db) :
    StoreInvariant (runOps db ops) := by
  induction ops generalizing db with
  | nil => exact h
  | cons op ops ih => exact ih (op.exec db) (StoreInvariant_exec db op h)

/-! ## The claims -/

/-- C1. No double-booking in sequential executions: starting from a store without
reservations (and any equipment), after any finite sequence of `Create`, `Approve`,
`Reject`, `Cancel` and `Complete` calls, with any arguments and outside inputs, two
different rows of the same equipment that are both Pending or Approved never
satisfy `a.start_date <= b.end_date` and `a.end_date >= b.start_date`. -/
theorem no_double_booking_sequential (equipment : List Equipment) (ops : List Op) :
    ∀ a ∈ (runOps (emptyStore equipment) ops).reservations,
    ∀ b ∈ (runOps (emptyStore equipment) ops).reservations,
      a ≠ b → a.equipment_id = b.equipment_id → a.blocking = true → b.blocking = true →
        ¬ (a.start_date ≤ b.end_date ∧ a.end_date ≥ b.start_date) := by
  have hinv : StoreInvariant (runOps (emptyStore equipment) ops) :=
    StoreInvariant_runOps ops _ ⟨List.nodup_nil, List.Pairwise.nil⟩
  intro a ha b hb hne heq hba hbb hov
  have hsymm : ∀ x y : ReservationRow,
      (x.equipment_id = y.equipment_id → x.blocking = true → y.blocking = true →
        x.overlaps y = false) →
      (y.equipment_id = x.equipment_id → y.blocking = true → x.blocking = true →
        y.overlaps x = false) := by
    intro x y hxy he hy hx
    have := hxy he.symm hx hy
    simp only [ReservationRow.overlaps, Bool.and_eq_false_iff, decide_eq_false_iff_not] at this ⊢
    unfold Time at *
    omega
  have hR := List.Pairwise.forall (fun x y hxy => hsymm x y hxy) hinv.2 ha hb hne
  have := hR heq hba hbb
  simp [ReservationRow.overlaps, hov.1, hov.2] at this

/-- The table left by `sampleOps`: the second request (shared day) was refused. -/
theorem sample_rows : (runOps (emptyStore [drill]) sampleOps).reservations
    = [sampleRowA, sampleRowB] := rfl

/-- Witness for C1: after `sampleOps` the drill has an Approved booking for January
10 to 12 and a Pending one for January 14 to 16, and they do not overlap. -/
theorem no_double_booking_sequential_witness :
    (runOps (emptyStore [drill]) sampleOps).reservations = [sampleRowA, sampleRowB]
    ∧ ¬ (sampleRowA.start_date ≤ sampleRowB.end_date
        ∧ sampleRowA.end_date ≥ sampleRowB.start_date) :=
  ⟨sample_rows,
   no_double_booking_sequential [drill] sampleOps sampleRowA (by rw [sample_rows]; simp)
     sampleRowB (by rw [sample_rows]; simp) (by simp [sampleRowA, sampleRowB]) rfl rfl rfl⟩

/-- C2. `CheckAvailability` computes the reference definition: on a table whose
rows all have `start_date <= end_date`, and for a candidate range with
`startDate < endDate`, it answers `true` exactly when no Pending or Approved row of
the equipment has `start_date <= endDate` and `end_date >= startDate`. -/
theorem checkAvailability_refines_spec (db : DB) (equipmentID : UUID)
    (startDate endDate : Time)
    (hrows : ∀ r ∈ db.reservations, r.start_date ≤ r.end_date)
    (hrange : startDate < endDate) :
    (EquipmentRepository.CheckAvailability db equipmentID startDate endDate).1
      = .ok (specAvailable db.reservations equipmentID startDate endDate) := by
  simp only [EquipmentRepository.CheckAvailability, specAvailable]
  congr 1
  rw [Bool.eq_iff_iff]
  simp only [decide_eq_true_eq, List.length_eq_zero, List.filter_eq_nil_iff, List.all_eq_true,
    Bool.not_eq_true', Bool.not_eq_true]
  constructor
  · intro h r hr
    by_contra hc
    simp only [Bool.not_eq_false, Bool.and_eq_true, decide_eq_true_eq] at hc
    have hw := whereClause_of_overlap equipmentID startDate endDate r hc.1.1 hc.1.2 hc.2.1 hc.2.2
    rw [h r hr] at hw
    exact Bool.false_ne_true hw
  · intro h r hr
    by_contra hw
    simp only [Bool.not_eq_false] at hw
    have := overlap_of_whereClause equipmentID startDate endDate r (hrows r hr) (le_of_lt hrange) hw
    have h' := h r hr
    simp [this.1, this.2.1, this.2.2.1, this.2.2.2] at h'

/-- Witness for C2: with a Pending booking of the drill on January 10 to 12 and a
Cancelled one on January 12 to 14, the range January 12 to 14 is reported taken,
and it is free for the ladder. -/
theorem checkAvailability_refines_spec_witness :
    (EquipmentRepository.CheckAvailability
        (storeWith [drillRow 10 jan10 jan12 .StatusPending,
          drillRow 11 jan12 jan14 .StatusCancelled]) 1 jan12 jan14).1 = .ok false
    ∧ (EquipmentRepository.CheckAvailability
        (storeWith [drillRow 10 jan10 jan12 .StatusPending,
          drillRow 11 jan12 jan14 .StatusCancelled]) 3 jan12 jan14).1 = .ok true := by
  constructor
  · rw [checkAvailability_refines_spec _ 1 jan12 jan14 (by decide) (by decide)]
    exact congrArg Except.ok (by decide)
  · rw [checkAvailability_refines_spec _ 3 jan12 jan14 (by decide) (by decide)]
    exact congrArg Except.ok (by decide)

/-- C3. A request that passes validation, for an existing equipment that is
available, fails with `ErrEquipmentUnavailable` whenever some Pending or Approved
row `R` of that equipment has `R.start_date <= req.EndDate` and
`R.end_date >= req.StartDate`. -/
theorem create_rejects_inclusive_overlap (db : DB) (env : Env) (renterID : UUID)
    (req : CreateReservationRequest) (e : Equipment) (R : ReservationRow)
    (hv : ValidationErrors.HasErrors (ReservationService.Create.validation env.now req) = false)
    (he : db.equipment.find? (fun e => decide (e.ID = req.EquipmentID)) = some e)
    (ha : e.Available = true)
    (hR : R ∈ db.reservations) (hRe : R.equipment_id = req.EquipmentID)
    (hb : R.blocking = true)
    (h1 : R.start_date ≤ req.EndDate) (h2 : R.end_date ≥ req.StartDate) :
    (ReservationService.Create db env renterID req).1 = .error .ErrEquipmentUnavailable := by
  have hw := whereClause_of_overlap req.EquipmentID req.StartDate req.EndDate R hRe hb h1 h2
  have hne : db.reservations.filter
      (EquipmentRepository.CheckAvailability.whereClause req.EquipmentID req.StartDate
        req.EndDate) ≠ [] := by
    intro h0
    rw [List.filter_eq_nil_iff] at h0
    exact h0 R hR hw
  have hchk := EquipmentRepository.CheckAvailability_false
    (db.record (.EquipmentGetByID req.EquipmentID)) req.EquipmentID req.StartDate
    req.EndDate hne
  simp [ReservationService.Create, hv, EquipmentRepository.GetByID_some db _ e he, ha, hchk]

/-- Witness for C3: the drill is booked (Pending) from January 10 to January 12; a
request from January 12 to January 14, made on January 1, is refused. -/
theorem create_rejects_inclusive_overlap_witness :
    (ReservationService.Create (storeWith [drillRow 10 jan10 jan12 .StatusPending])
      (envAt jan01 20) 8 { EquipmentID := 1, StartDate := jan12, EndDate := jan14 }).1
      = .error .ErrEquipmentUnavailable :=
  create_rejects_inclusive_overlap (storeWith [drillRow 10 jan10 jan12 .StatusPending])
    (envAt jan01 20) 8 { EquipmentID := 1, StartDate := jan12, EndDate := jan14 }
    drill (drillRow 10 jan10 jan12 .StatusPending)
    (by decide) (by decide) (by decide) (by decide) (by decide) (by decide) (by decide)
    (by decide)

/-! ## The price -/

/-- A numeral of type `Float64` is the finite value of that number. -/
theorem Float64.ofNat_eq (n : Nat) : (OfNat.ofNat n : Float64) = .finite ((n : Int) : ℚ) := by
  show Float64.finite (n : ℚ) = _
  simp

/-- The price on the weekly tier, in `float64` operations. -/
theorem ReservationService.calculatePrice_weekly (e : Equipment) (startDate endDate : Time)
    (w : Float64) (hw : e.PricePerWeek = some w) (hd : 7 ≤ rentalDays startDate endDate) :
    (∀ p, e.PricePerDay = some p → 0 < rentalDays startDate endDate % 7 →
      ReservationService.calculatePrice e startDate endDate
        = Float64.add (Float64.mul (Float64.ofInt (rentalDays startDate endDate / 7)) w)
            (Float64.mul (Float64.ofInt (rentalDays startDate endDate % 7)) p))
    ∧ ((e.PricePerDay = none ∨ rentalDays startDate endDate % 7 = 0) →
      ReservationService.calculatePrice e startDate endDate
        = Float64.mul (Float64.ofInt (rentalDays startDate endDate / 7)) w) := by
  have h0 : 0 ≤ rentalDays startDate endDate := by omega
  have hdiv := Int.tdiv_eq_ediv h0 (by norm_num : (0:Int) ≤ 7)
  have hmod := Int.tmod_eq_emod h0 (by norm_num : (0:Int) ≤ 7)
  unfold rentalDays at *
  constructor
  · intro p hp hr
    simp [ReservationService.calculatePrice, hw, hd, hp, hdiv, hmod, hr]
  · intro h
    rcases h with h | h
    · simp [ReservationService.calculatePrice, hw, hd, h, hdiv, hmod]
    · simp [ReservationService.calculatePrice, hw, hd, h, hdiv, hmod]

/-- The price on the daily and hourly tiers, in `float64` operations. -/
theorem ReservationService.calculatePrice_daily_hourly (e : Equipment)
    (startDate endDate : Time)
    (h : e.PricePerWeek = none ∨ rentalDays startDate endDate < 7) :
    (∀ p, e.PricePerDay = some p →
      ReservationService.calculatePrice e startDate endDate
        = Float64.mul (Float64.ofInt (rentalDays startDate endDate)) p)
    ∧ (e.PricePerDay = none → ∀ q, e.PricePerHour = some q →
      ReservationService.calculatePrice e startDate endDate
        = Float64.mul (Float64.ofInt (rentalHours startDate endDate)) q) := by
  unfold rentalDays rentalHours at *
  constructor
  · intro p hp
    rcases h with h | h
    · simp [ReservationService.calculatePrice, h, hp]
    · have h7 : ¬ (7 ≤ ⌈Float64.round (Duration.Hours (Time.Sub endDate startDate) / 24)⌉) := by
        omega
      cases hw : e.PricePerWeek <;> simp [ReservationService.calculatePrice, hw, hp, h7]
  · intro hp q hq
    rcases h with h | h
    · simp [ReservationService.calculatePrice, h, hp, hq]
    · have h7 : ¬ (7 ≤ ⌈Float64.round (Duration.Hours (Time.Sub endDate startDate) / 24)⌉) := by
        omega
      cases hw : e.PricePerWeek <;> simp [ReservationService.calculatePrice, hw, hp, hq, h7]

/-- C6. Initial status: a reservation returned by a successful `Create` has status
Approved when the equipment found has `AutoApprove` set and Pending otherwise, and
the row appended to the table carries that status. -/
theorem create_initial_status (db : DB) (env : Env) (renterID : UUID)
    (req : CreateReservationRequest) (r : Reservation) (db' : DB)
    (h : ReservationService.Create db env renterID req = (.ok r, db')) :
    ∃ e, db.equipment.find? (fun e => decide (e.ID = req.EquipmentID)) = some e
      ∧ r.Status = (if e.AutoApprove = true then ReservationStatus.StatusApproved
          else ReservationStatus.StatusPending)
      ∧ db'.reservations = db.reservations ++ [r.toRow]
      ∧ r.toRow.status = r.Status := by
  obtain ⟨e, _, he, _, _, _, hr, hrows, _⟩ := ReservationService.Create_ok db env renterID req r db' h
  refine ⟨e, he, ?_, hrows, rfl⟩
  rw [hr]

/-- Witness for C6: a booking of the auto-approved ladder starts Approved, a
booking of the drill starts Pending. -/
theorem create_initial_status_witness :
    (∃ r db', ReservationService.Create (storeWith []) (envAt jan01 20) 8
        { EquipmentID := 3, StartDate := jan10, EndDate := jan12 } = (.ok r, db')
      ∧ r.Status = .StatusApproved
      ∧ db'.reservations.map (fun x => (x.id, x.status)) = [(20, .StatusApproved)])
    ∧ (∃ r db', ReservationService.Create (storeWith []) (envAt jan01 20) 8
        { EquipmentID := 1, StartDate := jan10, EndDate := jan12 } = (.ok r, db')
      ∧ r.Status = .StatusPending
      ∧ db'.reservations.map (fun x => (x.id, x.status)) = [(20, .StatusPending)]) := by
  constructor
  · have hx : ReservationService.Create (storeWith []) (envAt jan01 20) 8
        { EquipmentID := 3, StartDate := jan10, EndDate := jan12 }
        = (.ok { ID := 20, EquipmentID := 3, Equipment := none, RenterID := 8,
                 StartDate := jan10, EndDate := jan12, Status := .StatusApproved,
                 TotalPrice := ReservationService.calculatePrice ladder jan10 jan12,
                 CancellationReason := "", CreatedAt := jan01, UpdatedAt := jan01 },
           (ReservationService.Create (storeWith []) (envAt jan01 20) 8
             { EquipmentID := 3, StartDate := jan10, EndDate := jan12 }).2) := rfl
    obtain ⟨e, he, hs, hrows, _⟩ := create_initial_status _ _ _ _ _ _ hx
    refine ⟨_, _, hx, rfl, ?_⟩
    rw [hrows]
    rfl
  · have hx : ReservationService.Create (storeWith []) (envAt jan01 20) 8
        { EquipmentID := 1, StartDate := jan10, EndDate := jan12 }
        = (.ok { ID := 20, EquipmentID := 1, Equipment := none, RenterID := 8,
                 StartDate := jan10, EndDate := jan12, Status := .StatusPending,
                 TotalPrice := ReservationService.calculatePrice drill jan10 jan12,
                 CancellationReason := "", CreatedAt := jan01, UpdatedAt := jan01 },
           (ReservationService.Create (storeWith []) (envAt jan01 20) 8
             { EquipmentID := 1, StartDate := jan10, EndDate := jan12 }).2) := rfl
    obtain ⟨e, he, hs, hrows, _⟩ := create_initial_status _ _ _ _ _ _ hx
    refine ⟨_, _, hx, rfl, ?_⟩
    rw [hrows]
    rfl

/-- C7. A request whose start or end date is the zero time, or whose end date is
not strictly after its start date, gets a non-empty `ValidationErrors` value, and
the database is returned as it was: no row is written and the list of repository
calls is unchanged (no equipment read, no availability query, no insert, no
notification). -/
theorem create_validates_dates_before_store (db : DB) (env : Env) (renterID : UUID)
    (req : CreateReservationRequest)
    (h : Time.IsZero req.StartDate = true ∨ Time.IsZero req.EndDate = true
      ∨ ¬ (req.StartDate < req.EndDate)) :
    ∃ ve, ve ≠ [] ∧
      ReservationService.Create db env renterID req = (.error (.Validation ve), db) := by
  have hv := validation_hasErrors_of_bad_range env.now req h
  refine ⟨ReservationService.Create.validation env.now req, ?_, ?_⟩
  · intro hnil
    rw [hnil] at hv
    simp [ValidationErrors.HasErrors] at hv
  · simp [ReservationService.Create, hv]

/-- Witness for C7: a request with end date equal to start date. -/
theorem create_validates_dates_before_store_witness :
    ∃ ve, ve ≠ [] ∧
      ReservationService.Create (storeWith []) (envAt jan01 20) 8
        { EquipmentID := 1, StartDate := jan12, EndDate := jan12 }
        = (.error (.Validation ve), storeWith []) :=
  create_validates_dates_before_store (storeWith []) (envAt jan01 20) 8
    { EquipmentID := 1, StartDate := jan12, EndDate := jan12 } (by decide)

/-- Counterexample for C8: at 15:00 on January 10 a request starting at 10:00 of
the same day (earlier than now) is accepted and its row is stored. -/
theorem create_accepts_start_earlier_today :
    jan10 + 10 * Hour < jan10 + 15 * Hour
    ∧ Except.isOk (ReservationService.Create (storeWith []) (envAt (jan10 + 15 * Hour) 20) 8
        { EquipmentID := 1, StartDate := jan10 + 10 * Hour, EndDate := jan12 }).1 = true
    ∧ (ReservationService.Create (storeWith []) (envAt (jan10 + 15 * Hour) 20) 8
        { EquipmentID := 1, StartDate := jan10 + 10 * Hour, EndDate := jan12 }).2.reservations.map
          (fun r => (r.id, r.start_date, r.status))
        = [(20, jan10 + 10 * Hour, .StatusPending)] := by
  refine ⟨by decide, by decide, by decide⟩

/-- C8, amended. A request whose start date is before the start of the current
day (the current time truncated to a multiple of 24 hours, in UTC) gets a
non-empty `ValidationErrors` value and the database is returned as it was. -/
theorem create_rejects_start_before_today (db : DB) (env : Env) (renterID : UUID)
    (req : CreateReservationRequest)
    (h : req.StartDate < Time.Truncate env.now (24 * Hour)) :
    ∃ ve, ve ≠ [] ∧
      ReservationService.Create db env renterID req = (.error (.Validation ve), db) := by
  have hv := validation_hasErrors_of_past env.now req (by simpa [Time.Before] using h)
  refine ⟨ReservationService.Create.validation env.now req, ?_, ?_⟩
  · intro hnil
    rw [hnil] at hv
    simp [ValidationErrors.HasErrors] at hv
  · simp [ReservationService.Create, hv]

/-- Witness for C8, amended: at 15:00 on January 10, a start one nanosecond before
midnight of January 10 is refused. -/
theorem create_rejects_start_before_today_witness :
    ∃ ve, ve ≠ [] ∧
      ReservationService.Create (storeWith []) (envAt (jan10 + 15 * Hour) 20) 8
        { EquipmentID := 1, StartDate := jan10 - 1, EndDate := jan12 }
        = (.error (.Validation ve), storeWith []) :=
  create_rejects_start_before_today (storeWith []) (envAt (jan10 + 15 * Hour) 20) 8
    { EquipmentID := 1, StartDate := jan10 - 1, EndDate := jan12 } (by decide)

/-- C9. State guards of `Approve` and `Reject`: for a stored reservation whose
status is not Pending, called by the owner of its equipment, both return
`ErrReservationNotPending`; the only repository call made is the read, and the
table of reservations is as before. -/
theorem approve_reject_require_pending (db : DB) (env : Env) (id ownerID : UUID)
    (reason : String) (row : ReservationRow) (e : Equipment)
    (hrow : db.reservations.find? (fun r => decide (r.id = id)) = some row)
    (he : db.equipment.find? (fun e => decide (e.ID = row.equipment_id)) = some e)
    (howner : e.OwnerID = ownerID)
    (hst : row.status ≠ .StatusPending) :
    ReservationService.Approve db env id ownerID
        = (.error .ErrReservationNotPending, db.record (.ReservationGetByID id))
    ∧ ReservationService.Reject db env id ownerID reason
        = (.error .ErrReservationNotPending, db.record (.ReservationGetByID id))
    ∧ (db.record (.ReservationGetByID id)).reservations = db.reservations := by
  have hget := ReservationRepository.GetByID_found db id row e hrow he
  refine ⟨?_, ?_, rfl⟩
  · simp [ReservationService.Approve, hget, ReservationRepository.GetByID.scan, howner, hst]
  · simp [ReservationService.Reject, hget, ReservationRepository.GetByID.scan, howner, hst]

/-- Witness for C9: an Approved booking of the drill, approved and rejected again
by owner 2. -/
theorem approve_reject_require_pending_witness :
    ReservationService.Approve (storeWith [drillRow 10 jan10 jan12 .StatusApproved])
        (envAt jan01 20) 10 2
      = (.error .ErrReservationNotPending,
         (storeWith [drillRow 10 jan10 jan12 .StatusApproved]).record (.ReservationGetByID 10))
    ∧ ReservationService.Reject (storeWith [drillRow 10 jan10 jan12 .StatusApproved])
        (envAt jan01 20) 10 2 "no longer offered"
      = (.error .ErrReservationNotPending,
         (storeWith [drillRow 10 jan10 jan12 .StatusApproved]).record (.ReservationGetByID 10)) :=
  have h := approve_reject_require_pending (storeWith [drillRow 10 jan10 jan12 .StatusApproved])
    (envAt jan01 20) 10 2 "no longer offered" (drillRow 10 jan10 jan12 .StatusApproved) drill
    (by decide) (by decide) (by decide) (by decide)
  ⟨h.1, h.2.1⟩

/-- C10 (evaluation at the failing input). `Complete` by the owner on a Pending
reservation returns a value made by `errors.New`, which is none of the sentinel
errors, and the handler answers 500 INTERNAL_ERROR; the handlers of `Approve` and
`Reject` answer 400 INVALID_STATUS for their state guard. -/
theorem complete_guard_reported_as_internal_error :
    (ReservationService.Complete (storeWith [drillRow 10 jan10 jan12 .StatusPending])
        (envAt jan01 20) 10 2).1
      = .error (.errorsNew "can only complete approved reservations")
    ∧ (ReservationHandler.Complete (storeWith [drillRow 10 jan10 jan12 .StatusPending])
        (envAt jan01 20) (some 2) (some 10)).1
      = ⟨500, ErrorResponse "INTERNAL_ERROR" "Failed to complete reservation"⟩
    ∧ (ReservationHandler.Approve (storeWith [drillRow 10 jan10 jan12 .StatusApproved])
        (envAt jan01 20) (some 2) (some 10)).1
      = ⟨400, ErrorResponse "INVALID_STATUS" "Reservation is not pending"⟩
    ∧ (ReservationHandler.Reject (storeWith [drillRow 10 jan10 jan12 .StatusApproved])
        (envAt jan01 20) (some 2) (some 10) "").1
      = ⟨400, ErrorResponse "INVALID_STATUS" "Reservation is not pending"⟩ := by
  refine ⟨rfl, rfl, rfl, rfl⟩

/-! ## Auxiliary facts on the transitions and the notifications -/

/-- What `Approve` does on a stored reservation whose equipment row exists. -/
theorem ReservationService.Approve_found (db : DB) (env : Env) (id ownerID : UUID)
    (row : ReservationRow) (e : Equipment)
    (hrow : db.reservations.find? (fun r => decide (r.id = id)) = some row)
    (he : db.equipment.find? (fun e => decide (e.ID = row.equipment_id)) = some e) :
    ReservationService.Approve db env id ownerID =
      if e.OwnerID ≠ ownerID then
        (.error .ErrNotAuthorized, db.record (.ReservationGetByID id))
      else if row.status ≠ .StatusPending then
        (.error .ErrReservationNotPending, db.record (.ReservationGetByID id))
      else
        (.ok { ReservationRepository.GetByID.scan row e with Status := .StatusApproved },
         ReservationService.createNotification (db.withStatus env id .StatusApproved "")
           (env.notifyFails 0) row.renter_id .NotificationReservationApproved
           "Reservation Approved"
           ("Your reservation for " ++ e.Name ++ " has been approved")
           (some id) "reservation") := by
  have hget := ReservationRepository.GetByID_found db id row e hrow he
  have hupd := ReservationRepository.UpdateStatus_found
    (db.record (.ReservationGetByID id)) env id .StatusApproved "" row hrow
  simp only [ReservationService.Approve, hget, hupd, ReservationRepository.GetByID.scan,
    DB.withStatus, DB.record_reservations]

/-- What `Approve` does when no row has the id. -/
theorem ReservationService.Approve_noRow (db : DB) (env : Env) (id ownerID : UUID)
    (hrow : db.reservations.find? (fun r => decide (r.id = id)) = none) :
    ReservationService.Approve db env id ownerID
      = (.error .ErrReservationNotFound, db.record (.ReservationGetByID id)) := by
  simp [ReservationService.Approve, ReservationRepository.GetByID_noRow db id hrow]

/-- What `Approve` does when the row is found and its equipment row is missing. -/
theorem ReservationService.Approve_noEquipment (db : DB) (env : Env) (id ownerID : UUID)
    (row : ReservationRow)
    (hrow : db.reservations.find? (fun r => decide (r.id = id)) = some row)
    (he : db.equipment.find? (fun e => decide (e.ID = row.equipment_id)) = none) :
    ReservationService.Approve db env id ownerID
      = (.error (.driver "sql: Scan error: converting NULL to string is unsupported"),
         db.record (.ReservationGetByID id)) := by
  simp [ReservationService.Approve, ReservationRepository.GetByID_noEquipment db id row hrow he]

/-- What `Reject` does on a stored reservation whose equipment row exists. -/
theorem ReservationService.Reject_found (db : DB) (env : Env) (id ownerID : UUID) (reason : String)
    (row : ReservationRow) (e : Equipment)
    (hrow : db.reservations.find? (fun r => decide (r.id = id)) = some row)
    (he : db.equipment.find? (fun e => decide (e.ID = row.equipment_id)) = some e) :
    ReservationService.Reject db env id ownerID reason =
      if e.OwnerID ≠ ownerID then
        (.error .ErrNotAuthorized, db.record (.ReservationGetByID id))
      else if row.status ≠ .StatusPending then
        (.error .ErrReservationNotPending, db.record (.ReservationGetByID id))
      else
        (.ok { ReservationRepository.GetByID.scan row e with Status := .StatusRejected, CancellationReason := reason },
         ReservationService.createNotification (db.withStatus env id .StatusRejected reason)
           (env.notifyFails 0) row.renter_id .NotificationReservationRejected
           "Reservation Rejected"
           ("Your reservation for " ++ e.Name ++ " has been rejected")
           (some id) "reservation") := by
  have hget := ReservationRepository.GetByID_found db id row e hrow he
  have hupd := ReservationRepository.UpdateStatus_found
    (db.record (.ReservationGetByID id)) env id .StatusRejected reason row hrow
  simp only [ReservationService.Reject, hget, hupd, ReservationRepository.GetByID.scan,
    DB.withStatus, DB.record_reservations]

/-- What `Reject` does when no row has the id. -/
theorem ReservationService.Reject_noRow (db : DB) (env : Env) (id ownerID : UUID) (reason : String)
    (hrow : db.reservations.find? (fun r => decide (r.id = id)) = none) :
    ReservationService.Reject db env id ownerID reason
      = (.error .ErrReservationNotFound, db.record (.ReservationGetByID id)) := by
  simp [ReservationService.Reject, ReservationRepository.GetByID_noRow db id hrow]

/-- What `Reject` does when the row is found and its equipment row is missing. -/
theorem ReservationService.Reject_noEquipment (db : DB) (env : Env) (id ownerID : UUID) (reason : String)
    (row : ReservationRow)
    (hrow : db.reservations.find? (fun r => decide (r.id = id)) = some row)
    (he : db.equipment.find? (fun e => decide (e.ID = row.equipment_id)) = none) :
    ReservationService.Reject db env id ownerID reason
      = (.error (.driver "sql: Scan error: converting NULL to string is unsupported"),
         db.record (.ReservationGetByID id)) := by
  simp [ReservationService.Reject, ReservationRepository.GetByID_noEquipment db id row hrow he]

/-- What `Complete` does on a stored reservation whose equipment row exists. -/
theorem ReservationService.Complete_found (db : DB) (env : Env) (id ownerID : UUID)
    (row : ReservationRow) (e : Equipment)
    (hrow : db.reservations.find? (fun r => decide (r.id = id)) = some row)
    (he : db.equipment.find? (fun e => decide (e.ID = row.equipment_id)) = some e) :
    ReservationService.Complete db env id ownerID =
      if e.OwnerID ≠ ownerID then
        (.error .ErrNotAuthorized, db.record (.ReservationGetByID id))
      else if row.status ≠ .StatusApproved then
        (.error (.errorsNew "can only complete approved reservations"), db.record (.ReservationGetByID id))
      else
        (.ok { ReservationRepository.GetByID.scan row e with Status := .StatusCompleted },
         ReservationService.createNotification (db.withStatus env id .StatusCompleted "")
           (env.notifyFails 0) row.renter_id .NotificationReservationCompleted
           "Reservation Completed"
           ("Your reservation for " ++ e.Name ++ " has been marked as completed")
           (some id) "reservation") := by
  have hget := ReservationRepository.GetByID_found db id row e hrow he
  have hupd := ReservationRepository.UpdateStatus_found
    (db.record (.ReservationGetByID id)) env id .StatusCompleted "" row hrow
  simp only [ReservationService.Complete, hget, hupd, ReservationRepository.GetByID.scan,
    DB.withStatus, DB.record_reservations]

/-- What `Complete` does when no row has the id. -/
theorem ReservationService.Complete_noRow (db : DB) (env : Env) (id ownerID : UUID)
    (hrow : db.reservations.find? (fun r => decide (r.id = id)) = none) :
    ReservationService.Complete db env id ownerID
      = (.error .ErrReservationNotFound, db.record (.ReservationGetByID id)) := by
  simp [ReservationService.Complete, ReservationRepository.GetByID_noRow db id hrow]

/-- What `Complete` does when the row is found and its equipment row is missing. -/
theorem ReservationService.Complete_noEquipment (db : DB) (env : Env) (id ownerID : UUID)
    (row : ReservationRow)
    (hrow : db.reservations.find? (fun r => decide (r.id = id)) = some row)
    (he : db.equipment.find? (fun e => decide (e.ID = row.equipment_id)) = none) :
    ReservationService.Complete db env id ownerID
      = (.error (.driver "sql: Scan error: converting NULL to string is unsupported"),
         db.record (.ReservationGetByID id)) := by
  simp [ReservationService.Complete, ReservationRepository.GetByID_noEquipment db id row hrow he]

/-- What `Cancel` does when no row has the id. -/
theorem ReservationService.Cancel_noRow (db : DB) (env : Env) (id ownerID : UUID) (reason : String)
    (hrow : db.reservations.find? (fun r => decide (r.id = id)) = none) :
    ReservationService.Cancel db env id ownerID reason
      = (.error .ErrReservationNotFound, db.record (.ReservationGetByID id)) := by
  simp [ReservationService.Cancel, ReservationRepository.GetByID_noRow db id hrow]

/-- What `Cancel` does when the row is found and its equipment row is missing. -/
theorem ReservationService.Cancel_noEquipment (db : DB) (env : Env) (id ownerID : UUID) (reason : String)
    (row : ReservationRow)
    (hrow : db.reservations.find? (fun r => decide (r.id = id)) = some row)
    (he : db.equipment.find? (fun e => decide (e.ID = row.equipment_id)) = none) :
    ReservationService.Cancel db env id ownerID reason
      = (.error (.driver "sql: Scan error: converting NULL to string is unsupported"),
         db.record (.ReservationGetByID id)) := by
  simp [ReservationService.Cancel, ReservationRepository.GetByID_noEquipment db id row hrow he]

/-- What `Cancel` does on a stored reservation whose equipment row exists. -/
theorem ReservationService.Cancel_found (db : DB) (env : Env) (id userID : UUID)
    (reason : String) (row : ReservationRow) (e : Equipment)
    (hrow : db.reservations.find? (fun r => decide (r.id = id)) = some row)
    (he : db.equipment.find? (fun e => decide (e.ID = row.equipment_id)) = some e) :
    ReservationService.Cancel db env id userID reason =
      if row.renter_id ≠ userID ∧ e.OwnerID ≠ userID then
        (.error .ErrNotAuthorized, db.record (.ReservationGetByID id))
      else if row.status ≠ .StatusPending ∧ row.status ≠ .StatusApproved then
        (.error .ErrCannotCancel, db.record (.ReservationGetByID id))
      else if row.status = .StatusApproved
          ∧ Time.Before row.start_date (Time.Add env.now (24 * Hour)) = true then
        (.error .ErrCannotCancel, db.record (.ReservationGetByID id))
      else
        (.ok { ReservationRepository.GetByID.scan row e with
                Status := .StatusCancelled, CancellationReason := reason },
         ReservationService.createNotification (db.withStatus env id .StatusCancelled reason)
           (env.notifyFails 0)
           (if userID = e.OwnerID then row.renter_id else e.OwnerID)
           .NotificationReservationCancelled
           "Reservation Cancelled"
           ("A reservation for " ++ e.Name ++ " has been cancelled")
           (some id) "reservation") := by
  have hget := ReservationRepository.GetByID_found db id row e hrow he
  have hupd := ReservationRepository.UpdateStatus_found
    (db.record (.ReservationGetByID id)) env id .StatusCancelled reason row hrow
  simp only [ReservationService.Cancel, hget, hupd, ReservationRepository.GetByID.scan,
    DB.withStatus, DB.record_reservations]

/-- What `GetByID` of the service does on a stored reservation whose equipment row exists. -/
theorem ReservationService.GetByID_onStored (db : DB) (id userID : UUID)
    (row : ReservationRow) (e : Equipment)
    (hrow : db.reservations.find? (fun r => decide (r.id = id)) = some row)
    (he : db.equipment.find? (fun e => decide (e.ID = row.equipment_id)) = some e) :
    ReservationService.GetByID db id userID =
      if row.renter_id ≠ userID ∧ e.OwnerID ≠ userID then
        (.error .ErrNotAuthorized, db.record (.ReservationGetByID id))
      else (.ok (ReservationRepository.GetByID.scan row e), db.record (.ReservationGetByID id)) := by
  have hget := ReservationRepository.GetByID_found db id row e hrow he
  simp only [ReservationService.GetByID, hget, ReservationRepository.GetByID.scan]

/-- What `GetByID` of the service does when no row has the id. -/
theorem ReservationService.GetByID_onMissing (db : DB) (id userID : UUID)
    (hrow : db.reservations.find? (fun r => decide (r.id = id)) = none) :
    ReservationService.GetByID db id userID
      = (.error .ErrReservationNotFound, db.record (.ReservationGetByID id)) := by
  simp [ReservationService.GetByID, ReservationRepository.GetByID_noRow db id hrow]

/-- The notifications table after `createNotification`: one more row, unless the
insert fails. -/
theorem createNotification_notifications (db : DB) (fails : Bool) (userID : UUID)
    (notifType : NotificationType) (title message : String) (refID : Option UUID)
    (refType : String) :
    (ReservationService.createNotification db fails userID notifType title message refID
      refType).notifications
      = if fails = true then db.notifications
        else db.notifications ++ [
          { UserID := userID
            Type_ := notifType
            Title := title
            Message := message
            Read := false
            ReferenceID := refID
            ReferenceType := refType }] := by
  unfold ReservationService.createNotification NotificationRepository.Create
  cases fails <;> simp

/-- The call list after `createNotification`: one more notification insert. -/
theorem createNotification_calls (db : DB) (fails : Bool) (userID : UUID)
    (notifType : NotificationType) (title message : String) (refID : Option UUID)
    (refType : String) :
    (ReservationService.createNotification db fails userID notifType title message refID
      refType).calls = db.calls ++ [.NotificationCreate userID notifType] := by
  unfold ReservationService.createNotification NotificationRepository.Create
  cases fails <;> simp [DB.record]

/-- The result of `Create` when every check passes and the id is new. -/
theorem ReservationService.Create_success (db : DB) (env : Env) (renterID : UUID)
    (req : CreateReservationRequest) (e : Equipment)
    (hv : ValidationErrors.HasErrors (ReservationService.Create.validation env.now req) = false)
    (he : db.equipment.find? (fun e => decide (e.ID = req.EquipmentID)) = some e)
    (ha : e.Available = true)
    (hc : db.reservations.filter (EquipmentRepository.CheckAvailability.whereClause
      req.EquipmentID req.StartDate req.EndDate) = [])
    (hid : db.reservations.any (fun x => decide (x.id = env.newID)) = false) :
    ReservationService.Create db env renterID req =
      (.ok (ReservationService.Create.created env renterID req e),
       if e.AutoApprove = true then
         ReservationService.createNotification
           (ReservationService.createNotification
             (db.withReservation env req (ReservationService.Create.created env renterID req e))
             (env.notifyFails 0) e.OwnerID .NotificationReservationCreated
             "New Reservation Request"
             ("You have a new reservation request for " ++ e.Name)
             (some env.newID) "reservation")
           (env.notifyFails 1) renterID .NotificationReservationApproved
           "Reservation Approved"
           ("Your reservation for " ++ e.Name ++ " has been automatically approved")
           (some env.newID) "reservation"
       else
         ReservationService.createNotification
           (db.withReservation env req (ReservationService.Create.created env renterID req e))
           (env.notifyFails 0) e.OwnerID .NotificationReservationCreated
           "New Reservation Request"
           ("You have a new reservation request for " ++ e.Name)
           (some env.newID) "reservation") := by
  have hget := EquipmentRepository.GetByID_some db _ e he
  have hchk := EquipmentRepository.CheckAvailability_true
    (db.record (.EquipmentGetByID req.EquipmentID)) req.EquipmentID req.StartDate
    req.EndDate hc
  have hfk : db.equipment.any (fun x => decide (x.ID = req.EquipmentID)) = true := by
    rw [List.any_eq_true]
    have hp := List.find?_some he
    exact ⟨e, List.mem_of_find?_eq_some he, hp⟩
  simp only [ReservationService.Create, hv, hget, ha, hchk]
  rw [ReservationRepository.Create_inserted]
  rotate_left
  · exact hid
  · exact hfk
  simp only [Bool.false_eq_true, if_false, Bool.not_true, ReservationService.Create.created,
    DB.withReservation, Reservation.toRow]
  cases e.AutoApprove <;> simp

/-- The reservations table after one operation: unchanged; or one new row with a
new id, no reason and a blocking status; or the status update of a legal
transition of the row found by id, with a reason only for Rejected and Cancelled. -/
theorem Op.exec_reservations (db : DB) (op : Op) :
    (op.exec db).reservations = db.reservations
    ∨ (∃ row : ReservationRow,
        db.reservations.any (fun x => decide (x.id = row.id)) = false
        ∧ row.cancellation_reason = none
        ∧ (op.exec db).reservations = db.reservations ++ [row])
    ∨ (∃ (id : UUID) (row : ReservationRow) (status : ReservationStatus) (stored : String)
        (stamp : Time),
        db.reservations.find? (fun r => decide (r.id = id)) = some row
        ∧ legalTransition row.status status = true
        ∧ (stored ≠ "" → status = .StatusRejected ∨ status = .StatusCancelled)
        ∧ (op.exec db).reservations
            = db.reservations.map (fun r => r.setStatus id status stored stamp)) := by
  cases op with
  | Create env renterID req =>
    have hx : Op.exec db (.Create env renterID req) = (ReservationService.Create db env renterID req).2 := rfl
    rw [hx]
    cases hres : ReservationService.Create db env renterID req with
    | mk res db' =>
      cases res with
      | error err =>
        exact Or.inl (ReservationService.Create_error db env renterID req err db' hres).1
      | ok r =>
        obtain ⟨e, _, _, _, _, hid, hr, hrows, _⟩ :=
          ReservationService.Create_ok db env renterID req r db' hres
        refine Or.inr (Or.inl ⟨r.toRow, ?_, rfl, hrows⟩)
        rw [hr]; exact hid
  | Approve env id ownerID =>
    have hx : Op.exec db (.Approve env id ownerID) = (ReservationService.Approve db env id ownerID).2 := rfl
    rw [hx]
    cases hrow : db.reservations.find? (fun r => decide (r.id = id)) with
    | none => rw [ReservationService.Approve_noRow db env id ownerID hrow]; exact Or.inl rfl
    | some row =>
      cases he : db.equipment.find? (fun e => decide (e.ID = row.equipment_id)) with
      | none =>
        rw [ReservationService.Approve_noEquipment db env id ownerID row hrow he]
        exact Or.inl rfl
      | some e =>
        rw [ReservationService.Approve_found db env id ownerID row e hrow he]
        by_cases h1 : e.OwnerID ≠ ownerID
        · rw [if_pos h1]; exact Or.inl rfl
        by_cases h2 : row.status ≠ .StatusPending
        · rw [if_neg h1, if_pos h2]; exact Or.inl rfl
        rw [if_neg h1, if_neg h2]
        refine Or.inr (Or.inr ⟨id, row, .StatusApproved, "", env.stamp, hrow, ?_,
          fun h => absurd rfl h, ?_⟩)
        · rw [not_not.mp h2]; rfl
        · simp [DB.withStatus]
  | Reject env id ownerID reason =>
    have hx : Op.exec db (.Reject env id ownerID reason) = (ReservationService.Reject db env id ownerID reason).2 := rfl
    rw [hx]
    cases hrow : db.reservations.find? (fun r => decide (r.id = id)) with
    | none => rw [ReservationService.Reject_noRow db env id ownerID reason hrow]; exact Or.inl rfl
    | some row =>
      cases he : db.equipment.find? (fun e => decide (e.ID = row.equipment_id)) with
      | none =>
        rw [ReservationService.Reject_noEquipment db env id ownerID reason row hrow he]
        exact Or.inl rfl
      | some e =>
        rw [ReservationService.Reject_found db env id ownerID reason row e hrow he]
        by_cases h1 : e.OwnerID ≠ ownerID
        · rw [if_pos h1]; exact Or.inl rfl
        by_cases h2 : row.status ≠ .StatusPending
        · rw [if_neg h1, if_pos h2]; exact Or.inl rfl
        rw [if_neg h1, if_neg h2]
        refine Or.inr (Or.inr ⟨id, row, .StatusRejected, reason, env.stamp, hrow, ?_,
          fun _ => Or.inl rfl, ?_⟩)
        · rw [not_not.mp h2]; rfl
        · simp [DB.withStatus]
  | Cancel env id userID reason =>
    have hx : Op.exec db (.Cancel env id userID reason) = (ReservationService.Cancel db env id userID reason).2 := rfl
    rw [hx]
    cases hrow : db.reservations.find? (fun r => decide (r.id = id)) with
    | none => rw [ReservationService.Cancel_noRow db env id userID reason hrow]; exact Or.inl rfl
    | some row =>
      cases he : db.equipment.find? (fun e => decide (e.ID = row.equipment_id)) with
      | none =>
        rw [ReservationService.Cancel_noEquipment db env id userID reason row hrow he]
        exact Or.inl rfl
      | some e =>
        rw [ReservationService.Cancel_found db env id userID reason row e hrow he]
        by_cases h1 : row.renter_id ≠ userID ∧ e.OwnerID ≠ userID
        · rw [if_pos h1]; exact Or.inl rfl
        by_cases h2 : row.status ≠ .StatusPending ∧ row.status ≠ .StatusApproved
        · rw [if_neg h1, if_pos h2]; exact Or.inl rfl
        by_cases h3 : row.status = .StatusApproved
            ∧ Time.Before row.start_date (Time.Add env.now (24 * Hour)) = true
        · rw [if_neg h1, if_neg h2, if_pos h3]; exact Or.inl rfl
        rw [if_neg h1, if_neg h2, if_neg h3]
        refine Or.inr (Or.inr ⟨id, row, .StatusCancelled, reason, env.stamp, hrow, ?_,
          fun _ => Or.inr rfl, ?_⟩)
        · cases hst : row.status <;> simp [hst] at h2 ⊢ <;> rfl
        · simp [DB.withStatus]
  | Complete env id ownerID =>
    have hx : Op.exec db (.Complete env id ownerID) = (ReservationService.Complete db env id ownerID).2 := rfl
    rw [hx]
    cases hrow : db.reservations.find? (fun r => decide (r.id = id)) with
    | none => rw [ReservationService.Complete_noRow db env id ownerID hrow]; exact Or.inl rfl
    | some row =>
      cases he : db.equipment.find? (fun e => decide (e.ID = row.equipment_id)) with
      | none =>
        rw [ReservationService.Complete_noEquipment db env id ownerID row hrow he]
        exact Or.inl rfl
      | some e =>
        rw [ReservationService.Complete_found db env id ownerID row e hrow he]
        by_cases h1 : e.OwnerID ≠ ownerID
        · rw [if_pos h1]; exact Or.inl rfl
        by_cases h2 : row.status ≠ .StatusApproved
        · rw [if_neg h1, if_pos h2]; exact Or.inl rfl
        rw [if_neg h1, if_neg h2]
        refine Or.inr (Or.inr ⟨id, row, .StatusCompleted, "", env.stamp, hrow, ?_,
          fun h => absurd rfl h, ?_⟩)
        · rw [not_not.mp h2]; rfl
        · simp [DB.withStatus]

/-- With unique ids, the row found by id is the only row with that id. -/
theorem eq_of_find_of_nodup (rows : List ReservationRow) (id : UUID) (row x : ReservationRow)
    (hnd : (rows.map (fun r => r.id)).Nodup)
    (hrow : rows.find? (fun r => decide (r.id = id)) = some row)
    (hx : x ∈ rows) (hid : x.id = id) : x = row := by
  have hmem := List.mem_of_find?_eq_some hrow
  have hp := List.find?_some hrow
  have hrid : row.id = id := by simpa using hp
  exact List.inj_on_of_nodup_map hnd hx hmem (by rw [hid, hrid])

/-- No transition of the service leaves a terminal status. -/
theorem legalTransition_terminal (s t : ReservationStatus) (h : s.terminal = true) :
    legalTransition s t = false := by
  cases s <;> cases t <;> simp_all [ReservationStatus.terminal, legalTransition]

/-- The status of a row after the status update. -/
theorem setStatus_status (r : ReservationRow) (id : UUID) (status : ReservationStatus)
    (reason : String) (stamp : Time) :
    (r.setStatus id status reason stamp).status = if r.id = id then status else r.status := by
  unfold ReservationRow.setStatus
  by_cases h : r.id = id <;> simp [h]

/-- One operation changes the status of a row, if at all, by a legal transition. -/
theorem status_step (db : DB) (op : Op) (hnd : (db.reservations.map (fun r => r.id)).Nodup)
    (row : ReservationRow) (hrow : row ∈ db.reservations)
    (row' : ReservationRow) (hrow' : row' ∈ (op.exec db).reservations)
    (hid : row'.id = row.id) :
    row'.status = row.status ∨ legalTransition row.status row'.status = true := by
  rcases Op.exec_reservations db op with heq | ⟨new, hnew, _, heq⟩ |
    ⟨id, found, status, stored, stamp, hfound, hlegal, _, heq⟩
  · rw [heq] at hrow'
    have : row' = row := List.inj_on_of_nodup_map hnd hrow' hrow hid
    exact Or.inl (by rw [this])
  · rw [heq, List.mem_append, List.mem_singleton] at hrow'
    rcases hrow' with h | h
    · have : row' = row := List.inj_on_of_nodup_map hnd h hrow hid
      exact Or.inl (by rw [this])
    · subst h
      have := List.any_eq_false.mp hnew row hrow
      simp [hid] at this
  · rw [heq, List.mem_map] at hrow'
    obtain ⟨x, hx, hxe⟩ := hrow'
    have hxid : x.id = row.id := by
      rw [← hid, ← hxe, setStatus_id]
    have hxr : x = row := List.inj_on_of_nodup_map hnd hx hrow hxid
    subst hxr
    rw [← hxe, setStatus_status]
    by_cases h : x.id = id
    · rw [if_pos h]
      have : x = found := eq_of_find_of_nodup _ id found x hnd hfound hx h
      subst this
      exact Or.inr hlegal
    · rw [if_neg h]
      exact Or.inl rfl

/-- A row in a terminal status is still there, with that status, after one operation. -/
theorem terminal_step (db : DB) (op : Op) (hnd : (db.reservations.map (fun r => r.id)).Nodup)
    (i : UUID) (s : ReservationStatus) (hs : s.terminal = true)
    (h : ∃ x ∈ db.reservations, x.id = i ∧ x.status = s) :
    ∃ x ∈ (op.exec db).reservations, x.id = i ∧ x.status = s := by
  obtain ⟨x, hx, hxi, hxs⟩ := h
  rcases Op.exec_reservations db op with heq | ⟨new, _, _, heq⟩ |
    ⟨id, found, status, stored, stamp, hfound, hlegal, _, heq⟩
  · rw [heq]; exact ⟨x, hx, hxi, hxs⟩
  · rw [heq]; exact ⟨x, List.mem_append_left _ hx, hxi, hxs⟩
  · rw [heq]
    refine ⟨x.setStatus id status stored stamp, List.mem_map_of_mem _ hx, ?_, ?_⟩
    · rw [setStatus_id, hxi]
    · rw [setStatus_status]
      by_cases h : x.id = id
      · have : x = found := eq_of_find_of_nodup _ id found x hnd hfound hx h
        subst this
        rw [hxs, legalTransition_terminal s status hs] at hlegal
        exact absurd hlegal (by decide)
      · rw [if_neg h, hxs]

/-- A row in a terminal status is still there, with that status, after any
sequence of operations. -/
theorem terminal_runOps (ops : List Op) (db : DB) (hinv : StoreInvariant db)
    (i : UUID) (s : ReservationStatus) (hs : s.terminal = true)
    (h : ∃ x ∈ db.reservations, x.id = i ∧ x.status = s) :
    ∃ x ∈ (runOps db ops).reservations, x.id = i ∧ x.status = s := by
  induction ops generalizing db with
  | nil => exact h
  | cons op ops ih =>
    exact ih (op.exec db) (StoreInvariant_exec db op hinv)
      (terminal_step db op hinv.1 i s hs h)

/-- The status update keeps everything of a row but status, reason and update time,
and keeps every row with another id. -/
theorem keptBy_setStatus (id : UUID) (status : ReservationStatus) (reason : String)
    (stamp : Time) (r : ReservationRow) :
    ReservationRow.keptBy id r (r.setStatus id status reason stamp) := by
  unfold ReservationRow.keptBy ReservationRow.setStatus
  by_cases h : r.id = id
  · simp [h]
  · simp [h]

/-- A table related to itself or to its status update has all its bookings kept. -/
theorem forall₂_keptBy (id : UUID) (rows rows' : List ReservationRow)
    (h : rows' = rows ∨ ∃ (status : ReservationStatus) (stored : String) (stamp : Time),
      rows' = rows.map (fun r => r.setStatus id status stored stamp)) :
    List.Forall₂ (ReservationRow.keptBy id) rows rows' := by
  rcases h with h | ⟨status, stored, stamp, h⟩
  · rw [h, List.forall₂_same]
    intro x _
    exact ⟨rfl, rfl, rfl, rfl, rfl, rfl, rfl, fun _ => rfl⟩
  · rw [h, List.forall₂_map_right_iff, List.forall₂_same]
    intro x _
    exact keptBy_setStatus id status stored stamp x

/-- The reason of a row after the status update. -/
theorem setStatus_reason (r : ReservationRow) (id : UUID) (status : ReservationStatus)
    (reason : String) (stamp : Time) :
    (r.setStatus id status reason stamp).cancellation_reason
      = if r.id = id then (if reason ≠ "" then some reason else none)
        else r.cancellation_reason := by
  unfold ReservationRow.setStatus
  by_cases h : r.id = id <;> simp [h]

/-- One operation keeps the property that a stored reason is non-empty and belongs
to a Rejected or Cancelled row. -/
theorem reason_step (db : DB) (op : Op)
    (h : ∀ row ∈ db.reservations, ∀ s, row.cancellation_reason = some s →
      s ≠ "" ∧ (row.status = .StatusRejected ∨ row.status = .StatusCancelled)) :
    ∀ row ∈ (op.exec db).reservations, ∀ s, row.cancellation_reason = some s →
      s ≠ "" ∧ (row.status = .StatusRejected ∨ row.status = .StatusCancelled) := by
  rcases Op.exec_reservations db op with heq | ⟨new, _, hnone, heq⟩ |
    ⟨id, found, status, stored, stamp, _, _, hreason, heq⟩
  · rw [heq]; exact h
  · rw [heq]
    intro row hrow s hs
    rw [List.mem_append, List.mem_singleton] at hrow
    rcases hrow with hrow | hrow
    · exact h row hrow s hs
    · rw [hrow, hnone] at hs
      exact absurd hs (by simp)
  · rw [heq]
    intro row hrow s hs
    rw [List.mem_map] at hrow
    obtain ⟨x, hx, hxe⟩ := hrow
    rw [← hxe, setStatus_reason] at hs
    rw [← hxe, setStatus_status]
    by_cases hid : x.id = id
    · rw [if_pos hid] at hs
      rw [if_pos hid]
      by_cases hst : stored ≠ ""
      · rw [if_pos hst] at hs
        have hs' : stored = s := Option.some.inj hs
        exact ⟨hs' ▸ hst, hreason hst⟩
      · rw [if_neg hst] at hs
        exact absurd hs (by simp)
    · rw [if_neg hid] at hs
      rw [if_neg hid]
      exact h x hx s hs

/-- The property of `reason_step` holds after any sequence of operations. -/
theorem reason_runOps (ops : List Op) (db : DB)
    (h : ∀ row ∈ db.reservations, ∀ s, row.cancellation_reason = some s →
      s ≠ "" ∧ (row.status = .StatusRejected ∨ row.status = .StatusCancelled)) :
    ∀ row ∈ (runOps db ops).reservations, ∀ s, row.cancellation_reason = some s →
      s ≠ "" ∧ (row.status = .StatusRejected ∨ row.status = .StatusCancelled) := by
  induction ops generalizing db with
  | nil => exact h
  | cons op ops ih => exact ih (op.exec db) (reason_step db op h)

/-- The rows with the target id after a status update that found its row. -/
theorem withStatus_rows (db : DB) (env : Env) (id : UUID) (status : ReservationStatus)
    (reason : String) (row : ReservationRow)
    (hrow : db.reservations.find? (fun r => decide (r.id = id)) = some row) :
    (∃ x ∈ (db.withStatus env id status reason).reservations, x.id = id)
    ∧ ∀ x ∈ (db.withStatus env id status reason).reservations, x.id = id →
        x.status = status
        ∧ x.cancellation_reason = (if reason ≠ "" then some reason else none)
        ∧ x.cancellation_reason.getD "" = reason := by
  have hmem := List.mem_of_find?_eq_some hrow
  have hp := List.find?_some hrow
  have hrid : row.id = id := by simpa using hp
  constructor
  · exact ⟨row.setStatus id status reason env.stamp, List.mem_map_of_mem _ hmem,
      by rw [setStatus_id, hrid]⟩
  · intro x hx hxid
    simp only [DB.withStatus, List.mem_map] at hx
    obtain ⟨y, _, hy⟩ := hx
    have hyid : y.id = id := by rw [← hxid, ← hy, setStatus_id]
    rw [← hy, setStatus_status, setStatus_reason, if_pos hyid, if_pos hyid]
    refine ⟨rfl, rfl, ?_⟩
    by_cases hr : reason = ""
    · simp [hr]
    · simp [hr]

/-- `Create` returns the same result and writes the same reservations whatever
the outcome of the notification inserts. -/
theorem ReservationService.Create_withNotifyFails (db : DB) (env : Env) (fails : Nat → Bool)
    (renterID : UUID) (req : CreateReservationRequest) :
    (ReservationService.Create db (env.withNotifyFails fails) renterID req).1
        = (ReservationService.Create db env renterID req).1
    ∧ (ReservationService.Create db (env.withNotifyFails fails) renterID req).2.reservations
        = (ReservationService.Create db env renterID req).2.reservations := by
  have e1 : (env.withNotifyFails fails).now = env.now := rfl
  have e2 : ∀ (d : DB) (r : Reservation),
      ReservationRepository.Create d (env.withNotifyFails fails) r
        = ReservationRepository.Create d env r := fun _ _ => rfl
  simp only [ReservationService.Create, e1, e2]
  cases hv : ValidationErrors.HasErrors (ReservationService.Create.validation env.now req)
  swap
  · simp only [if_true, and_self]
  cases he : db.equipment.find? (fun e => decide (e.ID = req.EquipmentID)) with
  | none =>
    simp only [EquipmentRepository.GetByID_none db _ he, Bool.false_eq_true, if_false, if_true,
      and_self]
  | some e =>
    have hget := EquipmentRepository.GetByID_some db _ e he
    cases ha : e.Available
    · simp only [hget, ha, Bool.false_eq_true, if_false, Bool.not_false, if_true, and_self]
    · by_cases hc : db.reservations.filter (EquipmentRepository.CheckAvailability.whereClause
          req.EquipmentID req.StartDate req.EndDate) = []
      swap
      · have hchk := EquipmentRepository.CheckAvailability_false
          (db.record (.EquipmentGetByID req.EquipmentID)) req.EquipmentID req.StartDate
          req.EndDate hc
        simp only [hget, ha, hchk, Bool.false_eq_true, if_false, Bool.not_false, Bool.not_true,
          if_true, and_self]
      · have hchk := EquipmentRepository.CheckAvailability_true
          (db.record (.EquipmentGetByID req.EquipmentID)) req.EquipmentID req.StartDate
          req.EndDate hc
        have hfk : db.equipment.any (fun x => decide (x.ID = req.EquipmentID)) = true := by
          rw [List.any_eq_true]
          have hp := List.find?_some he
          exact ⟨e, List.mem_of_find?_eq_some he, hp⟩
        simp only [hget, ha, hchk]
        cases hid : db.reservations.any (fun x => decide (x.id = env.newID))
        · rw [ReservationRepository.Create_inserted]
          rotate_left
          · exact hid
          · exact hfk
          simp only [Bool.false_eq_true, if_false, Bool.not_true, true_and]
          split_ifs <;> simp
        · rw [ReservationRepository.Create_duplicate]
          rotate_left
          · exact hid
          simp only [Bool.false_eq_true, if_false, Bool.not_true, and_self]

/-- The table left by `rejectOps`. -/
theorem rejected_rows : (runOps (emptyStore [drill]) rejectOps).reservations = [rejectedRow] :=
  rfl

/-! ## The claims, continued -/

/-- C11. Owner-only transitions: for a stored reservation, whatever its status, and
a caller who is not the owner of its equipment, `Approve`, `Reject` and `Complete`
return `ErrNotAuthorized`; the only repository call made is the read and the
reservations table is as before.  No assumption is made on the status, so the
answer is `ErrNotAuthorized` also where the status guard would have failed. -/
theorem owner_only_transitions (db : DB) (env : Env) (id caller : UUID) (reason : String)
    (row : ReservationRow) (e : Equipment)
    (hrow : db.reservations.find? (fun r => decide (r.id = id)) = some row)
    (he : db.equipment.find? (fun e => decide (e.ID = row.equipment_id)) = some e)
    (hcaller : e.OwnerID ≠ caller) :
    ReservationService.Approve db env id caller
        = (.error .ErrNotAuthorized, db.record (.ReservationGetByID id))
    ∧ ReservationService.Reject db env id caller reason
        = (.error .ErrNotAuthorized, db.record (.ReservationGetByID id))
    ∧ ReservationService.Complete db env id caller
        = (.error .ErrNotAuthorized, db.record (.ReservationGetByID id))
    ∧ (db.record (.ReservationGetByID id)).reservations = db.reservations := by
  refine ⟨?_, ?_, ?_, rfl⟩
  · rw [ReservationService.Approve_found db env id caller row e hrow he, if_pos hcaller]
  · rw [ReservationService.Reject_found db env id caller reason row e hrow he, if_pos hcaller]
  · rw [ReservationService.Complete_found db env id caller row e hrow he, if_pos hcaller]

/-- Witness for C11: renter 7 of a Completed booking of the drill (owner 2) is
refused as unauthorized by all three operations, although no status guard would
have passed. -/
theorem owner_only_transitions_witness :
    ReservationService.Approve (storeWith [drillRow 10 jan10 jan12 .StatusCompleted])
        (envAt jan01 20) 10 7
      = (.error .ErrNotAuthorized,
         (storeWith [drillRow 10 jan10 jan12 .StatusCompleted]).record (.ReservationGetByID 10))
    ∧ ReservationService.Reject (storeWith [drillRow 10 jan10 jan12 .StatusCompleted])
        (envAt jan01 20) 10 7 "changed my mind"
      = (.error .ErrNotAuthorized,
         (storeWith [drillRow 10 jan10 jan12 .StatusCompleted]).record (.ReservationGetByID 10))
    ∧ ReservationService.Complete (storeWith [drillRow 10 jan10 jan12 .StatusCompleted])
        (envAt jan01 20) 10 7
      = (.error .ErrNotAuthorized,
         (storeWith [drillRow 10 jan10 jan12 .StatusCompleted]).record (.ReservationGetByID 10)) :=
  have h := owner_only_transitions (storeWith [drillRow 10 jan10 jan12 .StatusCompleted])
    (envAt jan01 20) 10 7 "changed my mind" (drillRow 10 jan10 jan12 .StatusCompleted) drill
    (by decide) (by decide) (by decide)
  ⟨h.1, h.2.1, h.2.2.1⟩

/-- C12. Read authorization: for a stored reservation, `GetByID` returns it exactly
when the caller is its renter or the owner of its equipment, and returns
`ErrNotAuthorized` to every other caller; for an id without a row it returns
`ErrReservationNotFound`. -/
theorem getByID_read_authorization (db : DB) (id userID : UUID) :
    (∀ row e, db.reservations.find? (fun r => decide (r.id = id)) = some row →
      db.equipment.find? (fun e => decide (e.ID = row.equipment_id)) = some e →
        ((ReservationService.GetByID db id userID).1
            = .ok (ReservationRepository.GetByID.scan row e)
          ↔ (row.renter_id = userID ∨ e.OwnerID = userID))
        ∧ (¬ (row.renter_id = userID ∨ e.OwnerID = userID) →
            (ReservationService.GetByID db id userID).1 = .error .ErrNotAuthorized))
    ∧ (db.reservations.find? (fun r => decide (r.id = id)) = none →
        (ReservationService.GetByID db id userID).1 = .error .ErrReservationNotFound) := by
  constructor
  · intro row e hrow he
    rw [ReservationService.GetByID_onStored db id userID row e hrow he]
    by_cases hc : row.renter_id = userID ∨ e.OwnerID = userID
    · have hn : ¬ (row.renter_id ≠ userID ∧ e.OwnerID ≠ userID) := by
        intro h; rcases hc with h1 | h1
        · exact h.1 h1
        · exact h.2 h1
      simp [hn, hc]
    · have hn : row.renter_id ≠ userID ∧ e.OwnerID ≠ userID :=
        ⟨fun h => hc (Or.inl h), fun h => hc (Or.inr h)⟩
      simp [hn, hc]
  · intro hrow
    rw [ReservationService.GetByID_onMissing db id userID hrow]

/-- Witness for C12: the renter (7) and the owner (2) read booking 10 of the drill,
user 9 is refused, and id 11 is not found. -/
theorem getByID_read_authorization_witness :
    (ReservationService.GetByID (storeWith [drillRow 10 jan10 jan12 .StatusPending]) 10 7).1
        = .ok (ReservationRepository.GetByID.scan (drillRow 10 jan10 jan12 .StatusPending) drill)
    ∧ (ReservationService.GetByID (storeWith [drillRow 10 jan10 jan12 .StatusPending]) 10 2).1
        = .ok (ReservationRepository.GetByID.scan (drillRow 10 jan10 jan12 .StatusPending) drill)
    ∧ (ReservationService.GetByID (storeWith [drillRow 10 jan10 jan12 .StatusPending]) 10 9).1
        = .error .ErrNotAuthorized
    ∧ (ReservationService.GetByID (storeWith [drillRow 10 jan10 jan12 .StatusPending]) 11 9).1
        = .error .ErrReservationNotFound :=
  ⟨((getByID_read_authorization (storeWith [drillRow 10 jan10 jan12 .StatusPending]) 10 7).1
      (drillRow 10 jan10 jan12 .StatusPending) drill (by decide) (by decide)).1.mpr
      (Or.inl (by decide)),
   ((getByID_read_authorization (storeWith [drillRow 10 jan10 jan12 .StatusPending]) 10 2).1
      (drillRow 10 jan10 jan12 .StatusPending) drill (by decide) (by decide)).1.mpr
      (Or.inr (by decide)),
   ((getByID_read_authorization (storeWith [drillRow 10 jan10 jan12 .StatusPending]) 10 9).1
      (drillRow 10 jan10 jan12 .StatusPending) drill (by decide) (by decide)).2 (by decide),
   (getByID_read_authorization (storeWith [drillRow 10 jan10 jan12 .StatusPending]) 11 9).2
      (by decide)⟩

/-- C13. Cancel lead-time rule: for a stored reservation and a caller who is its
renter or the owner of its equipment, `Cancel` succeeds exactly when the status is
Pending, or the status is Approved and `start_date >= now + 24h`; it then returns
the reservation as Cancelled with the reason.  In every other case (Approved with
`start_date < now + 24h`, or Rejected, Cancelled, Completed) it returns
`ErrCannotCancel` and the reservations table is as before. -/
theorem cancel_lead_time_rule (db : DB) (env : Env) (id userID : UUID) (reason : String)
    (row : ReservationRow) (e : Equipment)
    (hrow : db.reservations.find? (fun r => decide (r.id = id)) = some row)
    (he : db.equipment.find? (fun e => decide (e.ID = row.equipment_id)) = some e)
    (hparty : row.renter_id = userID ∨ e.OwnerID = userID) :
    (Except.isOk (ReservationService.Cancel db env id userID reason).1 = true
      ↔ (row.status = .StatusPending
          ∨ (row.status = .StatusApproved ∧ row.start_date ≥ env.now + 24 * Hour)))
    ∧ ((row.status = .StatusPending
          ∨ (row.status = .StatusApproved ∧ row.start_date ≥ env.now + 24 * Hour)) →
        (ReservationService.Cancel db env id userID reason).1
          = .ok { ReservationRepository.GetByID.scan row e with
                  Status := .StatusCancelled, CancellationReason := reason })
    ∧ (¬ (row.status = .StatusPending
          ∨ (row.status = .StatusApproved ∧ row.start_date ≥ env.now + 24 * Hour)) →
        (ReservationService.Cancel db env id userID reason).1 = .error .ErrCannotCancel
        ∧ (ReservationService.Cancel db env id userID reason).2.reservations
            = db.reservations) := by
  have hauth : ¬ (row.renter_id ≠ userID ∧ e.OwnerID ≠ userID) := by
    intro h; rcases hparty with h1 | h1
    · exact h.1 h1
    · exact h.2 h1
  rw [ReservationService.Cancel_found db env id userID reason row e hrow he, if_neg hauth]
  by_cases hc : row.status = .StatusPending
      ∨ (row.status = .StatusApproved ∧ row.start_date ≥ env.now + 24 * Hour)
  · have h1 : ¬ (row.status ≠ .StatusPending ∧ row.status ≠ .StatusApproved) := by
      intro h; rcases hc with h2 | h2
      · exact h.1 h2
      · exact h.2 h2.1
    have h2 : ¬ (row.status = .StatusApproved
        ∧ Time.Before row.start_date (Time.Add env.now (24 * Hour)) = true) := by
      intro h
      rcases hc with h3 | h3
      · rw [h3] at h; exact absurd h.1 (by decide)
      · have hb := h.2
        simp only [Time.Before, Time.Add, decide_eq_true_eq] at hb
        have := h3.2
        unfold Time at *
        omega
    rw [if_neg h1, if_neg h2]
    simp [hc, Except.isOk, Except.toBool]
  · have h3 : (row.status ≠ .StatusPending ∧ row.status ≠ .StatusApproved)
        ∨ (row.status = .StatusApproved
            ∧ Time.Before row.start_date (Time.Add env.now (24 * Hour)) = true) := by
      by_cases hs : row.status = .StatusApproved
      · right
        refine ⟨hs, ?_⟩
        simp only [Time.Before, Time.Add, decide_eq_true_eq]
        have : ¬ (row.start_date ≥ env.now + 24 * Hour) := fun h => hc (Or.inr ⟨hs, h⟩)
        unfold Time at *
        omega
      · left
        exact ⟨fun h => hc (Or.inl h), hs⟩
    rcases h3 with h3 | h3
    · rw [if_pos h3]
      simp [hc, Except.isOk, Except.toBool]
    · by_cases h1 : row.status ≠ .StatusPending ∧ row.status ≠ .StatusApproved
      · rw [if_pos h1]
        simp [hc, Except.isOk, Except.toBool]
      · rw [if_neg h1, if_pos h3]
        simp [hc, Except.isOk, Except.toBool]

/-- Witness for C13: an Approved booking of the drill starting January 10 is
cancelled by its renter 30 hours before the start and refused 10 hours before. -/
theorem cancel_lead_time_rule_witness :
    (ReservationService.Cancel (storeWith [drillRow 10 jan10 jan12 .StatusApproved])
        (envAt (jan10 - 30 * Hour) 20) 10 7 "plans changed").1
      = .ok { ReservationRepository.GetByID.scan (drillRow 10 jan10 jan12 .StatusApproved)
                drill with Status := .StatusCancelled, CancellationReason := "plans changed" }
    ∧ (ReservationService.Cancel (storeWith [drillRow 10 jan10 jan12 .StatusApproved])
        (envAt (jan10 - 10 * Hour) 20) 10 7 "plans changed").1
      = .error .ErrCannotCancel :=
  ⟨(cancel_lead_time_rule (storeWith [drillRow 10 jan10 jan12 .StatusApproved])
      (envAt (jan10 - 30 * Hour) 20) 10 7 "plans changed"
      (drillRow 10 jan10 jan12 .StatusApproved) drill (by decide) (by decide)
      (Or.inl (by decide))).2.1 (Or.inr ⟨by decide, by decide⟩),
   ((cancel_lead_time_rule (storeWith [drillRow 10 jan10 jan12 .StatusApproved])
      (envAt (jan10 - 10 * Hour) 20) 10 7 "plans changed"
      (drillRow 10 jan10 jan12 .StatusApproved) drill (by decide) (by decide)
      (Or.inl (by decide))).2.2 (by decide)).1⟩

/-- Counterexample for C14: (1) the owner of the drill cancels a booking of the
drill made under the same account, and the notification is addressed to the caller;
(2) the renter cancels while the notification insert fails: the call succeeds and
no notification is recorded. -/
theorem cancel_notification_counterexample :
    (Except.isOk (ReservationService.Cancel (storeWith [ownBooking])
        (envAt jan01 20) 10 2 "not needed").1 = true
      ∧ (ReservationService.Cancel (storeWith [ownBooking])
        (envAt jan01 20) 10 2 "not needed").2.notifications.map (fun n => (n.UserID, n.Type_))
          = [(2, .NotificationReservationCancelled)])
    ∧ (Except.isOk (ReservationService.Cancel
        (storeWith [drillRow 10 jan10 jan12 .StatusPending])
        (envFailing jan01 20) 10 7 "plans changed").1 = true
      ∧ (ReservationService.Cancel (storeWith [drillRow 10 jan10 jan12 .StatusPending])
        (envFailing jan01 20) 10 7 "plans changed").2.notifications = []) := by
  refine ⟨⟨by decide, by decide⟩, ⟨by decide, by decide⟩⟩

/-- C14, amended. A successful `Cancel` makes the read, the status update and
exactly one notification insert, of type reservation_cancelled; the notification
references the reservation and is stored unless its insert fails.  The recipient is
the renter when the caller is the equipment's owner and the owner otherwise (the
caller is then the renter); it differs from the caller whenever renter and owner
are different users. -/
theorem cancel_notifies_other_party (db : DB) (env : Env) (id userID : UUID)
    (reason : String) (r : Reservation) (db' : DB)
    (h : ReservationService.Cancel db env id userID reason = (.ok r, db')) :
    ∃ row e recipient,
      db.reservations.find? (fun r => decide (r.id = id)) = some row
      ∧ db.equipment.find? (fun e => decide (e.ID = row.equipment_id)) = some e
      ∧ (userID = row.renter_id ∨ userID = e.OwnerID)
      ∧ (userID = e.OwnerID → recipient = row.renter_id)
      ∧ (userID ≠ e.OwnerID → recipient = e.OwnerID)
      ∧ (row.renter_id ≠ e.OwnerID → recipient ≠ userID)
      ∧ db'.calls = db.calls ++
          [.ReservationGetByID id, .ReservationUpdateStatus id .StatusCancelled reason,
           .NotificationCreate recipient .NotificationReservationCancelled]
      ∧ db'.notifications =
          if env.notifyFails 0 = true then db.notifications
          else db.notifications ++
            [notificationOf recipient .NotificationReservationCancelled
              "Reservation Cancelled"
              ("A reservation for " ++ e.Name ++ " has been cancelled") id] := by
  cases hrow : db.reservations.find? (fun r => decide (r.id = id)) with
  | none =>
    rw [ReservationService.Cancel_noRow db env id userID reason hrow] at h
    simp at h
  | some row =>
    cases he : db.equipment.find? (fun e => decide (e.ID = row.equipment_id)) with
    | none =>
      rw [ReservationService.Cancel_noEquipment db env id userID reason row hrow he] at h
      simp at h
    | some e =>
      rw [ReservationService.Cancel_found db env id userID reason row e hrow he] at h
      by_cases h1 : row.renter_id ≠ userID ∧ e.OwnerID ≠ userID
      · rw [if_pos h1] at h; simp at h
      by_cases h2 : row.status ≠ .StatusPending ∧ row.status ≠ .StatusApproved
      · rw [if_neg h1, if_pos h2] at h; simp at h
      by_cases h3 : row.status = .StatusApproved
          ∧ Time.Before row.start_date (Time.Add env.now (24 * Hour)) = true
      · rw [if_neg h1, if_neg h2, if_pos h3] at h; simp at h
      rw [if_neg h1, if_neg h2, if_neg h3] at h
      simp only [Prod.mk.injEq] at h
      obtain ⟨_, hdb⟩ := h
      refine ⟨row, e, if userID = e.OwnerID then row.renter_id else e.OwnerID,
        rfl, he, ?_, ?_, ?_, ?_, ?_, ?_⟩
      · by_contra hc
        exact h1 ⟨fun hx => hc (Or.inl hx.symm), fun hx => hc (Or.inr hx.symm)⟩
      · intro hx; rw [if_pos hx]
      · intro hx; rw [if_neg hx]
      · intro hne
        by_cases hx : userID = e.OwnerID
        · rw [if_pos hx, hx]; exact hne
        · rw [if_neg hx]; exact fun hy => hx hy.symm
      · rw [← hdb, createNotification_calls]
        simp [DB.withStatus, DB.record]
      · rw [← hdb, createNotification_notifications]
        rfl

/-- Witness for C14, amended: the owner (2) cancels booking 10 of renter 7; the one
notification goes to user 7. -/
theorem cancel_notifies_other_party_witness :
    ∃ row e recipient,
      (storeWith [drillRow 10 jan10 jan12 .StatusPending]).reservations.find?
          (fun r => decide (r.id = 10)) = some row
      ∧ (storeWith [drillRow 10 jan10 jan12 .StatusPending]).equipment.find?
          (fun e => decide (e.ID = row.equipment_id)) = some e
      ∧ ((2 : UUID) = row.renter_id ∨ (2 : UUID) = e.OwnerID)
      ∧ ((2 : UUID) = e.OwnerID → recipient = row.renter_id)
      ∧ ((2 : UUID) ≠ e.OwnerID → recipient = e.OwnerID)
      ∧ (row.renter_id ≠ e.OwnerID → recipient ≠ 2)
      ∧ (ReservationService.Cancel (storeWith [drillRow 10 jan10 jan12 .StatusPending])
          (envAt jan01 20) 10 2 "sold").2.calls
          = (storeWith [drillRow 10 jan10 jan12 .StatusPending]).calls ++
            [.ReservationGetByID 10, .ReservationUpdateStatus 10 .StatusCancelled "sold",
             .NotificationCreate recipient .NotificationReservationCancelled]
      ∧ (ReservationService.Cancel (storeWith [drillRow 10 jan10 jan12 .StatusPending])
          (envAt jan01 20) 10 2 "sold").2.notifications =
          if (envAt jan01 20).notifyFails 0 = true then
            (storeWith [drillRow 10 jan10 jan12 .StatusPending]).notifications
          else (storeWith [drillRow 10 jan10 jan12 .StatusPending]).notifications ++
            [notificationOf recipient .NotificationReservationCancelled
              "Reservation Cancelled"
              ("A reservation for " ++ e.Name ++ " has been cancelled") 10] :=
  cancel_notifies_other_party (storeWith [drillRow 10 jan10 jan12 .StatusPending])
    (envAt jan01 20) 10 2 "sold"
    { ReservationRepository.GetByID.scan (drillRow 10 jan10 jan12 .StatusPending) drill with
      Status := .StatusCancelled, CancellationReason := "sold" }
    (ReservationService.Cancel (storeWith [drillRow 10 jan10 jan12 .StatusPending])
      (envAt jan01 20) 10 2 "sold").2 rfl

/-- Counterexample for C15: (1) the owner of the drill (not auto-approved) books it
under the same account: the one notification recorded is addressed to the renter;
(2) a booking of the auto-approved ladder while the notification inserts fail
succeeds and no notification is recorded. -/
theorem create_notifications_counterexample :
    (Except.isOk (ReservationService.Create (storeWith []) (envAt jan01 20) 2
        { EquipmentID := 1, StartDate := jan10, EndDate := jan12 }).1 = true
      ∧ (ReservationService.Create (storeWith []) (envAt jan01 20) 2
        { EquipmentID := 1, StartDate := jan10, EndDate := jan12 }).2.notifications.map
          (fun n => (n.UserID, n.Type_)) = [(2, .NotificationReservationCreated)])
    ∧ (Except.isOk (ReservationService.Create (storeWith []) (envFailing jan01 20) 8
        { EquipmentID := 3, StartDate := jan10, EndDate := jan12 }).1 = true
      ∧ (ReservationService.Create (storeWith []) (envFailing jan01 20) 8
        { EquipmentID := 3, StartDate := jan10, EndDate := jan12 }).2.notifications = []) := by
  refine ⟨⟨by decide, by decide⟩, ⟨by decide, by decide⟩⟩

/-- C15, amended. A successful `Create` makes, after the equipment read, the
availability query and the insert, one notification insert of type
reservation_created addressed to the equipment's owner and, when the equipment is
auto-approved, a second one of type reservation_approved addressed to the renter,
and no other; each references the new reservation and is stored unless its insert
fails.  Without auto-approve the only notification is the one addressed to the
owner. -/
theorem create_notifications (db : DB) (env : Env) (renterID : UUID)
    (req : CreateReservationRequest) (r : Reservation) (db' : DB)
    (h : ReservationService.Create db env renterID req = (.ok r, db')) :
    ∃ e, db.equipment.find? (fun e => decide (e.ID = req.EquipmentID)) = some e
      ∧ r.ID = env.newID
      ∧ db'.calls = db.calls ++
          [.EquipmentGetByID req.EquipmentID,
           .EquipmentCheckAvailability req.EquipmentID req.StartDate req.EndDate,
           .ReservationCreate env.newID,
           .NotificationCreate e.OwnerID .NotificationReservationCreated]
          ++ (if e.AutoApprove = true then
                [.NotificationCreate renterID .NotificationReservationApproved]
              else [])
      ∧ db'.notifications = db.notifications
          ++ (if env.notifyFails 0 = true then []
              else [notificationOf e.OwnerID .NotificationReservationCreated
                "New Reservation Request"
                ("You have a new reservation request for " ++ e.Name) env.newID])
          ++ (if e.AutoApprove = true ∧ env.notifyFails 1 = false then
                [notificationOf renterID .NotificationReservationApproved
                  "Reservation Approved"
                  ("Your reservation for " ++ e.Name ++ " has been automatically approved")
                  env.newID]
              else []) := by
  obtain ⟨e, hv, he, ha, hc, hid, hr, _, _⟩ :=
    ReservationService.Create_ok db env renterID req r db' h
  rw [ReservationService.Create_success db env renterID req e hv he ha hc hid] at h
  simp only [Prod.mk.injEq] at h
  obtain ⟨_, hdb⟩ := h
  refine ⟨e, he, by rw [hr], ?_, ?_⟩
  · rw [← hdb]
    cases hA : e.AutoApprove
    · simp [createNotification_calls, DB.withReservation, DB.record]
    · simp [createNotification_calls, DB.withReservation, DB.record]
  · rw [← hdb]
    cases hA : e.AutoApprove <;> cases h0 : env.notifyFails 0 <;> cases h1 : env.notifyFails 1 <;>
      simp [createNotification_notifications, DB.withReservation, DB.record, notificationOf,
        h0, h1]

/-- Witness for C15, amended: renter 8 books the auto-approved ladder of owner 2;
two notifications are stored, the first for user 2 and the second for user 8. -/
theorem create_notifications_witness :
    (ReservationService.Create (storeWith []) (envAt jan01 20) 8
        { EquipmentID := 3, StartDate := jan10, EndDate := jan12 }).2.notifications
      = [notificationOf 2 .NotificationReservationCreated "New Reservation Request"
           "You have a new reservation request for Ladder" 20,
         notificationOf 8 .NotificationReservationApproved "Reservation Approved"
           "Your reservation for Ladder has been automatically approved" 20] := by
  obtain ⟨e, he, _, _, hn⟩ := create_notifications (storeWith []) (envAt jan01 20) 8
    { EquipmentID := 3, StartDate := jan10, EndDate := jan12 }
    (ReservationService.Create.created (envAt jan01 20) 8
      { EquipmentID := 3, StartDate := jan10, EndDate := jan12 } ladder)
    (ReservationService.Create (storeWith []) (envAt jan01 20) 8
      { EquipmentID := 3, StartDate := jan10, EndDate := jan12 }).2 rfl
  have hl : e = ladder := by
    have : (storeWith []).equipment.find? (fun e => decide (e.ID = 3)) = some ladder := by
      decide
    rw [this] at he
    exact (Option.some.inj he).symm
  subst hl
  rw [hn]
  rfl

/-- C16. Terminal states.  (1) In a table with unique ids, one operation leaves the
status of a row as it is or changes it by one of Pending to Approved, Pending to
Rejected, Pending to Cancelled, Approved to Cancelled, Approved to Completed.
(2) On a reservation whose status is Rejected, Cancelled or Completed, `Approve`,
`Reject`, `Cancel` and `Complete` by any caller fail and leave the table as it is.
(3) In every store reached from one without reservations, a row in such a status
is still there with the same status after any further sequence of operations. -/
theorem terminal_states :
    (∀ (db : DB) (op : Op), (db.reservations.map (fun r => r.id)).Nodup →
      ∀ row ∈ db.reservations, ∀ row' ∈ (op.exec db).reservations, row'.id = row.id →
        row'.status = row.status ∨ legalTransition row.status row'.status = true)
    ∧ (∀ (db : DB) (env : Env) (id caller : UUID) (reason : String) (row : ReservationRow),
      db.reservations.find? (fun r => decide (r.id = id)) = some row →
      row.status.terminal = true →
        (Except.isOk (ReservationService.Approve db env id caller).1 = false
          ∧ (ReservationService.Approve db env id caller).2.reservations = db.reservations)
        ∧ (Except.isOk (ReservationService.Reject db env id caller reason).1 = false
          ∧ (ReservationService.Reject db env id caller reason).2.reservations
              = db.reservations)
        ∧ (Except.isOk (ReservationService.Cancel db env id caller reason).1 = false
          ∧ (ReservationService.Cancel db env id caller reason).2.reservations
              = db.reservations)
        ∧ (Except.isOk (ReservationService.Complete db env id caller).1 = false
          ∧ (ReservationService.Complete db env id caller).2.reservations
              = db.reservations))
    ∧ (∀ (equipment : List Equipment) (ops later : List Op),
      ∀ row ∈ (runOps (emptyStore equipment) ops).reservations,
      row.status.terminal = true →
        (∃ row' ∈ (runOps (runOps (emptyStore equipment) ops) later).reservations,
          row'.id = row.id)
        ∧ ∀ row' ∈ (runOps (runOps (emptyStore equipment) ops) later).reservations,
          row'.id = row.id → row'.status = row.status) := by
  refine ⟨?_, ?_, ?_⟩
  · intro db op hnd row hrow row' hrow' hid
    exact status_step db op hnd row hrow row' hrow' hid
  · intro db env id caller reason row hrow hterm
    have hP : row.status ≠ .StatusPending := by
      intro h; rw [h] at hterm; exact absurd hterm (by decide)
    have hA : row.status ≠ .StatusApproved := by
      intro h; rw [h] at hterm; exact absurd hterm (by decide)
    cases he : db.equipment.find? (fun e => decide (e.ID = row.equipment_id)) with
    | none =>
      rw [ReservationService.Approve_noEquipment db env id caller row hrow he,
        ReservationService.Reject_noEquipment db env id caller reason row hrow he,
        ReservationService.Cancel_noEquipment db env id caller reason row hrow he,
        ReservationService.Complete_noEquipment db env id caller row hrow he]
      exact ⟨⟨rfl, rfl⟩, ⟨rfl, rfl⟩, ⟨rfl, rfl⟩, ⟨rfl, rfl⟩⟩
    | some e =>
      rw [ReservationService.Approve_found db env id caller row e hrow he,
        ReservationService.Reject_found db env id caller reason row e hrow he,
        ReservationService.Cancel_found db env id caller reason row e hrow he,
        ReservationService.Complete_found db env id caller row e hrow he]
      have hPA : row.status ≠ .StatusPending ∧ row.status ≠ .StatusApproved := ⟨hP, hA⟩
      rw [if_pos hP, if_pos hA, if_pos hPA]
      refine ⟨?_, ?_, ?_, ?_⟩ <;> split_ifs <;> exact ⟨rfl, rfl⟩
  · intro equipment ops later row hrow hterm
    have hinv : StoreInvariant (runOps (emptyStore equipment) ops) :=
      StoreInvariant_runOps ops _ ⟨List.nodup_nil, List.Pairwise.nil⟩
    have hfin : StoreInvariant (runOps (runOps (emptyStore equipment) ops) later) :=
      StoreInvariant_runOps later _ hinv
    obtain ⟨x, hx, hxi, hxs⟩ := terminal_runOps later _ hinv row.id row.status hterm
      ⟨row, hrow, rfl, rfl⟩
    refine ⟨⟨x, hx, hxi⟩, ?_⟩
    intro row' hrow' hid
    have : row' = x := List.inj_on_of_nodup_map hfin.1 hrow' hx (by rw [hid, hxi])
    rw [this, hxs]

/-- Witness for C16: on the rejected booking left by `rejectOps` an approval by the
owner fails, and after `laterOps` the booking is still there and still Rejected. -/
theorem terminal_states_witness :
    Except.isOk (ReservationService.Approve (runOps (emptyStore [drill]) rejectOps)
      (envAt jan01 22) 20 2).1 = false
    ∧ ∃ row' ∈ (runOps (runOps (emptyStore [drill]) rejectOps) laterOps).reservations,
        row'.id = 20 ∧ row'.status = .StatusRejected := by
  have hmem : rejectedRow ∈ (runOps (emptyStore [drill]) rejectOps).reservations := by
    rw [rejected_rows]; simp
  have hfind : (runOps (emptyStore [drill]) rejectOps).reservations.find?
      (fun r => decide (r.id = 20)) = some rejectedRow := by
    rw [rejected_rows]; rfl
  obtain ⟨⟨x, hx, hxi⟩, hall⟩ := terminal_states.2.2 [drill] rejectOps laterOps rejectedRow hmem rfl
  exact ⟨(terminal_states.2.1 (runOps (emptyStore [drill]) rejectOps) (envAt jan01 22) 20 2 ""
      rejectedRow hfind rfl).1.1,
    x, hx, hxi, hall x hx hxi⟩

/-- C17. The booking is immutable after creation: after `Approve`, `Reject`,
`Cancel` or `Complete` on reservation `id`, whatever the outcome, the table has the
same rows in the same order, each with the same id, equipment, renter, start date,
end date, total price and creation time as before, and every row with another id
is identical; only status, cancellation reason and update time of the target can
differ. -/
theorem booking_immutable_after_creation (db : DB) (env : Env) (id caller : UUID)
    (reason : String) :
    List.Forall₂ (ReservationRow.keptBy id) db.reservations
        (ReservationService.Approve db env id caller).2.reservations
    ∧ List.Forall₂ (ReservationRow.keptBy id) db.reservations
        (ReservationService.Reject db env id caller reason).2.reservations
    ∧ List.Forall₂ (ReservationRow.keptBy id) db.reservations
        (ReservationService.Cancel db env id caller reason).2.reservations
    ∧ List.Forall₂ (ReservationRow.keptBy id) db.reservations
        (ReservationService.Complete db env id caller).2.reservations := by
  refine ⟨?_, ?_, ?_, ?_⟩
  · apply forall₂_keptBy
    rcases (ReservationService.Approve_reservations db env id caller).1 with h |
      ⟨_, status, stored, _, _, h⟩
    · exact Or.inl h
    · exact Or.inr ⟨status, stored, env.stamp, h⟩
  · apply forall₂_keptBy
    rcases (ReservationService.Reject_reservations db env id caller reason).1 with h |
      ⟨_, status, stored, _, _, h⟩
    · exact Or.inl h
    · exact Or.inr ⟨status, stored, env.stamp, h⟩
  · apply forall₂_keptBy
    rcases (ReservationService.Cancel_reservations db env id caller reason).1 with h |
      ⟨_, status, stored, _, _, h⟩
    · exact Or.inl h
    · exact Or.inr ⟨status, stored, env.stamp, h⟩
  · apply forall₂_keptBy
    rcases (ReservationService.Complete_reservations db env id caller).1 with h |
      ⟨_, status, stored, _, _, h⟩
    · exact Or.inl h
    · exact Or.inr ⟨status, stored, env.stamp, h⟩

/-- Example for C17: after the renter's cancellation of booking 10, the row has its
id, equipment, renter, dates, price and creation time as before. -/
theorem booking_immutable_after_creation_witness :
    List.Forall₂ (ReservationRow.keptBy 10) [drillRow 10 jan10 jan12 .StatusPending]
      (ReservationService.Cancel (storeWith [drillRow 10 jan10 jan12 .StatusPending])
        (envAt jan01 20) 10 7 "plans changed").2.reservations :=
  (booking_immutable_after_creation (storeWith [drillRow 10 jan10 jan12 .StatusPending])
    (envAt jan01 20) 10 7 "plans changed").2.2.1

/-- C18. The cancellation reason.  (1) In every store reached from one without
reservations, a row with a stored reason has a non-empty reason and status Rejected
or Cancelled.  (2) A successful `Reject` returns the reservation as Rejected with
the given reason, and every row with the id (there is one) is Rejected and stores
the reason: the reason itself, or NULL for the empty reason, which reads back as
the empty string.  (3) The same for a successful `Cancel`, with status Cancelled. -/
theorem cancellation_reason_only_on_rejected_or_cancelled :
    (∀ (equipment : List Equipment) (ops : List Op),
      ∀ row ∈ (runOps (emptyStore equipment) ops).reservations,
      ∀ s, row.cancellation_reason = some s →
        s ≠ "" ∧ (row.status = .StatusRejected ∨ row.status = .StatusCancelled))
    ∧ (∀ (db : DB) (env : Env) (id ownerID : UUID) (reason : String) (r : Reservation)
        (db' : DB),
      ReservationService.Reject db env id ownerID reason = (.ok r, db') →
        r.Status = .StatusRejected ∧ r.CancellationReason = reason
        ∧ (∃ x ∈ db'.reservations, x.id = id)
        ∧ ∀ x ∈ db'.reservations, x.id = id →
            x.status = .StatusRejected
            ∧ x.cancellation_reason = (if reason ≠ "" then some reason else none)
            ∧ x.cancellation_reason.getD "" = reason)
    ∧ (∀ (db : DB) (env : Env) (id userID : UUID) (reason : String) (r : Reservation)
        (db' : DB),
      ReservationService.Cancel db env id userID reason = (.ok r, db') →
        r.Status = .StatusCancelled ∧ r.CancellationReason = reason
        ∧ (∃ x ∈ db'.reservations, x.id = id)
        ∧ ∀ x ∈ db'.reservations, x.id = id →
            x.status = .StatusCancelled
            ∧ x.cancellation_reason = (if reason ≠ "" then some reason else none)
            ∧ x.cancellation_reason.getD "" = reason) := by
  refine ⟨?_, ?_, ?_⟩
  · intro equipment ops
    exact reason_runOps ops _ (fun row hrow => absurd hrow (List.not_mem_nil row))
  · intro db env id ownerID reason r db' h
    cases hrow : db.reservations.find? (fun r => decide (r.id = id)) with
    | none =>
      rw [ReservationService.Reject_noRow db env id ownerID reason hrow] at h
      simp at h
    | some row =>
      cases he : db.equipment.find? (fun e => decide (e.ID = row.equipment_id)) with
      | none =>
        rw [ReservationService.Reject_noEquipment db env id ownerID reason row hrow he] at h
        simp at h
      | some e =>
        rw [ReservationService.Reject_found db env id ownerID reason row e hrow he] at h
        by_cases h1 : e.OwnerID ≠ ownerID
        · rw [if_pos h1] at h; simp at h
        by_cases h2 : row.status ≠ .StatusPending
        · rw [if_neg h1, if_pos h2] at h; simp at h
        rw [if_neg h1, if_neg h2] at h
        simp only [Prod.mk.injEq, Except.ok.injEq] at h
        obtain ⟨hr, hdb⟩ := h
        have hrows : db'.reservations
            = (db.withStatus env id .StatusRejected reason).reservations := by
          rw [← hdb]; simp
        rw [hrows, ← hr]
        exact ⟨rfl, rfl, withStatus_rows db env id .StatusRejected reason row hrow⟩
  · intro db env id userID reason r db' h
    cases hrow : db.reservations.find? (fun r => decide (r.id = id)) with
    | none =>
      rw [ReservationService.Cancel_noRow db env id userID reason hrow] at h
      simp at h
    | some row =>
      cases he : db.equipment.find? (fun e => decide (e.ID = row.equipment_id)) with
      | none =>
        rw [ReservationService.Cancel_noEquipment db env id userID reason row hrow he] at h
        simp at h
      | some e =>
        rw [ReservationService.Cancel_found db env id userID reason row e hrow he] at h
        by_cases h1 : row.renter_id ≠ userID ∧ e.OwnerID ≠ userID
        · rw [if_pos h1] at h; simp at h
        by_cases h2 : row.status ≠ .StatusPending ∧ row.status ≠ .StatusApproved
        · rw [if_neg h1, if_pos h2] at h; simp at h
        by_cases h3 : row.status = .StatusApproved
            ∧ Time.Before row.start_date (Time.Add env.now (24 * Hour)) = true
        · rw [if_neg h1, if_neg h2, if_pos h3] at h; simp at h
        rw [if_neg h1, if_neg h2, if_neg h3] at h
        simp only [Prod.mk.injEq, Except.ok.injEq] at h
        obtain ⟨hr, hdb⟩ := h
        have hrows : db'.reservations
            = (db.withStatus env id .StatusCancelled reason).reservations := by
          rw [← hdb]; simp
        rw [hrows, ← hr]
        exact ⟨rfl, rfl, withStatus_rows db env id .StatusCancelled reason row hrow⟩

/-- Witness for C18: the row left by `rejectOps` stores the reason given to `Reject`
and is Rejected. -/
theorem cancellation_reason_only_on_rejected_or_cancelled_witness :
    rejectedRow.cancellation_reason = some "not available"
    ∧ ("not available" ≠ ""
        ∧ (rejectedRow.status = .StatusRejected ∨ rejectedRow.status = .StatusCancelled)) :=
  ⟨rfl, cancellation_reason_only_on_rejected_or_cancelled.1 [drill] rejectOps rejectedRow
    (by rw [rejected_rows]; simp) "not available" rfl⟩

/-- C19. Failures have no side effects: whenever `Create`, `Approve`, `Reject`,
`Cancel` or `Complete` returns an error (of any kind, so in particular a
validation, not-found, authorization, conflict, invalid-state or cannot-cancel
failure), the reservations table and the notifications table are as before. -/
theorem failures_have_no_side_effects (db : DB) (env : Env) :
    (∀ (renterID : UUID) (req : CreateReservationRequest) (err : GoError),
      (ReservationService.Create db env renterID req).1 = .error err →
        (ReservationService.Create db env renterID req).2.reservations = db.reservations
        ∧ (ReservationService.Create db env renterID req).2.notifications = db.notifications)
    ∧ (∀ (id caller : UUID) (err : GoError),
      (ReservationService.Approve db env id caller).1 = .error err →
        (ReservationService.Approve db env id caller).2.reservations = db.reservations
        ∧ (ReservationService.Approve db env id caller).2.notifications = db.notifications)
    ∧ (∀ (id caller : UUID) (reason : String) (err : GoError),
      (ReservationService.Reject db env id caller reason).1 = .error err →
        (ReservationService.Reject db env id caller reason).2.reservations = db.reservations
        ∧ (ReservationService.Reject db env id caller reason).2.notifications
            = db.notifications)
    ∧ (∀ (id caller : UUID) (reason : String) (err : GoError),
      (ReservationService.Cancel db env id caller reason).1 = .error err →
        (ReservationService.Cancel db env id caller reason).2.reservations = db.reservations
        ∧ (ReservationService.Cancel db env id caller reason).2.notifications
            = db.notifications)
    ∧ (∀ (id caller : UUID) (err : GoError),
      (ReservationService.Complete db env id caller).1 = .error err →
        (ReservationService.Complete db env id caller).2.reservations = db.reservations
        ∧ (ReservationService.Complete db env id caller).2.notifications
            = db.notifications) := by
  refine ⟨?_, ?_, ?_, ?_, ?_⟩
  · intro renterID req err h
    have hres : ReservationService.Create db env renterID req
        = (.error err, (ReservationService.Create db env renterID req).2) := by
      rw [← h]
    have := ReservationService.Create_error db env renterID req err _ hres
    exact ⟨this.1, this.2.2⟩
  · intro id caller err
    cases hrow : db.reservations.find? (fun r => decide (r.id = id)) with
    | none =>
      rw [ReservationService.Approve_noRow db env id caller hrow]
      exact fun _ => ⟨rfl, rfl⟩
    | some row =>
      cases he : db.equipment.find? (fun e => decide (e.ID = row.equipment_id)) with
      | none =>
        rw [ReservationService.Approve_noEquipment db env id caller row hrow he]
        exact fun _ => ⟨rfl, rfl⟩
      | some e =>
        rw [ReservationService.Approve_found db env id caller row e hrow he]
        split_ifs
        · exact fun _ => ⟨rfl, rfl⟩
        · exact fun _ => ⟨rfl, rfl⟩
        · intro h; simp at h
  · intro id caller reason err
    cases hrow : db.reservations.find? (fun r => decide (r.id = id)) with
    | none =>
      rw [ReservationService.Reject_noRow db env id caller reason hrow]
      exact fun _ => ⟨rfl, rfl⟩
    | some row =>
      cases he : db.equipment.find? (fun e => decide (e.ID = row.equipment_id)) with
      | none =>
        rw [ReservationService.Reject_noEquipment db env id caller reason row hrow he]
        exact fun _ => ⟨rfl, rfl⟩
      | some e =>
        rw [ReservationService.Reject_found db env id caller reason row e hrow he]
        split_ifs
        · exact fun _ => ⟨rfl, rfl⟩
        · exact fun _ => ⟨rfl, rfl⟩
        · intro h; simp at h
  · intro id caller reason err
    cases hrow : db.reservations.find? (fun r => decide (r.id = id)) with
    | none =>
      rw [ReservationService.Cancel_noRow db env id caller reason hrow]
      exact fun _ => ⟨rfl, rfl⟩
    | some row =>
      cases he : db.equipment.find? (fun e => decide (e.ID = row.equipment_id)) with
      | none =>
        rw [ReservationService.Cancel_noEquipment db env id caller reason row hrow he]
        exact fun _ => ⟨rfl, rfl⟩
      | some e =>
        rw [ReservationService.Cancel_found db env id caller reason row e hrow he]
        by_cases h1 : row.renter_id ≠ caller ∧ e.OwnerID ≠ caller
        · rw [if_pos h1]; exact fun _ => ⟨rfl, rfl⟩
        by_cases h2 : row.status ≠ .StatusPending ∧ row.status ≠ .StatusApproved
        · rw [if_neg h1, if_pos h2]; exact fun _ => ⟨rfl, rfl⟩
        by_cases h3 : row.status = .StatusApproved
            ∧ Time.Before row.start_date (Time.Add env.now (24 * Hour)) = true
        · rw [if_neg h1, if_neg h2, if_pos h3]; exact fun _ => ⟨rfl, rfl⟩
        rw [if_neg h1, if_neg h2, if_neg h3]
        intro h; simp at h
  · intro id caller err
    cases hrow : db.reservations.find? (fun r => decide (r.id = id)) with
    | none =>
      rw [ReservationService.Complete_noRow db env id caller hrow]
      exact fun _ => ⟨rfl, rfl⟩
    | some row =>
      cases he : db.equipment.find? (fun e => decide (e.ID = row.equipment_id)) with
      | none =>
        rw [ReservationService.Complete_noEquipment db env id caller row hrow he]
        exact fun _ => ⟨rfl, rfl⟩
      | some e =>
        rw [ReservationService.Complete_found db env id caller row e hrow he]
        split_ifs
        · exact fun _ => ⟨rfl, rfl⟩
        · exact fun _ => ⟨rfl, rfl⟩
        · intro h; simp at h

/-- Witness for C19: a request for days on which the drill is booked is refused as
unavailable, and an approval by a stranger as unauthorized; both tables stay as
they were. -/
theorem failures_have_no_side_effects_witness :
    ((ReservationService.Create (storeWith [drillRow 10 jan10 jan12 .StatusPending])
        (envAt jan01 20) 8 { EquipmentID := 1, StartDate := jan12, EndDate := jan14 }).2.reservations
        = [drillRow 10 jan10 jan12 .StatusPending]
      ∧ (ReservationService.Create (storeWith [drillRow 10 jan10 jan12 .StatusPending])
        (envAt jan01 20) 8 { EquipmentID := 1, StartDate := jan12, EndDate := jan14 }).2.notifications
        = [])
    ∧ ((ReservationService.Approve (storeWith [drillRow 10 jan10 jan12 .StatusPending])
        (envAt jan01 20) 10 9).2.reservations = [drillRow 10 jan10 jan12 .StatusPending]
      ∧ (ReservationService.Approve (storeWith [drillRow 10 jan10 jan12 .StatusPending])
        (envAt jan01 20) 10 9).2.notifications = []) :=
  ⟨(failures_have_no_side_effects (storeWith [drillRow 10 jan10 jan12 .StatusPending])
      (envAt jan01 20)).1 8 { EquipmentID := 1, StartDate := jan12, EndDate := jan14 }
      .ErrEquipmentUnavailable rfl,
   (failures_have_no_side_effects (storeWith [drillRow 10 jan10 jan12 .StatusPending])
      (envAt jan01 20)).2.1 10 9 .ErrNotAuthorized rfl⟩

/-- C20. Notifications are best-effort: `Create`, `Approve`, `Reject`, `Cancel` and
`Complete` return the same result (the same reservation, or the same error) and
leave the same reservations table whatever the outcome of their notification
inserts; a failing insert neither fails the call nor undoes the write. -/
theorem notifications_are_best_effort (db : DB) (env : Env) (fails : Nat → Bool) :
    (∀ (renterID : UUID) (req : CreateReservationRequest),
      (ReservationService.Create db (env.withNotifyFails fails) renterID req).1
          = (ReservationService.Create db env renterID req).1
      ∧ (ReservationService.Create db (env.withNotifyFails fails) renterID req).2.reservations
          = (ReservationService.Create db env renterID req).2.reservations)
    ∧ (∀ (id caller : UUID),
      (ReservationService.Approve db (env.withNotifyFails fails) id caller).1
          = (ReservationService.Approve db env id caller).1
      ∧ (ReservationService.Approve db (env.withNotifyFails fails) id caller).2.reservations
          = (ReservationService.Approve db env id caller).2.reservations)
    ∧ (∀ (id caller : UUID) (reason : String),
      (ReservationService.Reject db (env.withNotifyFails fails) id caller reason).1
          = (ReservationService.Reject db env id caller reason).1
      ∧ (ReservationService.Reject db (env.withNotifyFails fails) id caller reason).2.reservations
          = (ReservationService.Reject db env id caller reason).2.reservations)
    ∧ (∀ (id caller : UUID) (reason : String),
      (ReservationService.Cancel db (env.withNotifyFails fails) id caller reason).1
          = (ReservationService.Cancel db env id caller reason).1
      ∧ (ReservationService.Cancel db (env.withNotifyFails fails) id caller reason).2.reservations
          = (ReservationService.Cancel db env id caller reason).2.reservations)
    ∧ (∀ (id caller : UUID),
      (ReservationService.Complete db (env.withNotifyFails fails) id caller).1
          = (ReservationService.Complete db env id caller).1
      ∧ (ReservationService.Complete db (env.withNotifyFails fails) id caller).2.reservations
          = (ReservationService.Complete db env id caller).2.reservations) := by
  refine ⟨?_, ?_, ?_, ?_, ?_⟩
  · intro renterID req
    exact ReservationService.Create_withNotifyFails db env fails renterID req
  · intro id caller
    cases hrow : db.reservations.find? (fun r => decide (r.id = id)) with
    | none =>
      rw [ReservationService.Approve_noRow db env id caller hrow,
        ReservationService.Approve_noRow db _ id caller hrow]
      exact ⟨rfl, rfl⟩
    | some row =>
      cases he : db.equipment.find? (fun e => decide (e.ID = row.equipment_id)) with
      | none =>
        rw [ReservationService.Approve_noEquipment db env id caller row hrow he,
          ReservationService.Approve_noEquipment db _ id caller row hrow he]
        exact ⟨rfl, rfl⟩
      | some e =>
        rw [ReservationService.Approve_found db env id caller row e hrow he,
          ReservationService.Approve_found db _ id caller row e hrow he]
        split_ifs
        · exact ⟨rfl, rfl⟩
        · exact ⟨rfl, rfl⟩
        · exact ⟨rfl, by simp [DB.withStatus, Env.withNotifyFails]⟩
  · intro id caller reason
    cases hrow : db.reservations.find? (fun r => decide (r.id = id)) with
    | none =>
      rw [ReservationService.Reject_noRow db env id caller reason hrow,
        ReservationService.Reject_noRow db _ id caller reason hrow]
      exact ⟨rfl, rfl⟩
    | some row =>
      cases he : db.equipment.find? (fun e => decide (e.ID = row.equipment_id)) with
      | none =>
        rw [ReservationService.Reject_noEquipment db env id caller reason row hrow he,
          ReservationService.Reject_noEquipment db _ id caller reason row hrow he]
        exact ⟨rfl, rfl⟩
      | some e =>
        rw [ReservationService.Reject_found db env id caller reason row e hrow he,
          ReservationService.Reject_found db _ id caller reason row e hrow he]
        split_ifs
        · exact ⟨rfl, rfl⟩
        · exact ⟨rfl, rfl⟩
        · exact ⟨rfl, by simp [DB.withStatus, Env.withNotifyFails]⟩
  · intro id caller reason
    cases hrow : db.reservations.find? (fun r => decide (r.id = id)) with
    | none =>
      rw [ReservationService.Cancel_noRow db env id caller reason hrow,
        ReservationService.Cancel_noRow db _ id caller reason hrow]
      exact ⟨rfl, rfl⟩
    | some row =>
      cases he : db.equipment.find? (fun e => decide (e.ID = row.equipment_id)) with
      | none =>
        rw [ReservationService.Cancel_noEquipment db env id caller reason row hrow he,
          ReservationService.Cancel_noEquipment db _ id caller reason row hrow he]
        exact ⟨rfl, rfl⟩
      | some e =>
        rw [ReservationService.Cancel_found db env id caller reason row e hrow he,
          ReservationService.Cancel_found db _ id caller reason row e hrow he]
        have hnow : (env.withNotifyFails fails).now = env.now := rfl
        rw [hnow]
        by_cases h1 : row.renter_id ≠ caller ∧ e.OwnerID ≠ caller
        · simp only [if_pos h1, and_self]
        by_cases h2 : row.status ≠ .StatusPending ∧ row.status ≠ .StatusApproved
        · simp only [if_neg h1, if_pos h2, and_self]
        by_cases h3 : row.status = .StatusApproved
            ∧ Time.Before row.start_date (Time.Add env.now (24 * Hour)) = true
        · simp only [if_neg h1, if_neg h2, if_pos h3, and_self]
        simp only [if_neg h1, if_neg h2, if_neg h3, true_and]
        simp [DB.withStatus, Env.withNotifyFails]
  · intro id caller
    cases hrow : db.reservations.find? (fun r => decide (r.id = id)) with
    | none =>
      rw [ReservationService.Complete_noRow db env id caller hrow,
        ReservationService.Complete_noRow db _ id caller hrow]
      exact ⟨rfl, rfl⟩
    | some row =>
      cases he : db.equipment.find? (fun e => decide (e.ID = row.equipment_id)) with
      | none =>
        rw [ReservationService.Complete_noEquipment db env id caller row hrow he,
          ReservationService.Complete_noEquipment db _ id caller row hrow he]
        exact ⟨rfl, rfl⟩
      | some e =>
        rw [ReservationService.Complete_found db env id caller row e hrow he,
          ReservationService.Complete_found db _ id caller row e hrow he]
        split_ifs
        · exact ⟨rfl, rfl⟩
        · exact ⟨rfl, rfl⟩
        · exact ⟨rfl, by simp [DB.withStatus, Env.withNotifyFails]⟩

/-- Example for C20: with every notification insert failing, the owner's approval
of booking 10 returns the Approved reservation, the row is Approved, and no
notification is stored. -/
theorem notifications_are_best_effort_witness :
    (ReservationService.Approve (storeWith [drillRow 10 jan10 jan12 .StatusPending])
        ((envAt jan01 20).withNotifyFails (fun _ => true)) 10 2).1
      = .ok { ReservationRepository.GetByID.scan (drillRow 10 jan10 jan12 .StatusPending)
                drill with Status := .StatusApproved }
    ∧ (ReservationService.Approve (storeWith [drillRow 10 jan10 jan12 .StatusPending])
        ((envAt jan01 20).withNotifyFails (fun _ => true)) 10 2).2.reservations.map
          (fun r => (r.id, r.status)) = [(10, .StatusApproved)]
    ∧ (ReservationService.Approve (storeWith [drillRow 10 jan10 jan12 .StatusPending])
        ((envAt jan01 20).withNotifyFails (fun _ => true)) 10 2).2.notifications = [] := by
  have h := (notifications_are_best_effort (storeWith [drillRow 10 jan10 jan12 .StatusPending])
    (envAt jan01 20) (fun _ => true)).2.1 10 2
  refine ⟨?_, ?_, by decide⟩
  · rw [h.1]; rfl
  · rw [h.2]; decide

/-! ## The availability calendar -/

/-- One day in nanoseconds. -/
theorem day_eq : (24 * Hour : Int) = 86400000000000 := by
  norm_num [Hour]

/-- One turn of the loop over the days. -/
theorem EquipmentRepository.GetAvailabilityCalendar.days_unfold (first last : Time) :
    EquipmentRepository.GetAvailabilityCalendar.days first last =
      if Time.After first last then []
      else first ::
        EquipmentRepository.GetAvailabilityCalendar.days (Time.AddDate first 1) last := by
  rw [EquipmentRepository.GetAvailabilityCalendar.days]

/-- The loop from `first` to `last` visits `first`, `first + 1 day`, ... as long
as the value is not after `last`. -/
theorem EquipmentRepository.GetAvailabilityCalendar.days_eq (last : Time) (n : Nat) :
    ∀ first : Time, first ≤ last → ((last - first) / (24 * Hour)).toNat = n →
      EquipmentRepository.GetAvailabilityCalendar.days first last =
        (List.range (n + 1)).map (fun k : Nat => first + (k : Int) * (24 * Hour)) := by
  induction n with
  | zero =>
    intro first hle hn
    rw [day_eq] at hn
    have h1 : Time.After first last = false := by
      simp only [Time.After, decide_eq_false_iff_not]
      unfold Time at *
      omega
    have h2 : Time.After (Time.AddDate first 1) last = true := by
      simp only [Time.After, Time.AddDate, decide_eq_true_eq, day_eq]
      unfold Time at *
      omega
    rw [EquipmentRepository.GetAvailabilityCalendar.days_unfold, h1,
      EquipmentRepository.GetAvailabilityCalendar.days_unfold, h2]
    simp [List.range_succ]
  | succ n ih =>
    intro first hle hn
    rw [day_eq] at hn
    have h1 : Time.After first last = false := by
      simp only [Time.After, decide_eq_false_iff_not]
      unfold Time at *
      omega
    have h2 : Time.AddDate first 1 ≤ last := by
      simp only [Time.AddDate, day_eq]
      unfold Time at *
      omega
    have h3 : ((last - Time.AddDate first 1) / (24 * Hour)).toNat = n := by
      simp only [Time.AddDate, day_eq]
      unfold Time at *
      omega
    rw [EquipmentRepository.GetAvailabilityCalendar.days_unfold, h1, ih _ h2 h3]
    rw [List.range_succ_eq_map (n + 1)]
    simp only [Bool.false_eq_true, if_false, List.map_cons, List.map_map, Nat.cast_zero, zero_mul,
      add_zero]
    congr 1
    apply List.map_congr_left
    intro k _
    simp only [Function.comp, Time.AddDate, Nat.succ_eq_add_one]
    push_cast
    ring

/-- The values of the loop from `first` to `last`. -/
theorem EquipmentRepository.GetAvailabilityCalendar.mem_days (first last x : Time) :
    x ∈ EquipmentRepository.GetAvailabilityCalendar.days first last ↔
      ∃ k : Nat, x = first + (k : Int) * (24 * Hour) ∧ x ≤ last := by
  by_cases hle : first ≤ last
  · rw [EquipmentRepository.GetAvailabilityCalendar.days_eq last _ first hle rfl]
    simp only [List.mem_map, List.mem_range, day_eq]
    constructor
    · rintro ⟨k, hk, rfl⟩
      refine ⟨k, rfl, ?_⟩
      unfold Time at *
      omega
    · rintro ⟨k, rfl, hk⟩
      refine ⟨k, ?_, rfl⟩
      unfold Time at *
      omega
  · have h1 : Time.After first last = true := by
      simp only [Time.After, decide_eq_true_eq]
      unfold Time at *
      omega
    rw [EquipmentRepository.GetAvailabilityCalendar.days_unfold, h1]
    simp only [if_true, List.not_mem_nil, false_iff, not_exists, not_and, day_eq]
    intro k hk
    unfold Time at *
    omega

/-- The dates of the records of the calendar are the values of the loop. -/
theorem EquipmentRepository.GetAvailabilityCalendar_dates (db : DB) (equipmentID : UUID)
    (startDate endDate : Time) :
    (EquipmentRepository.GetAvailabilityCalendar db equipmentID startDate endDate).map
        (fun a => a.Date) =
      EquipmentRepository.GetAvailabilityCalendar.days startDate endDate := by
  simp only [EquipmentRepository.GetAvailabilityCalendar, List.map_map]
  exact List.map_id _

/-- The keys of `reservedDates`: the days visited by the loop of a selected row. -/
theorem EquipmentRepository.GetAvailabilityCalendar.mem_reservedDates (db : DB)
    (equipmentID : UUID) (startDate endDate : Time) (key : Int) :
    key ∈ EquipmentRepository.GetAvailabilityCalendar.reservedDates db equipmentID startDate
        endDate ↔
      ∃ r ∈ db.reservations,
        EquipmentRepository.GetAvailabilityCalendar.whereClause equipmentID startDate endDate r
          = true ∧
        ∃ x ∈ EquipmentRepository.GetAvailabilityCalendar.days r.start_date r.end_date,
          Time.Format x = key := by
  simp only [EquipmentRepository.GetAvailabilityCalendar.reservedDates, List.mem_flatten,
    List.mem_map, List.mem_filter]
  constructor
  · rintro ⟨l, ⟨r, ⟨hr, hw⟩, rfl⟩, hk⟩
    exact ⟨r, hr, hw, List.mem_map.mp hk⟩
  · rintro ⟨r, hr, hw, hk⟩
    exact ⟨_, ⟨r, ⟨hr, hw⟩, rfl⟩, List.mem_map.mpr hk⟩

/-- C21.  For a window with `startDate <= endDate` the calendar has exactly one
record for each of `startDate`, `startDate + 1 day`, ... up to the last one not
after `endDate`, in increasing order and without duplicates; when `endDate` is
`startDate + m` whole days there are `m + 1` records, the first dated
`startDate` and the last dated `endDate`. -/
theorem calendar_covers_window (db : DB) (equipmentID : UUID) (startDate endDate : Time)
    (h : startDate ≤ endDate) :
    (EquipmentRepository.GetAvailabilityCalendar db equipmentID startDate endDate).map
        (fun a => a.Date) =
      (List.range (((endDate - startDate) / (24 * Hour)).toNat + 1)).map
        (fun k : Nat => startDate + (k : Int) * (24 * Hour)) ∧
    startDate + (((endDate - startDate) / (24 * Hour)).toNat : Int) * (24 * Hour) ≤ endDate ∧
    endDate < startDate + ((((endDate - startDate) / (24 * Hour)).toNat : Int) + 1) * (24 * Hour) ∧
    ((EquipmentRepository.GetAvailabilityCalendar db equipmentID startDate endDate).map
        (fun a => a.Date)).Pairwise (fun a b => a < b) ∧
    ((EquipmentRepository.GetAvailabilityCalendar db equipmentID startDate endDate).map
        (fun a => a.Date)).Nodup ∧
    (∀ m : Nat, endDate = startDate + (m : Int) * (24 * Hour) →
      (EquipmentRepository.GetAvailabilityCalendar db equipmentID startDate endDate).length
          = m + 1 ∧
      ((EquipmentRepository.GetAvailabilityCalendar db equipmentID startDate endDate).map
          (fun a => a.Date)).head? = some startDate ∧
      ((EquipmentRepository.GetAvailabilityCalendar db equipmentID startDate endDate).map
          (fun a => a.Date)).getLast? = some endDate) := by
  have hdates := EquipmentRepository.GetAvailabilityCalendar_dates db equipmentID startDate endDate
  have heq := EquipmentRepository.GetAvailabilityCalendar.days_eq endDate _ startDate h rfl
  have hsorted : ((List.range (((endDate - startDate) / (24 * Hour)).toNat + 1)).map
      (fun k : Nat => startDate + (k : Int) * (24 * Hour))).Pairwise (fun a b => a < b) := by
    rw [List.pairwise_map]
    refine List.Pairwise.imp ?_ (List.pairwise_lt_range _)
    intro a b hab
    have : (a : Int) < (b : Int) := by exact_mod_cast hab
    rw [day_eq]
    unfold Time at *
    omega
  rw [hdates, heq]
  refine ⟨rfl, ?_, ?_, hsorted, ?_, ?_⟩
  · rw [day_eq]
    unfold Time at *
    omega
  · rw [day_eq]
    unfold Time at *
    omega
  · exact hsorted.imp (fun hab => ne_of_lt hab)
  · intro m hm
    have hn : ((endDate - startDate) / (24 * Hour)).toNat = m := by
      rw [hm, day_eq]
      unfold Time at *
      omega
    have hlen := congrArg List.length hdates
    rw [List.length_map, heq, List.length_map, List.length_range, hn] at hlen
    refine ⟨hlen, ?_, ?_⟩
    · rw [hn, List.range_succ_eq_map]
      simp
    · rw [hn, List.range_succ, List.map_append]
      simp [hm]

/-- A window of two whole days has three records, dated January 10, 11 and 12. -/
theorem calendar_covers_window_witness :
    jan10 ≤ jan12 ∧
    (EquipmentRepository.GetAvailabilityCalendar (storeWith []) 1 jan10 jan12).map
      (fun a => a.Date) = [jan10, jan10 + 24 * Hour, jan12] := by
  refine ⟨by decide, ?_⟩
  rw [(calendar_covers_window (storeWith []) 1 jan10 jan12 (by decide)).1]
  decide

/-- The calendar of `calendarStore` for January 10 to 14: the days of the pending
reservation are taken, those of the rejected one are free. -/
theorem calendarStore_calendar :
    EquipmentRepository.GetAvailabilityCalendar calendarStore 1 jan10 jan14 =
      [{ Date := jan10, Available := false }, { Date := jan10 + 24 * Hour, Available := false },
       { Date := jan12, Available := false }, { Date := jan12 + 24 * Hour, Available := true },
       { Date := jan14, Available := true }] := by
  have hf : calendarStore.reservations.filter
      (EquipmentRepository.GetAvailabilityCalendar.whereClause 1 jan10 jan14) =
      [drillRow 10 jan10 jan12 .StatusPending] := by decide
  have d1 := EquipmentRepository.GetAvailabilityCalendar.days_eq jan14 4 jan10
    (by decide) (by decide)
  have d2 := EquipmentRepository.GetAvailabilityCalendar.days_eq
    (drillRow 10 jan10 jan12 .StatusPending).end_date 2
    (drillRow 10 jan10 jan12 .StatusPending).start_date (by decide) (by decide)
  simp only [EquipmentRepository.GetAvailabilityCalendar,
    EquipmentRepository.GetAvailabilityCalendar.reservedDates, hf, d1, d2, List.map_cons,
    List.map_nil]
  decide

/-- In every store and window, a day shown as unavailable is covered, at day
granularity, by a Pending or Approved reservation of the equipment. -/
theorem EquipmentRepository.GetAvailabilityCalendar_unavailable (db : DB) (equipmentID : UUID)
    (startDate endDate : Time) (a : EquipmentAvailability)
    (ha : a ∈ EquipmentRepository.GetAvailabilityCalendar db equipmentID startDate endDate)
    (hu : a.Available = false) :
    ∃ r ∈ db.reservations, r.equipment_id = equipmentID ∧
      (r.status = .StatusPending ∨ r.status = .StatusApproved) ∧
      Time.Format r.start_date ≤ Time.Format a.Date ∧
      Time.Format a.Date ≤ Time.Format r.end_date := by
  simp only [EquipmentRepository.GetAvailabilityCalendar, List.mem_map] at ha
  obtain ⟨d, hd, rfl⟩ := ha
  have hmem : ∀ (l : List Int) (x : Int), (!l.contains x) = false ↔ x ∈ l := by
    intro l x
    simp
  have hu' : Time.Format d ∈ EquipmentRepository.GetAvailabilityCalendar.reservedDates db
      equipmentID startDate endDate := (hmem _ _).mp hu
  rw [EquipmentRepository.GetAvailabilityCalendar.mem_reservedDates] at hu'
  obtain ⟨r, hr, hw, x, hx, hkey⟩ := hu'
  rw [EquipmentRepository.GetAvailabilityCalendar.mem_days] at hx
  obtain ⟨j, hj, hxe⟩ := hx
  simp only [EquipmentRepository.GetAvailabilityCalendar.whereClause, Bool.and_eq_true,
    Bool.or_eq_true, decide_eq_true_eq] at hw
  refine ⟨r, hr, hw.1.1.1, hw.1.1.2, ?_, ?_⟩
  · simp only [Time.Format, day_eq] at hkey ⊢
    rw [day_eq] at hj
    unfold Time at *
    omega
  · simp only [Time.Format, day_eq] at hkey ⊢
    rw [day_eq] at hj
    unfold Time at *
    omega

/-- When the Pending and Approved reservations of the equipment start at
midnight UTC and do not end before they start, and the window starts at
midnight UTC, the record of the calendar for a day `d` has `available = false`
iff some Pending or Approved reservation of the equipment has
`start <= d <= end`, i.e. iff `CheckAvailability` for the range `[d, d]`
reports a conflict. -/
theorem EquipmentRepository.GetAvailabilityCalendar_whole_days (db : DB) (equipmentID : UUID)
    (startDate endDate : Time)
    (hrows : ∀ r ∈ db.reservations, r.equipment_id = equipmentID →
      (r.status = .StatusPending ∨ r.status = .StatusApproved) →
      r.start_date ≤ r.end_date ∧ r.start_date % (24 * Hour) = 0)
    (hstart : startDate % (24 * Hour) = 0)
    (a : EquipmentAvailability)
    (ha : a ∈ EquipmentRepository.GetAvailabilityCalendar db equipmentID startDate endDate) :
    (a.Available = false ↔
      ∃ r ∈ db.reservations, r.equipment_id = equipmentID ∧
        (r.status = .StatusPending ∨ r.status = .StatusApproved) ∧
        r.start_date ≤ a.Date ∧ a.Date ≤ r.end_date) ∧
    (a.Available = false ↔
      (EquipmentRepository.CheckAvailability db equipmentID a.Date a.Date).1 = .ok false) := by
  simp only [EquipmentRepository.GetAvailabilityCalendar, List.mem_map] at ha
  obtain ⟨d, hd, rfl⟩ := ha
  rw [EquipmentRepository.GetAvailabilityCalendar.mem_days] at hd
  obtain ⟨k, hk, hle⟩ := hd
  have hcover : (!(EquipmentRepository.GetAvailabilityCalendar.reservedDates db equipmentID
        startDate endDate).contains (Time.Format d)) = false ↔
      ∃ r ∈ db.reservations, r.equipment_id = equipmentID ∧
        (r.status = .StatusPending ∨ r.status = .StatusApproved) ∧
        r.start_date ≤ d ∧ d ≤ r.end_date := by
    have hmem : ∀ (l : List Int) (x : Int), (!l.contains x) = false ↔ x ∈ l := by
      intro l x
      simp
    rw [hmem]
    simp only [EquipmentRepository.GetAvailabilityCalendar.mem_reservedDates,
      EquipmentRepository.GetAvailabilityCalendar.mem_days,
      EquipmentRepository.GetAvailabilityCalendar.whereClause, Bool.and_eq_true, Bool.or_eq_true,
      decide_eq_true_eq, Time.Format]
    rw [day_eq] at hk hstart
    simp only [day_eq]
    constructor
    · rintro ⟨r, hr, ⟨⟨⟨he, hs⟩, h1⟩, h2⟩, x, ⟨j, hj, hxe⟩, hx⟩
      have hm := (hrows r hr he hs).2
      rw [day_eq] at hm
      refine ⟨r, hr, he, hs, ?_, ?_⟩
      · unfold Time at *
        omega
      · unfold Time at *
        omega
    · rintro ⟨r, hr, he, hs, h1, h2⟩
      have hm := (hrows r hr he hs).2
      rw [day_eq] at hm
      refine ⟨r, hr, ⟨⟨⟨he, hs⟩, ?_⟩, ?_⟩, d, ⟨((d - r.start_date) / 86400000000000).toNat, ?_, h2⟩,
        rfl⟩
      · unfold Time at *
        omega
      · unfold Time at *
        omega
      · unfold Time at *
        omega
  refine ⟨hcover, ?_⟩
  show (!(EquipmentRepository.GetAvailabilityCalendar.reservedDates db equipmentID
        startDate endDate).contains (Time.Format d)) = false ↔
      (EquipmentRepository.CheckAvailability db equipmentID d d).1 = .ok false
  rw [hcover]
  constructor
  · rintro ⟨r, hr, he, hs, h1, h2⟩
    have hb : r.blocking = true := by
      simp only [ReservationRow.blocking, Bool.or_eq_true, decide_eq_true_eq]
      exact hs
    have hw := whereClause_of_overlap equipmentID d d r he hb h1 h2
    have hne : db.reservations.filter
        (EquipmentRepository.CheckAvailability.whereClause equipmentID d d) ≠ [] := by
      intro hnil
      have hmem : r ∈ db.reservations.filter
          (EquipmentRepository.CheckAvailability.whereClause equipmentID d d) :=
        List.mem_filter.mpr ⟨hr, hw⟩
      rw [hnil] at hmem
      exact absurd hmem (List.not_mem_nil r)
    rw [EquipmentRepository.CheckAvailability_false db equipmentID d d hne]
  · intro hc
    by_cases hnil : db.reservations.filter
        (EquipmentRepository.CheckAvailability.whereClause equipmentID d d) = []
    · rw [EquipmentRepository.CheckAvailability_true db equipmentID d d hnil] at hc
      simp at hc
    · obtain ⟨r, hmem⟩ := List.exists_mem_of_ne_nil _ hnil
      obtain ⟨hr, hw⟩ := List.mem_filter.mp hmem
      have hw' := hw
      simp only [EquipmentRepository.CheckAvailability.whereClause, Bool.and_eq_true,
        Bool.or_eq_true, decide_eq_true_eq] at hw'
      obtain ⟨he, hb, h1, h2⟩ :=
        overlap_of_whereClause equipmentID d d r (hrows r hr hw'.1.1 hw'.1.2).1 (le_refl d) hw
      simp only [ReservationRow.blocking, Bool.or_eq_true, decide_eq_true_eq] at hb
      exact ⟨r, hr, he, hb, h1, h2⟩

/-- C22 (evaluation at the failing input).  A pending reservation of the drill
from January 10, 15:00 to January 12, 10:00 covers January 12, and the conflict
check for the one-day range `[January 12, January 12]` reports a conflict, yet
the calendar for that window shows January 12 as available: the loop over the
days of the reservation steps from its start instant and stops before its last
day. -/
theorem calendar_last_day_shown_available :
    EquipmentRepository.GetAvailabilityCalendar (storeWith [afternoonRow]) 1 jan12 jan12 =
      [{ Date := jan12, Available := true }] ∧
    EquipmentRepository.GetAvailabilityCalendar.days afternoonRow.start_date
      afternoonRow.end_date = [jan10 + 15 * Hour, jan10 + 24 * Hour + 15 * Hour] ∧
    afternoonRow ∈ (storeWith [afternoonRow]).reservations ∧
    afternoonRow.equipment_id = 1 ∧ afternoonRow.status = .StatusPending ∧
    afternoonRow.start_date ≤ jan12 ∧ jan12 ≤ afternoonRow.end_date ∧
    Time.Format afternoonRow.start_date ≤ Time.Format jan12 ∧
    Time.Format jan12 ≤ Time.Format afternoonRow.end_date ∧
    (EquipmentRepository.CheckAvailability (storeWith [afternoonRow]) 1 jan12 jan12).1 =
      .ok false := by
  have hf : (storeWith [afternoonRow]).reservations.filter
      (EquipmentRepository.GetAvailabilityCalendar.whereClause 1 jan12 jan12) =
      [afternoonRow] := by decide
  have d1 := EquipmentRepository.GetAvailabilityCalendar.days_eq jan12 0 jan12
    (by decide) (by decide)
  have d2 := EquipmentRepository.GetAvailabilityCalendar.days_eq afternoonRow.end_date 1
    afternoonRow.start_date (by decide) (by decide)
  refine ⟨?_, ?_, by decide, by decide, by decide, by decide, by decide, by decide, by decide,
    congrArg Except.ok (by decide)⟩
  · simp only [EquipmentRepository.GetAvailabilityCalendar,
      EquipmentRepository.GetAvailabilityCalendar.reservedDates, hf, d1, d2, List.map_cons,
      List.map_nil]
    decide
  · rw [d2]
    decide

/-! ## Price tiers of the equipment -/

/-- `EquipmentService.Create` refuses a request without any price: it fails with
the validation errors, one of them on `price`, and leaves the store as it was. -/
theorem EquipmentService.Create_requires_tier (db : DB) (env : Env) (ownerID : UUID)
    (req : CreateEquipmentRequest) (hh : req.PricePerHour = none) (hd : req.PricePerDay = none)
    (hw : req.PricePerWeek = none) :
    EquipmentService.Create db env ownerID req =
      (.error (.Validation (EquipmentService.Create.validation req)), db) ∧
    { Field := "price", Message := "at least one price must be set" } ∈
      EquipmentService.Create.validation req := by
  have hmem : ({ Field := "price", Message := "at least one price must be set" } :
      ValidationError) ∈ EquipmentService.Create.validation req := by
    simp [EquipmentService.Create.validation, hh, hd, hw, Validator.AddError]
  have hne : (EquipmentService.Create.validation req).HasErrors = true := by
    simp only [ValidationErrors.HasErrors, decide_eq_true_eq]
    exact List.length_pos_of_mem hmem
  exact ⟨by simp only [EquipmentService.Create, hne, if_true], hmem⟩

/-- A request accepted by the validation of `EquipmentService.Create` sets a price. -/
theorem EquipmentService.Create.validation_tier (req : CreateEquipmentRequest)
    (h : (EquipmentService.Create.validation req).HasErrors = false) :
    (req.PricePerHour.isSome || req.PricePerDay.isSome || req.PricePerWeek.isSome) = true := by
  by_contra hc
  have h3 : req.PricePerHour = none ∧ req.PricePerDay = none ∧ req.PricePerWeek = none := by
    cases hh : req.PricePerHour <;> cases hd : req.PricePerDay <;>
      cases hw : req.PricePerWeek <;> simp_all
  have hmem : ({ Field := "price", Message := "at least one price must be set" } :
      ValidationError) ∈ EquipmentService.Create.validation req := by
    simp [EquipmentService.Create.validation, h3, Validator.AddError]
  have hne : (EquipmentService.Create.validation req).HasErrors = true := by
    simp only [ValidationErrors.HasErrors, decide_eq_true_eq]
    exact List.length_pos_of_mem hmem
  rw [h] at hne
  exact absurd hne (by simp)

/-- Table `equipment` after `EquipmentService.Create`: unchanged, or extended by
an equipment with a price tier. -/
theorem EquipmentService.Create_equipment (db : DB) (env : Env) (ownerID : UUID)
    (req : CreateEquipmentRequest) :
    (EquipmentService.Create db env ownerID req).2.equipment = db.equipment ∨
    ∃ e, e.hasTier = true ∧
      (EquipmentService.Create db env ownerID req).2.equipment = db.equipment ++ [e] := by
  cases hv : (EquipmentService.Create.validation req).HasErrors with
  | true =>
    left
    simp only [EquipmentService.Create, hv, if_true]
  | false =>
    have ht := EquipmentService.Create.validation_tier req hv
    by_cases hdup : (db.equipment.any fun e => decide (e.ID = env.newID)) = true
    · left
      simp only [EquipmentService.Create, hv, Bool.false_eq_true, if_false,
        EquipmentRepository.Create, DB.record_equipment, hdup, if_true]
    · right
      refine ⟨{ ID := env.newID, OwnerID := ownerID, Name := req.Name,
                PricePerHour := req.PricePerHour, PricePerDay := req.PricePerDay,
                PricePerWeek := req.PricePerWeek, Available := true,
                AutoApprove := req.AutoApprove }, ht, ?_⟩
      simp only [EquipmentService.Create, hv, Bool.false_eq_true, if_false,
        EquipmentRepository.Create, DB.record_equipment, hdup]

/-- The field updates of `EquipmentService.Update` clear no price tier. -/
theorem EquipmentService.Update.merge_keeps_tiers (e : Equipment) (req : UpdateEquipmentRequest) :
    (e.PricePerHour.isSome = true →
      (EquipmentService.Update.merge e req).PricePerHour.isSome = true) ∧
    (e.PricePerDay.isSome = true →
      (EquipmentService.Update.merge e req).PricePerDay.isSome = true) ∧
    (e.PricePerWeek.isSome = true →
      (EquipmentService.Update.merge e req).PricePerWeek.isSome = true) := by
  unfold EquipmentService.Update.merge
  cases hh : req.PricePerHour <;> cases hd : req.PricePerDay <;> cases hw : req.PricePerWeek <;>
    cases ha : req.Available <;> cases hb : req.AutoApprove <;>
    by_cases hn : req.Name = "" <;>
    simp [hn]

/-- The field updates of `EquipmentService.Update` keep an equipment with a
price tier one. -/
theorem EquipmentService.Update.merge_hasTier (e : Equipment) (req : UpdateEquipmentRequest)
    (h : e.hasTier = true) : (EquipmentService.Update.merge e req).hasTier = true := by
  obtain ⟨h1, h2, h3⟩ := EquipmentService.Update.merge_keeps_tiers e req
  simp only [Equipment.hasTier, Bool.or_eq_true] at h ⊢
  rcases h with (h | h) | h
  · exact Or.inl (Or.inl (h1 h))
  · exact Or.inl (Or.inr (h2 h))
  · exact Or.inr (h3 h)

/-- `EquipmentService.Update` keeps every stored equipment with a price tier. -/
theorem EquipmentService.Update_hasTier (db : DB) (id ownerID : UUID)
    (req : UpdateEquipmentRequest) (h : ∀ e ∈ db.equipment, e.hasTier = true) :
    ∀ e ∈ (EquipmentService.Update db id ownerID req).2.equipment, e.hasTier = true := by
  unfold EquipmentService.Update EquipmentRepository.GetByID
  cases hf : db.equipment.find? (fun e => decide (e.ID = id)) with
  | none => simpa using h
  | some e0 =>
    have h0 : e0.hasTier = true := h e0 (List.mem_of_find?_eq_some hf)
    have hm := EquipmentService.Update.merge_hasTier e0 req h0
    simp only []
    split_ifs with hown
    · simpa using h
    · simp only [EquipmentRepository.Update, DB.record_equipment]
      split_ifs with hany
      · intro e he
        simp only [List.mem_map] at he
        obtain ⟨x, hx, rfl⟩ := he
        split_ifs
        · simpa [Equipment.hasTier] using hm
        · exact h x hx
      · simpa using h

/-- Every equipment written through `EquipmentService.Create` and
`EquipmentService.Update` has at least one price tier. -/
theorem hasTier_runEquipmentOps (ops : List EquipmentOp) (db : DB)
    (h : ∀ e ∈ db.equipment, e.hasTier = true) :
    ∀ e ∈ (runEquipmentOps db ops).equipment, e.hasTier = true := by
  induction ops generalizing db with
  | nil => exact h
  | cons op ops ih =>
    apply ih
    cases op with
    | Create env ownerID req =>
      intro e he
      rcases EquipmentService.Create_equipment db env ownerID req with hc | ⟨e', he', hc⟩
      · exact h e (by rw [EquipmentOp.exec, hc] at he; exact he)
      · rw [EquipmentOp.exec, hc, List.mem_append, List.mem_singleton] at he
        rcases he with he | rfl
        · exact h e he
        · exact he'
    | Update id ownerID req =>
      exact EquipmentService.Update_hasTier db id ownerID req h

/-- On its final `return 0` the price is 0. -/
theorem ReservationService.calculatePrice_fallback (e : Equipment) (startDate endDate : Time)
    (h : ReservationService.calculatePrice.fallback e startDate endDate = true) :
    ReservationService.calculatePrice e startDate endDate = 0 := by
  unfold ReservationService.calculatePrice.fallback at h
  cases hpw : e.PricePerWeek <;> cases hpd : e.PricePerDay <;> cases hph : e.PricePerHour <;>
    simp [hpw, hpd, hph] at h <;>
    simp [ReservationService.calculatePrice, hpw, hpd, hph, h]

/-- An equipment priced by the week only reaches the final `return 0` for every
range measured as less than 7 days. -/
theorem ReservationService.calculatePrice.fallback_weekly_only (e : Equipment)
    (startDate endDate : Time) (hd : e.PricePerDay = none) (hh : e.PricePerHour = none)
    (h7 : rentalDays startDate endDate < 7) :
    ReservationService.calculatePrice.fallback e startDate endDate = true := by
  unfold rentalDays at h7
  simp [ReservationService.calculatePrice.fallback, hd, hh, h7]

/-- C23 (evaluation at the failing input).  The final `return 0` of `calculatePrice` is reached by an equipment
with a price tier: the trailer, accepted by `EquipmentService.Create` with a
weekly price of 200 and no other, is priced 0 for a range of 3 days, and the
reservation created for that range has total price 0. -/
theorem zero_price_fallback_reached :
    (EquipmentService.Create (emptyStore []) (envAt jan01 5) 2 trailerRequest).1 = .ok trailer ∧
    (EquipmentService.Create (emptyStore []) (envAt jan01 5) 2 trailerRequest).2.equipment
      = [trailer] ∧
    trailer.hasTier = true ∧
    ReservationService.calculatePrice.fallback trailer jan10 (jan10 + 3 * (24 * Hour)) = true ∧
    ReservationService.calculatePrice trailer jan10 (jan10 + 3 * (24 * Hour)) = 0 ∧
    ∃ r, (ReservationService.Create
        (EquipmentService.Create (emptyStore []) (envAt jan01 5) 2 trailerRequest).2
        (envAt jan01 20) 7
        { EquipmentID := 5, StartDate := jan10, EndDate := jan10 + 3 * (24 * Hour) }).1 = .ok r ∧
      r.TotalPrice = 0 := by
  have h3 := rentalDays_add_days jan10 3 (by norm_num) (by norm_num)
  have hf : ReservationService.calculatePrice.fallback trailer jan10 (jan10 + 3 * (24 * Hour))
      = true :=
    ReservationService.calculatePrice.fallback_weekly_only trailer _ _ rfl rfl
      (by rw [h3]; norm_num)
  have hp := ReservationService.calculatePrice_fallback trailer _ _ hf
  refine ⟨rfl, rfl, by decide, hf, hp, ?_⟩
  refine ⟨{ ID := 20, EquipmentID := 5, Equipment := none, RenterID := 7,
            StartDate := jan10, EndDate := jan10 + 3 * (24 * Hour),
            Status := .StatusApproved,
            TotalPrice := ReservationService.calculatePrice trailer jan10
              (jan10 + 3 * (24 * Hour)),
            CancellationReason := "", CreatedAt := jan01, UpdatedAt := jan01 }, rfl, hp⟩

/-! ## Concurrent calls of `Create` -/

/-- `ReservationService.Create` is its check part followed by its insert part. -/
theorem ReservationService.Create_eq_check_insert (db : DB) (env : Env) (renterID : UUID)
    (req : CreateReservationRequest) :
    ReservationService.Create db env renterID req =
      match ReservationService.Create.check db env req with
      | (.error err, db) => (.error err, db)
      | (.ok equipment, db) => ReservationService.Create.insert db env renterID req equipment := by
  unfold ReservationService.Create ReservationService.Create.check
  by_cases hv : ValidationErrors.HasErrors (ReservationService.Create.validation env.now req) = true
  · simp only [hv, if_true]
  · simp only [hv, Bool.false_eq_true, if_false]
    rcases hg : EquipmentRepository.GetByID db req.EquipmentID with ⟨res, db1⟩
    cases res with
    | error err =>
      simp only []
      split_ifs <;> rfl
    | ok equipment =>
      simp only []
      by_cases ha : (!equipment.Available) = true
      · simp only [ha, if_true]
      · simp only [ha, Bool.false_eq_true, if_false]
        rcases hc : EquipmentRepository.CheckAvailability db1 req.EquipmentID req.StartDate
          req.EndDate with ⟨res2, db2⟩
        cases res2 with
        | error err => rfl
        | ok available =>
          simp only []
          by_cases hav : (!available) = true
          · simp only [hav, if_true]
          · simp only [hav, Bool.false_eq_true, if_false]
            rfl

/-- C24 (evaluation at the failing input).  Two concurrent calls of `Create` for the drill with overlapping ranges
both succeed in the interleaving where both availability queries are answered
before either insert: the store then holds two overlapping pending reservations
of the drill, and no call returns `ErrEquipmentUnavailable`.  Run one after the
other, the second call is refused. -/
theorem concurrent_creates_double_book :
    (ReservationService.Create.interleaved (storeWith []) (envAt jan01 20) (envAt jan01 21) 7 8
        drillRequestA drillRequestB).1 =
      .ok { ID := 20, EquipmentID := 1, Equipment := none, RenterID := 7,
            StartDate := jan10, EndDate := jan12, Status := .StatusPending,
            TotalPrice := ReservationService.calculatePrice drill jan10 jan12,
            CancellationReason := "", CreatedAt := jan01, UpdatedAt := jan01 } ∧
    (ReservationService.Create.interleaved (storeWith []) (envAt jan01 20) (envAt jan01 21) 7 8
        drillRequestA drillRequestB).2.1 =
      .ok { ID := 21, EquipmentID := 1, Equipment := none, RenterID := 8,
            StartDate := jan10, EndDate := jan14, Status := .StatusPending,
            TotalPrice := ReservationService.calculatePrice drill jan10 jan14,
            CancellationReason := "", CreatedAt := jan01, UpdatedAt := jan01 } ∧
    (ReservationService.Create.interleaved (storeWith []) (envAt jan01 20) (envAt jan01 21) 7 8
        drillRequestA drillRequestB).2.2.reservations.map
        (fun x => (x.id, x.equipment_id, x.start_date, x.end_date, x.status)) =
      [(20, 1, jan10, jan12, .StatusPending), (21, 1, jan10, jan14, .StatusPending)] ∧
    ¬ NoDoubleBooking (ReservationService.Create.interleaved (storeWith []) (envAt jan01 20)
        (envAt jan01 21) 7 8 drillRequestA drillRequestB).2.2 ∧
    (ReservationService.Create
        (ReservationService.Create (storeWith []) (envAt jan01 20) 7 drillRequestA).2
        (envAt jan01 21) 8 drillRequestB).1 = .error .ErrEquipmentUnavailable := by
  have hrows : (ReservationService.Create.interleaved (storeWith []) (envAt jan01 20)
      (envAt jan01 21) 7 8 drillRequestA drillRequestB).2.2.reservations =
      [{ id := 20, equipment_id := 1, renter_id := 7, start_date := jan10, end_date := jan12,
         status := .StatusPending,
         total_price := ReservationService.calculatePrice drill jan10 jan12,
         cancellation_reason := none, created_at := jan01, updated_at := jan01 },
       { id := 21, equipment_id := 1, renter_id := 8, start_date := jan10, end_date := jan14,
         status := .StatusPending,
         total_price := ReservationService.calculatePrice drill jan10 jan14,
         cancellation_reason := none, created_at := jan01, updated_at := jan01 }] := rfl
  refine ⟨rfl, rfl, ?_, ?_, rfl⟩
  · rw [hrows]
    rfl
  · intro hnd
    unfold NoDoubleBooking at hnd
    rw [hrows] at hnd
    have h := (List.pairwise_cons.mp hnd).1 _ (List.mem_singleton.mpr rfl) rfl (by decide)
      (by decide)
    exact absurd h (by decide)

/-! ## Pagination -/

/-- A value of the `int64` range is not changed by the wrap-around. -/
theorem wrapInt64_of_range (x : Int) (h0 : minInt64 ≤ x) (h1 : x ≤ maxInt64) :
    wrapInt64 x = x := by
  unfold wrapInt64 minInt64 maxInt64 at *
  omega

/-- A value parsed by `Atoi` is in the `int64` range. -/
theorem strconv.Atoi_range (s : String) (n : Int) (h : strconv.Atoi s = some n) :
    minInt64 ≤ n ∧ n ≤ maxInt64 := by
  unfold strconv.Atoi at h
  split at h
  · exact absurd h (by simp)
  · dsimp only at h
    split at h
    · exact absurd h (by simp)
    · split at h
      · exact absurd h (by simp)
      · split_ifs at h <;> simp at h <;> (subst h; assumption)

/-- `Atoi` fails on the empty string. -/
theorem strconv.Atoi_empty : strconv.Atoi "" = none := rfl

/-- `parseIntOrDefault` is the parsed value, or the default when `Atoi` fails. -/
theorem pagination.parseIntOrDefault_eq (value : String) (defaultValue : Int) :
    pagination.parseIntOrDefault value defaultValue =
      (strconv.Atoi value).getD defaultValue := by
  unfold pagination.parseIntOrDefault
  split_ifs with h
  · subst h
    rfl
  · cases strconv.Atoi value <;> rfl

/-- The page of `FromRequest`: the parsed value when it is at least 1, else 1. -/
theorem pagination.FromRequest_Page (query : url.Values) :
    (pagination.FromRequest query).Page =
      if (strconv.Atoi (url.Values.Get query "page")).getD 1 < 1 then 1
      else (strconv.Atoi (url.Values.Get query "page")).getD 1 := by
  simp only [pagination.FromRequest, pagination.parseIntOrDefault_eq, pagination.DefaultPage]

/-- The page size of `FromRequest`: the parsed value clamped to `[1, 100]`, with
10 for a value below 1. -/
theorem pagination.FromRequest_PerPage (query : url.Values) :
    (pagination.FromRequest query).PerPage =
      if (if (strconv.Atoi (url.Values.Get query "per_page")).getD 10 < 1 then 10
          else (strconv.Atoi (url.Values.Get query "per_page")).getD 10) > 100 then 100
      else (if (strconv.Atoi (url.Values.Get query "per_page")).getD 10 < 1 then 10
          else (strconv.Atoi (url.Values.Get query "per_page")).getD 10) := by
  simp only [pagination.FromRequest, pagination.parseIntOrDefault_eq, pagination.DefaultPerPage,
    pagination.MaxPerPage]

/-- The page of `FromRequest` is at least 1 and fits an `int`. -/
theorem pagination.FromRequest_Page_range (query : url.Values) :
    1 ≤ (pagination.FromRequest query).Page ∧ (pagination.FromRequest query).Page ≤ maxInt64 := by
  rw [pagination.FromRequest_Page]
  cases h : strconv.Atoi (url.Values.Get query "page") with
  | none => simp [maxInt64]
  | some n =>
    have hr := strconv.Atoi_range _ _ h
    simp only [Option.getD_some]
    split_ifs with h1
    · simp [maxInt64]
    · exact ⟨by omega, hr.2⟩

/-- The page size of `FromRequest` is between 1 and 100. -/
theorem pagination.FromRequest_PerPage_range (query : url.Values) :
    1 ≤ (pagination.FromRequest query).PerPage ∧ (pagination.FromRequest query).PerPage ≤ 100 := by
  rw [pagination.FromRequest_PerPage]
  split_ifs <;> omega

/-- The offset of `FromRequest` is the wrapped product of page minus one and page
size. -/
theorem pagination.FromRequest_Offset (query : url.Values) :
    (pagination.FromRequest query).Offset =
      wrapInt64 (((pagination.FromRequest query).Page - 1) *
        (pagination.FromRequest query).PerPage) := by
  have hp := pagination.FromRequest_Page_range query
  have hw : wrapInt64 ((pagination.FromRequest query).Page - 1) =
      (pagination.FromRequest query).Page - 1 := by
    apply wrapInt64_of_range
    · unfold minInt64; omega
    · omega
  rw [← hw]
  rfl

/-- Counterexample for C25: with `page=9223372036854775807` and `per_page=100`
both values are kept, the `int` product overflows and `Offset` is `-200`, not
`(Page - 1) * PerPage`; and the integer `page=99999999999999999999`, which
does not fit an `int`, is replaced by 1 instead of being kept. -/
theorem fromRequest_offset_counterexample :
    (pagination.FromRequest (queryOf "9223372036854775807" "100")).Page = 9223372036854775807 ∧
    (pagination.FromRequest (queryOf "9223372036854775807" "100")).PerPage = 100 ∧
    (pagination.FromRequest (queryOf "9223372036854775807" "100")).Offset = -200 ∧
    (pagination.FromRequest (queryOf "9223372036854775807" "100")).Offset ≠
      ((pagination.FromRequest (queryOf "9223372036854775807" "100")).Page - 1) *
        (pagination.FromRequest (queryOf "9223372036854775807" "100")).PerPage ∧
    (pagination.FromRequest (queryOf "99999999999999999999" "20")).Page = 1 := by
  decide

/-- C25, amended.  For every request query `FromRequest` returns `Page >= 1`
and `1 <= PerPage <= 100`, and `Offset = (Page - 1) * PerPage` whenever that
product fits an `int` (in particular whenever `Page <= 92233720368547758`).  A
`page` that is missing, is not a decimal integer of the `int` range, or is
below 1 becomes 1; such a `per_page` becomes 10; a `per_page` above 100 becomes
100; every other parsed value is kept as given. -/
theorem fromRequest_normalised (query : url.Values) (page perPage : Option Int)
    (hpage : strconv.Atoi (url.Values.Get query "page") = page)
    (hperPage : strconv.Atoi (url.Values.Get query "per_page") = perPage) :
    1 ≤ (pagination.FromRequest query).Page ∧
    1 ≤ (pagination.FromRequest query).PerPage ∧
    (pagination.FromRequest query).PerPage ≤ 100 ∧
    (((pagination.FromRequest query).Page - 1) * (pagination.FromRequest query).PerPage
        ≤ maxInt64 →
      (pagination.FromRequest query).Offset =
        ((pagination.FromRequest query).Page - 1) * (pagination.FromRequest query).PerPage) ∧
    ((pagination.FromRequest query).Page ≤ 92233720368547758 →
      (pagination.FromRequest query).Offset =
        ((pagination.FromRequest query).Page - 1) * (pagination.FromRequest query).PerPage) ∧
    (url.Values.Get query "page" = "" → page = none) ∧
    (url.Values.Get query "per_page" = "" → perPage = none) ∧
    (page = none → (pagination.FromRequest query).Page = 1) ∧
    (∀ n, page = some n → n < 1 → (pagination.FromRequest query).Page = 1) ∧
    (∀ n, page = some n → 1 ≤ n → (pagination.FromRequest query).Page = n) ∧
    (perPage = none → (pagination.FromRequest query).PerPage = 10) ∧
    (∀ n, perPage = some n → n < 1 → (pagination.FromRequest query).PerPage = 10) ∧
    (∀ n, perPage = some n → 100 < n → (pagination.FromRequest query).PerPage = 100) ∧
    (∀ n, perPage = some n → 1 ≤ n → n ≤ 100 → (pagination.FromRequest query).PerPage = n) := by
  have hP := pagination.FromRequest_Page_range query
  have hQ := pagination.FromRequest_PerPage_range query
  have hO := pagination.FromRequest_Offset query
  have hfit : ((pagination.FromRequest query).Page - 1) * (pagination.FromRequest query).PerPage
        ≤ maxInt64 →
      (pagination.FromRequest query).Offset =
        ((pagination.FromRequest query).Page - 1) * (pagination.FromRequest query).PerPage := by
    intro hle
    rw [hO]
    apply wrapInt64_of_range _ _ hle
    have : 0 ≤ ((pagination.FromRequest query).Page - 1) *
        (pagination.FromRequest query).PerPage :=
      mul_nonneg (by omega) (by omega)
    unfold minInt64
    omega
  refine ⟨hP.1, hQ.1, hQ.2, hfit, ?_, ?_, ?_, ?_, ?_, ?_, ?_, ?_, ?_, ?_⟩
  · intro hle
    apply hfit
    have h1 : ((pagination.FromRequest query).Page - 1) * (pagination.FromRequest query).PerPage
        ≤ 92233720368547757 * 100 :=
      mul_le_mul (by omega) hQ.2 (by omega) (by norm_num)
    unfold maxInt64
    omega
  · intro h
    rw [← hpage, h]
    rfl
  · intro h
    rw [← hperPage, h]
    rfl
  · intro h
    rw [pagination.FromRequest_Page, hpage, h]
    rfl
  · intro n h hn
    rw [pagination.FromRequest_Page, hpage, h]
    simp [hn]
  · intro n h hn
    have h1 : ¬ n < 1 := by omega
    rw [pagination.FromRequest_Page, hpage, h]
    simp only [Option.getD_some, if_neg h1]
  · intro h
    rw [pagination.FromRequest_PerPage, hperPage, h]
    rfl
  · intro n h hn
    rw [pagination.FromRequest_PerPage, hperPage, h]
    simp [hn]
  · intro n h hn
    have h1 : ¬ n < 1 := by omega
    have h2 : n > 100 := hn
    rw [pagination.FromRequest_PerPage, hperPage, h]
    simp only [Option.getD_some, if_neg h1, if_pos h2]
  · intro n h hn hn'
    have h1 : ¬ n < 1 := by omega
    have h2 : ¬ n > 100 := by omega
    rw [pagination.FromRequest_PerPage, hperPage, h]
    simp only [Option.getD_some, if_neg h1, if_neg h2]

/-- The query `page=3&per_page=20` gives page 3, page size 20 and offset 40. -/
theorem fromRequest_normalised_witness :
    strconv.Atoi (url.Values.Get (queryOf "3" "20") "page") = some 3 ∧
    strconv.Atoi (url.Values.Get (queryOf "3" "20") "per_page") = some 20 ∧
    (pagination.FromRequest (queryOf "3" "20")).Page = 3 ∧
    (pagination.FromRequest (queryOf "3" "20")).PerPage = 20 ∧
    (pagination.FromRequest (queryOf "3" "20")).Offset = 40 := by
  have h := fromRequest_normalised (queryOf "3" "20") (some 3) (some 20) (by decide) (by decide)
  obtain ⟨-, -, -, -, hoff, -, -, -, -, hpage, -, -, -, hper⟩ := h
  have h1 := hpage 3 rfl (by decide)
  have h2 := hper 20 rfl (by decide) (by decide)
  have h3 := hoff (by rw [h1]; decide)
  rw [h1, h2] at h3
  exact ⟨by decide, by decide, h1, h2, by rw [h3]; decide⟩

/-- C26.  For `0 <= total` and `1 <= perPage` (`total` an `int64`)
`CalculateTotalPages` returns the least integer `p` with `p * perPage >= total`:
0 when `total = 0`, `total / perPage` when `perPage` divides `total`, and one
more than the integer quotient otherwise. -/
theorem calculateTotalPages_is_ceiling (total perPage : Int)
    (h0 : 0 ≤ total) (ht : total ≤ maxInt64) (h1 : 1 ≤ perPage) :
    ∃ p, pagination.CalculateTotalPages total perPage = some p ∧
      total ≤ p * perPage ∧
      (∀ q : Int, total ≤ q * perPage → p ≤ q) ∧
      (total = 0 → p = 0) ∧
      (perPage ∣ total → p = total / perPage) ∧
      (¬ perPage ∣ total → p = total / perPage + 1) := by
  have hdiv : Int.tdiv total perPage = total / perPage :=
    Int.tdiv_eq_ediv h0 (by omega)
  have hmod : Int.tmod total perPage = total % perPage :=
    Int.tmod_eq_emod h0 (by omega)
  have hq0 : 0 ≤ total / perPage := Int.ediv_nonneg h0 (by omega)
  have hqle : total / perPage ≤ total := Int.ediv_le_self _ h0
  have hr0 : 0 ≤ total % perPage := Int.emod_nonneg _ (by omega)
  have hrlt : total % perPage < perPage := Int.emod_lt_of_pos _ (by omega)
  have hsplit : perPage * (total / perPage) + total % perPage = total :=
    Int.ediv_add_emod total perPage
  have hw : wrapInt64 (total / perPage) = total / perPage :=
    wrapInt64_of_range _ (by unfold minInt64; omega) (by omega)
  have hdvd : perPage ∣ total ↔ total % perPage = 0 := Int.dvd_iff_emod_eq_zero
  by_cases hz : total = 0
  · subst hz
    refine ⟨0, by simp [pagination.CalculateTotalPages], by simp, ?_, by simp, by simp, ?_⟩
    · intro q hq
      by_contra hlt
      have : q * perPage < 0 := mul_neg_of_neg_of_pos (by omega) (by omega)
      omega
    · intro hnd
      exact absurd (dvd_zero perPage) hnd
  · by_cases hr : total % perPage > 0
    · have hq1 : total / perPage + 1 ≤ maxInt64 := by
        by_contra hgt
        have hq : total / perPage = total := by omega
        have hone : perPage = 1 := by
          by_contra hne
          have h2 : 2 ≤ perPage := by omega
          have : 2 * (total / perPage) ≤ perPage * (total / perPage) :=
            mul_le_mul_of_nonneg_right h2 hq0
          unfold maxInt64 at *
          omega
        rw [hone] at hr
        simp at hr
      have hw1 : wrapInt64 (total / perPage + 1) = total / perPage + 1 :=
        wrapInt64_of_range _ (by unfold minInt64; omega) hq1
      refine ⟨total / perPage + 1, ?_, ?_, ?_, ?_, ?_, ?_⟩
      · simp only [pagination.CalculateTotalPages, if_neg hz, if_neg (show perPage ≠ 0 by omega),
          hdiv, hmod, hw, hw1, if_pos hr]
      · have : (total / perPage + 1) * perPage = perPage * (total / perPage) + perPage := by ring
        omega
      · intro q hq
        by_contra hlt
        have hle : q ≤ total / perPage := by omega
        have : q * perPage ≤ total / perPage * perPage :=
          mul_le_mul_of_nonneg_right hle (by omega)
        have : total / perPage * perPage = perPage * (total / perPage) := by ring
        omega
      · intro h
        exact absurd h hz
      · intro hd
        rw [hdvd] at hd
        omega
      · intro _
        rfl
    · have hr' : total % perPage = 0 := by omega
      refine ⟨total / perPage, ?_, ?_, ?_, ?_, ?_, ?_⟩
      · simp only [pagination.CalculateTotalPages, if_neg hz, if_neg (show perPage ≠ 0 by omega),
          hdiv, hmod, hw, if_neg hr]
      · have : total / perPage * perPage = perPage * (total / perPage) := by ring
        omega
      · intro q hq
        by_contra hlt
        have hle : q + 1 ≤ total / perPage := by omega
        have h3 : (q + 1) * perPage ≤ total / perPage * perPage :=
          mul_le_mul_of_nonneg_right hle (by omega)
        have h4 : total / perPage * perPage = perPage * (total / perPage) := by ring
        have h5 : (q + 1) * perPage = q * perPage + perPage := by ring
        omega
      · intro h
        exact absurd h hz
      · intro _
        rfl
      · intro hnd
        rw [hdvd] at hnd
        exact absurd hr' hnd

/-- The cases of the test table: `(100, 10)` gives 10, `(105, 10)` gives 11 and
`(5, 10)` gives 1. -/
theorem calculateTotalPages_is_ceiling_witness :
    pagination.CalculateTotalPages 100 10 = some 10 ∧
    pagination.CalculateTotalPages 105 10 = some 11 ∧
    pagination.CalculateTotalPages 5 10 = some 1 ∧
    ∃ p, pagination.CalculateTotalPages 105 10 = some p ∧ (105 : Int) ≤ p * 10 ∧
      (∀ q : Int, (105 : Int) ≤ q * 10 → p ≤ q) ∧ ((105 : Int) = 0 → p = 0) ∧
      ((10 : Int) ∣ 105 → p = 105 / 10) ∧ (¬ (10 : Int) ∣ 105 → p = 105 / 10 + 1) :=
  ⟨by decide, by decide, by decide,
    calculateTotalPages_is_ceiling 105 10 (by decide) (by decide) (by decide)⟩

/-! ## Password validation -/

/-- The flags computed by the loop of `Validator.Password`. -/
theorem Validator.Password.scan_eq (u : unicode.Tables) (cs : List Char) (a b c : Bool) :
    Validator.Password.scan u cs (a, b, c) =
      (a || cs.any u.IsUpper,
       b || cs.any (fun x => !u.IsUpper x && u.IsLower x),
       c || cs.any (fun x => !u.IsUpper x && !u.IsLower x && u.IsDigit x)) := by
  induction cs generalizing a b c with
  | nil => simp [Validator.Password.scan]
  | cons x xs ih =>
    simp only [Validator.Password.scan]
    cases hu : u.IsUpper x <;> cases hl : u.IsLower x <;> cases hd : u.IsDigit x <;>
      simp [ih, hu, hl, hd]

/-- `Validator.Password` adds a validation error iff the value is non-empty and
either has fewer than 8 bytes (`len` counts the bytes of the UTF-8 encoding) or
lacks an uppercase letter, a lowercase letter or a digit; the empty string is
skipped, and a call adds at most one error.  The three classes of `unicode` are
pairwise disjoint. -/
theorem Validator.Password_adds_error_iff (u : unicode.Tables)
    (hdisj : ∀ c, ¬ (u.IsUpper c = true ∧ u.IsLower c = true) ∧
      ¬ (u.IsUpper c = true ∧ u.IsDigit c = true) ∧
      ¬ (u.IsLower c = true ∧ u.IsDigit c = true))
    (v : ValidationErrors) (field value : String) :
    Validator.Password u v field "" = v ∧
    ((value ≠ "" ∧ (value.utf8ByteSize < 8 ∨
        ¬ ((∃ c ∈ value.toList, u.IsUpper c = true) ∧ (∃ c ∈ value.toList, u.IsLower c = true) ∧
          (∃ c ∈ value.toList, u.IsDigit c = true)))) →
      ∃ message, Validator.Password u v field value =
        v ++ [{ Field := field, Message := message }]) ∧
    (¬ (value ≠ "" ∧ (value.utf8ByteSize < 8 ∨
        ¬ ((∃ c ∈ value.toList, u.IsUpper c = true) ∧ (∃ c ∈ value.toList, u.IsLower c = true) ∧
          (∃ c ∈ value.toList, u.IsDigit c = true)))) →
      Validator.Password u v field value = v) ∧
    (Validator.Password u v field value).length ≤ v.length + 1 := by
  have hlow : value.toList.any (fun x => !u.IsUpper x && u.IsLower x) =
      value.toList.any u.IsLower := by
    congr 1
    funext x
    have := (hdisj x).1
    cases hu : u.IsUpper x <;> cases hl : u.IsLower x <;> simp_all
  have hdig : value.toList.any (fun x => !u.IsUpper x && !u.IsLower x && u.IsDigit x) =
      value.toList.any u.IsDigit := by
    congr 1
    funext x
    have h2 := (hdisj x).2.1
    have h3 := (hdisj x).2.2
    cases hu : u.IsUpper x <;> cases hl : u.IsLower x <;> cases hd : u.IsDigit x <;> simp_all
  have hscan : Validator.Password.scan u value.toList (false, false, false) =
      (value.toList.any u.IsUpper, value.toList.any u.IsLower, value.toList.any u.IsDigit) := by
    rw [Validator.Password.scan_eq, hlow, hdig]
    simp
  have hflags : ((∃ c ∈ value.toList, u.IsUpper c = true) ∧
      (∃ c ∈ value.toList, u.IsLower c = true) ∧ (∃ c ∈ value.toList, u.IsDigit c = true)) ↔
      ¬ ((!value.toList.any u.IsUpper || !value.toList.any u.IsLower ||
        !value.toList.any u.IsDigit) = true) := by
    simp only [Bool.or_eq_true, Bool.not_eq_true', List.any_eq_true, not_or,
      Bool.not_eq_false]
    tauto
  have hempty : Validator.Password u v field "" = v := by
    simp [Validator.Password]
  refine ⟨hempty, ?_, ?_, ?_⟩
  · rintro ⟨hne, hbad⟩
    by_cases hlen : value.utf8ByteSize < 8
    · exact ⟨"must be at least 8 characters",
        by simp only [Validator.Password, if_neg hne, if_pos hlen, Validator.AddError]⟩
    · have hno := hbad.resolve_left hlen
      rw [hflags, not_not] at hno
      exact ⟨"must contain uppercase, lowercase, and digit",
        by simp only [Validator.Password, if_neg hne, if_neg hlen, hscan, if_pos hno,
          Validator.AddError]⟩
  · intro h
    by_cases hne : value = ""
    · rw [hne]
      exact hempty
    · have hlen : ¬ value.utf8ByteSize < 8 := fun hl => h ⟨hne, Or.inl hl⟩
      have hall : ¬ ((!value.toList.any u.IsUpper || !value.toList.any u.IsLower ||
          !value.toList.any u.IsDigit) = true) := by
        rw [← hflags]
        by_contra hc
        exact h ⟨hne, Or.inr hc⟩
      simp only [Validator.Password, if_neg hne, if_neg hlen, hscan, if_neg hall]
  · by_cases hne : value = ""
    · rw [hne, hempty]
      omega
    · by_cases hlen : value.utf8ByteSize < 8
      · simp [Validator.Password, if_neg hne, if_pos hlen, Validator.AddError]
      · simp only [Validator.Password, if_neg hne, if_neg hlen, hscan]
        split_ifs <;> simp [Validator.AddError]

/-- The three ASCII classes are pairwise disjoint. -/
theorem asciiTables_disjoint (c : Char) :
    ¬ (asciiTables.IsUpper c = true ∧ asciiTables.IsLower c = true) ∧
    ¬ (asciiTables.IsUpper c = true ∧ asciiTables.IsDigit c = true) ∧
    ¬ (asciiTables.IsLower c = true ∧ asciiTables.IsDigit c = true) := by
  simp only [asciiTables, decide_eq_true_eq]
  omega

/-- The cases of the test table: `Password1` is accepted; `Pass1`, `password1`,
`PASSWORD1` and `Password` each add one error. -/
theorem Validator.Password_test_table :
    Validator.Password asciiTables [] "password" "Password1" = [] ∧
    Validator.Password asciiTables [] "password" "Pass1" =
      [{ Field := "password", Message := "must be at least 8 characters" }] ∧
    Validator.Password asciiTables [] "password" "password1" =
      [{ Field := "password", Message := "must contain uppercase, lowercase, and digit" }] ∧
    Validator.Password asciiTables [] "password" "PASSWORD1" =
      [{ Field := "password", Message := "must contain uppercase, lowercase, and digit" }] ∧
    Validator.Password asciiTables [] "password" "Password" =
      [{ Field := "password", Message := "must contain uppercase, lowercase, and digit" }] :=
  ⟨by decide, by decide, by decide, by decide, by decide⟩

/-- C27 (evaluation at the failing input).  The value `Pass1€` is not empty and
has 6 characters, fewer than 8, but its UTF-8 encoding has 8 bytes, which is
what `len` counts: `Validator.Password` adds no error, although the message of
its length check reads "must be at least 8 characters".  The ASCII value
`Pass12`, also of 6 characters, is refused with that message. -/
theorem password_length_counts_bytes :
    "Pass1€" ≠ "" ∧ "Pass1€".length = 6 ∧ "Pass1€".utf8ByteSize = 8 ∧
    Validator.Password asciiTables [] "password" "Pass1€" = [] ∧
    "Pass12".length = 6 ∧
    Validator.Password asciiTables [] "password" "Pass12" =
      [{ Field := "password", Message := "must be at least 8 characters" }] :=
  ⟨by decide, by decide, by decide, by decide, by decide, by decide⟩

/-! ## Token round trip -/

/-- A list without the separator is its only part. -/
theorem strings.Split.parts_of_not_mem (sep : Char) (l : List Char) (h : sep ∉ l) :
    strings.Split.parts sep l = [l] := by
  induction l with
  | nil => rfl
  | cons c cs ih =>
    have hc : c ≠ sep := fun e => h (by rw [e]; exact List.mem_cons_self _ _)
    have hcs : sep ∉ cs := fun hm => h (List.mem_cons_of_mem _ hm)
    simp only [strings.Split.parts, if_neg hc, ih hcs]

/-- The first part ends at the first separator. -/
theorem strings.Split.parts_append (sep : Char) (l rest : List Char) (h : sep ∉ l) :
    strings.Split.parts sep (l ++ sep :: rest) = l :: strings.Split.parts sep rest := by
  induction l with
  | nil => simp [strings.Split.parts]
  | cons c cs ih =>
    have hc : c ≠ sep := fun e => h (by rw [e]; exact List.mem_cons_self _ _)
    have hcs : sep ∉ cs := fun hm => h (List.mem_cons_of_mem _ hm)
    have ih' := ih hcs
    show strings.Split.parts sep (c :: (cs ++ sep :: rest)) = _
    rw [strings.Split.parts, if_neg hc, ih']

/-- Three strings without a dot, joined by dots, are split into themselves. -/
theorem strings.Split_three (a b c : String) (ha : '.' ∉ a.toList) (hb : '.' ∉ b.toList)
    (hc : '.' ∉ c.toList) :
    strings.Split (a ++ "." ++ b ++ "." ++ c) '.' = [a, b, c] := by
  have hl : (a ++ "." ++ b ++ "." ++ c).toList =
      a.toList ++ '.' :: (b.toList ++ '.' :: c.toList) := by
    simp [String.toList]
  simp only [strings.Split, hl, strings.Split.parts_append _ _ _ ha,
    strings.Split.parts_append _ _ _ hb, strings.Split.parts_of_not_mem _ _ hc, List.map_cons,
    List.map_nil]
  rfl

/-- `Time.Unix` is monotone. -/
theorem Time.Unix_mono (t u : Time) (h : t ≤ u) : Time.Unix t ≤ Time.Unix u := by
  unfold Time.Unix
  unfold Time at *
  omega

/-- The encoding of the stand-in library has no dot. -/
theorem sampleLibrary.escape_no_dot (b : String) :
    '.' ∉ (sampleLibrary.EncodeToString b).toList := by
  show '.' ∉ sampleLibrary.escape b.toList
  generalize b.toList = l
  induction l with
  | nil => simp [sampleLibrary.escape]
  | cons c cs ih =>
    unfold sampleLibrary.escape
    split_ifs with h1 h2
    · simp [ih]
    · simp [ih]
    · simp only [List.mem_cons, not_or]
      exact ⟨fun e => h1 e.symm, ih⟩

/-- C28.  The token that `Generate` makes for a user id, an email and a role is
accepted by `Validate` of a manager with the same secret at any time whose Unix
second is not after that of the expiry time (so at any time up to `now` plus
the expiration), and the claims returned carry that user id, email and role.
The library is used through its contracts: the base64 text has no dot and
decodes to the bytes encoded, and the JSON of the claims unmarshals to them. -/
theorem token_round_trip {Bytes : Type} (lib : jwt.Library Bytes) (m m' : jwt.Manager)
    (now later : Time) (userID : UUID) (email role : String)
    (hsecret : m'.secret = m.secret)
    (hdot : ∀ b, '.' ∉ (lib.EncodeToString b).toList)
    (hb64 : lib.DecodeString
        (lib.EncodeToString (lib.Marshal (jwt.Manager.Generate.claims m now userID email role)))
      = some (lib.Marshal (jwt.Manager.Generate.claims m now userID email role)))
    (hjson : lib.Unmarshal (lib.Marshal (jwt.Manager.Generate.claims m now userID email role))
      = some (jwt.Manager.Generate.claims m now userID email role))
    (hlater : Time.Unix later ≤ Time.Unix (Time.Add now m.expiration)) :
    ∃ claims, jwt.Manager.Validate lib m' later
        (jwt.Manager.Generate lib m now userID email role) = .ok claims ∧
      claims.UserID = userID ∧ claims.Email = email ∧ claims.Role = role := by
  have hsplit := strings.Split_three (lib.EncodeToString lib.MarshalHeader)
    (lib.EncodeToString (lib.Marshal (jwt.Manager.Generate.claims m now userID email role)))
    (jwt.Manager.sign lib m (lib.EncodeToString lib.MarshalHeader ++ "." ++
      lib.EncodeToString (lib.Marshal (jwt.Manager.Generate.claims m now userID email role))))
    (hdot _) (hdot _) (hdot _)
  have hsign : ∀ input, jwt.Manager.sign lib m' input = jwt.Manager.sign lib m input := by
    intro input
    simp only [jwt.Manager.sign, hsecret]
  have hexp : ¬ Time.Unix later >
      (jwt.Manager.Generate.claims m now userID email role).Exp := by
    simp only [jwt.Manager.Generate.claims]
    omega
  refine ⟨jwt.Manager.Generate.claims m now userID email role, ?_, rfl, rfl, rfl⟩
  simp only [jwt.Manager.Validate, jwt.Manager.Generate, hsplit, hsign, ne_eq, not_true_eq_false,
    if_false, hb64, hjson, hexp]

/-- `Time.Unix` is monotone, so a time up to the expiry time is not after it in
Unix seconds; with the stand-in library the token of the test user, made on
January 10, is accepted half an hour later. -/
theorem token_round_trip_witness :
    ∃ claims, jwt.Manager.Validate sampleLibrary testManager (jan10 + 1800000000000)
        (jwt.Manager.Generate sampleLibrary testManager jan10 7 "test@example.com" "renter")
          = .ok claims ∧
      claims.UserID = 7 ∧ claims.Email = "test@example.com" ∧ claims.Role = "renter" :=
  token_round_trip sampleLibrary testManager testManager jan10 (jan10 + 1800000000000) 7
    "test@example.com" "renter" rfl
    sampleLibrary.escape_no_dot
    (by decide) (by decide)
    (Time.Unix_mono _ _ (by decide))

/-! ## Price against duration -/

/-- C29.  The price is not monotone in the duration: with a daily price of 50
and a weekly price of 200, `calculatePrice` gives 300 for 6 days and 200 for 7
days from the same start, and 500 for 13 days against 400 for 14 days. -/
theorem calculatePrice_not_monotone :
    drill.PricePerDay = some 50 ∧ drill.PricePerWeek = some 200 ∧
    ReservationService.calculatePrice drill jan10 (jan10 + 6 * (24 * Hour)) = 300 ∧
    ReservationService.calculatePrice drill jan10 (jan10 + 7 * (24 * Hour)) = 200 ∧
    ReservationService.calculatePrice drill jan10 (jan10 + 13 * (24 * Hour)) = 500 ∧
    ReservationService.calculatePrice drill jan10 (jan10 + 14 * (24 * Hour)) = 400 ∧
    jan10 + 6 * (24 * Hour) < jan10 + 7 * (24 * Hour) ∧
    ReservationService.calculatePrice drill jan10 (jan10 + 7 * (24 * Hour)) <
      ReservationService.calculatePrice drill jan10 (jan10 + 6 * (24 * Hour)) := by
  have h6 := rentalDays_add_days jan10 6 (by norm_num) (by norm_num)
  have h7 := rentalDays_add_days jan10 7 (by norm_num) (by norm_num)
  have h13 := rentalDays_add_days jan10 13 (by norm_num) (by norm_num)
  have h14 := rentalDays_add_days jan10 14 (by norm_num) (by norm_num)
  have p6 : ReservationService.calculatePrice drill jan10 (jan10 + 6 * (24 * Hour)) = 300 := by
    rw [(ReservationService.calculatePrice_daily_hourly drill jan10 (jan10 + 6 * (24 * Hour))
      (Or.inr (by rw [h6]; norm_num))).1 50 rfl, h6, Float64.ofInt_eq _ (by norm_num),
      Float64.ofNat_eq, Float64.ofNat_eq, Float64.mul_intCast _ _ (by norm_num)]
    norm_num
  have p7 : ReservationService.calculatePrice drill jan10 (jan10 + 7 * (24 * Hour)) = 200 := by
    rw [(ReservationService.calculatePrice_weekly drill jan10 (jan10 + 7 * (24 * Hour)) 200 rfl
      (by rw [h7])).2 (Or.inr (by rw [h7]; norm_num)), h7, Float64.ofInt_eq _ (by norm_num),
      Float64.ofNat_eq, Float64.mul_intCast _ _ (by norm_num)]
    norm_num
  have p13 : ReservationService.calculatePrice drill jan10 (jan10 + 13 * (24 * Hour)) = 500 := by
    rw [(ReservationService.calculatePrice_weekly drill jan10 (jan10 + 13 * (24 * Hour)) 200 rfl
      (by rw [h13]; norm_num)).1 50 rfl (by rw [h13]; norm_num), h13,
      Float64.ofInt_eq _ (by norm_num), Float64.ofInt_eq _ (by norm_num),
      Float64.ofNat_eq, Float64.ofNat_eq, Float64.ofNat_eq,
      Float64.mul_intCast _ _ (by norm_num), Float64.mul_intCast _ _ (by norm_num),
      Float64.add_intCast _ _ (by norm_num)]
    norm_num
  have p14 : ReservationService.calculatePrice drill jan10 (jan10 + 14 * (24 * Hour)) = 400 := by
    rw [(ReservationService.calculatePrice_weekly drill jan10 (jan10 + 14 * (24 * Hour)) 200 rfl
      (by rw [h14]; norm_num)).2 (Or.inr (by rw [h14]; norm_num)), h14,
      Float64.ofInt_eq _ (by norm_num), Float64.ofNat_eq, Float64.ofNat_eq,
      Float64.mul_intCast _ _ (by norm_num)]
    norm_num
  refine ⟨rfl, rfl, p6, p7, p13, p14, by decide, ?_⟩
  rw [p6, p7]
  show Float64.lt (Float64.finite ((200 : ℕ) : ℚ)) (Float64.finite ((300 : ℕ) : ℚ)) = true
  simp only [Float64.lt, decide_eq_true_eq]
  norm_num

/-! ## The divisor of the total-pages computation -/

/-- `CalculateTotalPages` has a result whenever `perPage` is not 0. -/
theorem pagination.CalculateTotalPages_isSome (total perPage : Int) (h : perPage ≠ 0) :
    ∃ p, pagination.CalculateTotalPages total perPage = some p := by
  unfold pagination.CalculateTotalPages
  split_ifs
  · exact ⟨_, rfl⟩
  · exact ⟨_, rfl⟩
  · exact ⟨_, rfl⟩

/-- C30.  In each of the five list and search handlers the `perPage` given to
`CalculateTotalPages` is the `PerPage` of `FromRequest` for the same request,
which is at least 1, so the `meta` value is built without a division by zero
for every query and every total; `CalculateTotalPages` called with
`perPage = 0` and a non-zero `total` divides by zero. -/
theorem totalPages_divisor_nonzero (query : url.Values) (total : Int) :
    1 ≤ (pagination.FromRequest query).PerPage ∧
    (∃ p, pagination.CalculateTotalPages total (pagination.FromRequest query).PerPage = some p ∧
      EquipmentHandler.List.pageMeta query total =
        some ⟨(pagination.FromRequest query).Page, (pagination.FromRequest query).PerPage,
          total, p⟩ ∧
      EquipmentHandler.Search.pageMeta query total =
        some ⟨(pagination.FromRequest query).Page, (pagination.FromRequest query).PerPage,
          total, p⟩ ∧
      ReservationHandler.ListMyReservations.pageMeta query total =
        some ⟨(pagination.FromRequest query).Page, (pagination.FromRequest query).PerPage,
          total, p⟩ ∧
      ReservationHandler.ListOwnerReservations.pageMeta query total =
        some ⟨(pagination.FromRequest query).Page, (pagination.FromRequest query).PerPage,
          total, p⟩ ∧
      NotificationHandler.List.pageMeta query total =
        some ⟨(pagination.FromRequest query).Page, (pagination.FromRequest query).PerPage,
          total, p⟩) ∧
    (∀ t : Int, t ≠ 0 → pagination.CalculateTotalPages t 0 = none) := by
  have hQ := pagination.FromRequest_PerPage_range query
  obtain ⟨p, hp⟩ := pagination.CalculateTotalPages_isSome total
    (pagination.FromRequest query).PerPage (by omega)
  refine ⟨hQ.1, ⟨p, hp, ?_, ?_, ?_, ?_, ?_⟩, ?_⟩
  · simp only [EquipmentHandler.List.pageMeta, hp]
  · simp only [EquipmentHandler.Search.pageMeta, hp]
  · simp only [ReservationHandler.ListMyReservations.pageMeta, hp]
  · simp only [ReservationHandler.ListOwnerReservations.pageMeta, hp]
  · simp only [NotificationHandler.List.pageMeta, hp]
  · intro t ht
    simp [pagination.CalculateTotalPages, ht]

end GoApi
